import Mathlib

/-!
# NXT: bind-group layouts and the Vulkan submission engine

A shallow embedding of

* `backend/BindGroupLayout.cpp`: descriptor validation, the `LayoutBindingInfo`
  record, its hash and its equality operator;
* `backend/vulkan/VulkanBackend.cpp`: the serial clock of `Device`, its fence
  FIFO, its command pools and `TickImpl`;
* the bind-group-layout cache of `DeviceBase`, declared in `dawn_native/Device.h`;
* `generator/templates/dawn_native/ProcTable.cpp`: the validating and the
  non-validating entry point that the template generates for each method.

Conventions.  A C++ object that is mutated in place becomes a value that is
passed in and returned.  `ASSERT` is compiled out unless `NXT_ENABLE_ASSERTS`
is defined; the embedding follows the release build, so an `ASSERT` is not a
step of a function, and the doc comment of the function quotes it.  Calls
into the Vulkan driver are assumed to succeed (the source asserts so); what
the driver answers is an explicit argument of each operation.
-/

namespace backend

/-! ## Common definitions -/

/-- Modelled from the spec: `kMaxBindingsPerGroup` of `common/Constants.h`, the
public limit `MAX_BINDINGS_PER_GROUP = 16`. -/
abbrev kMaxBindingsPerGroup : Nat := 16

/-- The type `MaybeError`: success (`return {}`), or an error carrying its message. -/
inductive MaybeError where
  | ok
  | error (message : String)
  deriving DecidableEq, Repr

/-- How a call ends: the library calls used by the validation can leave the
function otherwise than by a `return`. -/
inductive Run (α : Type) where
  /-- the function returned `value` -/
  | returns (value : α)
  /-- `std::bitset::set(pos)` with `pos >= size()` threw `std::out_of_range` -/
  | throwsOutOfRange
  /-- an unchecked access (`operator[]`) outside the container: undefined behaviour -/
  | undefinedBehaviour
  deriving DecidableEq, Repr

/-- The type `std::bitset<kMaxBindingsPerGroup>`: one flag per position. -/
abbrev Bitset := Fin kMaxBindingsPerGroup → Bool

/-- A default-constructed bitset has every bit clear. -/
def Bitset.zero : Bitset := fun _ => false

/-- The read `bits[pos]`; `operator[]` does no bounds check, so a position outside
the bitset has no defined value (`none`). -/
def Bitset.test? (bits : Bitset) (pos : Nat) : Option Bool :=
  if h : pos < kMaxBindingsPerGroup then some (bits ⟨pos, h⟩) else none

/-- The call `bits.set(pos)`; `none` when `pos` is outside the bitset, where the
standard library throws `std::out_of_range`. -/
def Bitset.set? (bits : Bitset) (pos : Nat) : Option Bitset :=
  if h : pos < kMaxBindingsPerGroup then some (Function.update bits ⟨pos, h⟩ true) else none

/-- The loop `for (uint32_t binding : IterateBitSet(mask))`: the set positions, in
increasing order. -/
def IterateBitSet (mask : Bitset) : List (Fin kMaxBindingsPerGroup) :=
  (List.finRange kMaxBindingsPerGroup).filter (fun i => mask i)

/-! ## Descriptors -/

/-- One entry of `nxt::BindGroupLayoutDescriptor::bindings`.  `visibility` is the
`ShaderStageBit` bitmask and `type` the `BindingType` enum, both as the integers
the C API carries. -/
structure BindGroupBinding where
  binding : Nat
  visibility : Nat
  type : Nat
  deriving DecidableEq, Repr

/-- The record `nxt::BindGroupLayoutDescriptor`.  `nextInChain` is a pointer, `0`
being `nullptr`; the pair `numBindings`, `bindings` is the list `bindings`. -/
structure BindGroupLayoutDescriptor where
  nextInChain : Nat
  bindings : List BindGroupBinding
  deriving DecidableEq, Repr

/-- The field `numBindings`. -/
def BindGroupLayoutDescriptor.numBindings (descriptor : BindGroupLayoutDescriptor) : Nat :=
  descriptor.bindings.length

/-! ## `ValidateBindGroupLayoutDescriptor` -/

/-- The body of the `for` loop of `ValidateBindGroupLayoutDescriptor`, from
iteration `i` on, `rest` being `bindings[i..]`.  `ValidateShaderStageBit` and
`ValidateBindingType` come from the generated `ValidationUtils_autogen.h` and
are parameters. -/
def ValidateBindGroupLayoutDescriptor.loop
    (ValidateShaderStageBit ValidateBindingType : Nat → MaybeError) :
    Nat → Bitset → List BindGroupBinding → Run MaybeError
  | _, _, [] => .returns .ok
  | i, bindingsSet, binding :: rest =>
    if ¬ binding.binding ≤ kMaxBindingsPerGroup then
      .returns (.error "some binding index exceeds the maximum value")
    else
      match ValidateShaderStageBit binding.visibility with
      | .error e => .returns (.error e)
      | .ok =>
        match ValidateBindingType binding.type with
        | .error e => .returns (.error e)
        | .ok =>
          match bindingsSet.test? i with
          | none => .undefinedBehaviour
          | some true =>
            .returns (.error "some binding index was specified more than once")
          | some false =>
            match bindingsSet.set? binding.binding with
            | none => .throwsOutOfRange
            | some bindingsSet' =>
              ValidateBindGroupLayoutDescriptor.loop ValidateShaderStageBit
                ValidateBindingType (i + 1) bindingsSet' rest

/-- The function `ValidateBindGroupLayoutDescriptor(DeviceBase*, descriptor)`. -/
def ValidateBindGroupLayoutDescriptor
    (ValidateShaderStageBit ValidateBindingType : Nat → MaybeError)
    (descriptor : BindGroupLayoutDescriptor) : Run MaybeError :=
  if ¬ descriptor.nextInChain = 0 then
    .returns (.error "nextInChain must be nullptr")
  else
    ValidateBindGroupLayoutDescriptor.loop ValidateShaderStageBit ValidateBindingType
      0 Bitset.zero descriptor.bindings

/-! ## `LayoutBindingInfo`, its hash and its equality -/

/-- The record `BindGroupLayoutBase::LayoutBindingInfo`: two
`std::array<_, kMaxBindingsPerGroup>` and the mask of the populated slots. -/
structure LayoutBindingInfo where
  visibilities : Fin kMaxBindingsPerGroup → Nat
  types : Fin kMaxBindingsPerGroup → Nat
  mask : Bitset

/-- The function `HashBindingInfo`.  `Hash` and `HashCombine` come from
`common/HashUtils.h` and are parameters; `HashCombine(&hash, v, t)` updates
`hash` in place and is taken as the function giving the new value. -/
def HashBindingInfo (Hash : Bitset → Nat) (HashCombine : Nat → Nat → Nat → Nat)
    (info : LayoutBindingInfo) : Nat :=
  (IterateBitSet info.mask).foldl
    (fun hash binding => HashCombine hash (info.visibilities binding) (info.types binding))
    (Hash info.mask)

/-- The `for` loop of `operator==`, over the positions still to visit. -/
def operatorEq.loop (a b : LayoutBindingInfo) : List (Fin kMaxBindingsPerGroup) → Bool
  | [] => true
  | binding :: rest =>
    if a.visibilities binding ≠ b.visibilities binding ∨ a.types binding ≠ b.types binding then
      false
    else
      operatorEq.loop a b rest

/-- The function `operator==(const LayoutBindingInfo& a, const LayoutBindingInfo& b)`. -/
def operatorEq (a b : LayoutBindingInfo) : Bool :=
  if a.mask ≠ b.mask then
    false
  else
    operatorEq.loop a b (IterateBitSet a.mask)

/-- The uninitialised contents of the two arrays of a `LayoutBindingInfo` member:
`mBindingInfo` is default-initialised, which leaves the arrays indeterminate. -/
structure Uninit where
  visibilities : Fin kMaxBindingsPerGroup → Nat
  types : Fin kMaxBindingsPerGroup → Nat

/-- The `for` loop of the constructor `BindGroupLayoutBase::BindGroupLayoutBase`.
A write `visibilities[index]` with `index >= kMaxBindingsPerGroup` is outside
the array: undefined behaviour (`none`).  The source asserts
`!mBindingInfo.mask[index]` before setting the bit. -/
def BindGroupLayoutBase.fill :
    LayoutBindingInfo → List BindGroupBinding → Option LayoutBindingInfo
  | mBindingInfo, [] => some mBindingInfo
  | mBindingInfo, binding :: rest =>
    let index := binding.binding
    if h : index < kMaxBindingsPerGroup then
      BindGroupLayoutBase.fill
        { visibilities := Function.update mBindingInfo.visibilities ⟨index, h⟩ binding.visibility
          types := Function.update mBindingInfo.types ⟨index, h⟩ binding.type
          mask := Function.update mBindingInfo.mask ⟨index, h⟩ true } rest
    else
      none

/-- The binding info `mBindingInfo` left by the constructor
`BindGroupLayoutBase(device, descriptor, blueprint)`. -/
def BindGroupLayoutBase.bindingInfo (uninit : Uninit)
    (descriptor : BindGroupLayoutDescriptor) : Option LayoutBindingInfo :=
  BindGroupLayoutBase.fill
    { visibilities := uninit.visibilities, types := uninit.types, mask := Bitset.zero }
    descriptor.bindings

/-! ## The bind-group-layout cache of `DeviceBase` -/

/-- The type `ResultOrError<T>`: a value, or an error carrying its message. -/
inductive ResultOrError (α : Type) where
  | value (result : α)
  | error (message : String)

/-- A `BindGroupLayoutBase` object: its address, which is what a handle compares, and the
members the cache reads.  `mRefCount` is the count of `RefCounted`. -/
structure BindGroupLayoutBase where
  address : Nat
  mBindingInfo : LayoutBindingInfo
  mIsBlueprint : Bool
  mRefCount : Nat := 1

/-- The hash functor `BindGroupLayoutCacheFuncs::operator()(bgl)`. -/
def BindGroupLayoutCacheFuncs.hash (Hash : Bitset → Nat) (HashCombine : Nat → Nat → Nat → Nat)
    (bgl : BindGroupLayoutBase) : Nat :=
  HashBindingInfo Hash HashCombine bgl.mBindingInfo

/-- The equality functor `BindGroupLayoutCacheFuncs::operator()(a, b)`. -/
def BindGroupLayoutCacheFuncs.equal (a b : BindGroupLayoutBase) : Bool :=
  operatorEq a.mBindingInfo b.mBindingInfo

/-- Modelled from the spec: the member `mCaches->bindGroupLayouts` of `DeviceBase`
(`Device.cpp` is not among the sources): the set of the live, real layouts. -/
structure DeviceBase where
  bindGroupLayouts : List BindGroupLayoutBase := []

/-- Modelled from the spec: `DeviceBase::UncacheBindGroupLayout(obj)`, declared in `Device.h`:
a real layout removes itself from the cache. -/
def DeviceBase.UncacheBindGroupLayout (device : DeviceBase) (obj : BindGroupLayoutBase) :
    DeviceBase :=
  { device with
    bindGroupLayouts := device.bindGroupLayouts.filter (fun e => e.address ≠ obj.address) }

/-- The destructor `BindGroupLayoutBase::~BindGroupLayoutBase`, as the device it leaves. -/
def BindGroupLayoutBase.destructor (self : BindGroupLayoutBase) (mDevice : DeviceBase) :
    DeviceBase :=
  if ¬ self.mIsBlueprint then
    mDevice.UncacheBindGroupLayout self
  else
    mDevice

/-- Modelled from the spec: the lookup of a blueprint in the cache, "using the structural
hash and equality": the cached layout with the blueprint's hash that equals it. -/
def DeviceBase.find (Hash : Bitset → Nat) (HashCombine : Nat → Nat → Nat → Nat)
    (device : DeviceBase) (blueprint : BindGroupLayoutBase) : Option BindGroupLayoutBase :=
  device.bindGroupLayouts.find? (fun e =>
    BindGroupLayoutCacheFuncs.hash Hash HashCombine e =
        BindGroupLayoutCacheFuncs.hash Hash HashCombine blueprint &&
      BindGroupLayoutCacheFuncs.equal e blueprint)

/-- Modelled from the spec: `RefCounted::Reference` on the cached layout at `address`. -/
def DeviceBase.Reference (device : DeviceBase) (address : Nat) : DeviceBase :=
  { device with
    bindGroupLayouts := device.bindGroupLayouts.map (fun e =>
      if e.address = address then { e with mRefCount := e.mRefCount + 1 } else e) }

/-- Modelled from the spec: `RefCounted::Release` on the cached layout at `address`: the
count is decremented and the destructor runs when it reaches zero. -/
def DeviceBase.Release (device : DeviceBase) (address : Nat) : DeviceBase :=
  match device.bindGroupLayouts.find? (fun e => e.address = address) with
  | none => device
  | some obj =>
    if obj.mRefCount ≤ 1 then
      obj.destructor device
    else
      { device with
        bindGroupLayouts := device.bindGroupLayouts.map (fun e =>
          if e.address = address then { e with mRefCount := e.mRefCount - 1 } else e) }

/-- Modelled from the spec: `DeviceBase::GetOrCreateBindGroupLayout(descriptor)`, declared in
`Device.h`.  Build a blueprint from the descriptor; look it up; on a hit reference the
cached layout and return it; on a miss construct the real backend object, insert it and
return it.  `blueprintUninit` is what the blueprint's arrays hold before its constructor
runs; `CreateBindGroupLayoutImpl` is the backend factory, which gives an error or the
address of the new object and what its arrays held.  The result is `none` when a
constructor writes outside its arrays. -/
def DeviceBase.GetOrCreateBindGroupLayout (Hash : Bitset → Nat)
    (HashCombine : Nat → Nat → Nat → Nat) (blueprintUninit : Uninit)
    (CreateBindGroupLayoutImpl : BindGroupLayoutDescriptor → ResultOrError (Nat × Uninit))
    (device : DeviceBase) (descriptor : BindGroupLayoutDescriptor) :
    Option (ResultOrError Nat × DeviceBase) :=
  match BindGroupLayoutBase.bindingInfo blueprintUninit descriptor with
  | none => none
  | some info =>
    let blueprint : BindGroupLayoutBase :=
      { address := 0, mBindingInfo := info, mIsBlueprint := true }
    match device.find Hash HashCombine blueprint with
    | some cached =>
      some (.value cached.address, blueprint.destructor (device.Reference cached.address))
    | none =>
      match CreateBindGroupLayoutImpl descriptor with
      | .error message => some (.error message, blueprint.destructor device)
      | .value (address, uninit) =>
        match BindGroupLayoutBase.bindingInfo uninit descriptor with
        | none => none
        | some backendInfo =>
          let backendObj : BindGroupLayoutBase :=
            { address := address, mBindingInfo := backendInfo, mIsBlueprint := false }
          some (.value address,
            blueprint.destructor
              { device with bindGroupLayouts := backendObj :: device.bindGroupLayouts })

/-- An operation on the cache of a device: a call of `GetOrCreateBindGroupLayout`, with what
the memory and the backend give during the call, or the release of the layout at an
address. -/
inductive CacheOp where
  | getOrCreate (blueprintUninit : Uninit)
      (CreateBindGroupLayoutImpl : BindGroupLayoutDescriptor → ResultOrError (Nat × Uninit))
      (descriptor : BindGroupLayoutDescriptor)
  | release (address : Nat)

/-- The device after one operation on its cache; `none` when a constructor writes outside
its arrays. -/
def CacheOp.apply (Hash : Bitset → Nat) (HashCombine : Nat → Nat → Nat → Nat) :
    CacheOp → DeviceBase → Option DeviceBase
  | .getOrCreate blueprintUninit impl descriptor, device =>
    (device.GetOrCreateBindGroupLayout Hash HashCombine blueprintUninit impl descriptor).map
      Prod.snd
  | .release address, device => some (device.Release address)

/-- The device after a sequence of operations on its cache, the first of the list first. -/
def DeviceBase.run (Hash : Bitset → Nat) (HashCombine : Nat → Nat → Nat → Nat) :
    List CacheOp → DeviceBase → Option DeviceBase
  | [], device => some device
  | op :: ops, device =>
    match op.apply Hash HashCombine device with
    | none => none
    | some device' => DeviceBase.run Hash HashCombine ops device'

/-- No two layouts of the cache are equal under `BindGroupLayoutCacheFuncs`. -/
def DeviceBase.Distinct (device : DeviceBase) : Prop :=
  device.bindGroupLayouts.Pairwise (fun a b => BindGroupLayoutCacheFuncs.equal a b = false)

/-! ## The Vulkan backend: `Device` -/

namespace vulkan

/-- The type `Serial` (`uint64_t`).  Serials start at 1 and only ever grow by one per
submission or tick, so the wrap-around at `2^64` is out of reach and the counters are
natural numbers; `mNextSerial - 1` is only evaluated on `mNextSerial ≥ 1`. -/
abbrev Serial := Nat

/-- A Vulkan handle (`VkFence`, `VkSemaphore`, `VkCommandPool`, `VkCommandBuffer`). -/
abbrev VkHandle := Nat

/-- The null handle. -/
abbrev VK_NULL_HANDLE : VkHandle := 0

/-- The values of `VkResult` that `vkGetFenceStatus` can give. -/
inductive VkResult where
  | VK_SUCCESS
  | VK_NOT_READY
  | VK_ERROR_DEVICE_LOST
  deriving DecidableEq, Repr

/-- The record `Device::CommandPoolAndBuffer`; both members default to the null handle. -/
structure CommandPoolAndBuffer where
  pool : VkHandle := VK_NULL_HANDLE
  commandBuffer : VkHandle := VK_NULL_HANDLE
  deriving DecidableEq, Repr

/-- Modelled from the spec: the class template `SerialQueue<T>` of `common/SerialQueue.h`,
which is not among the sources: a FIFO of values, each tagged with the serial it was
enqueued with. -/
abbrev SerialQueue (α : Type) := List (α × Serial)

/-- Modelled from the spec: `SerialQueue::Enqueue(value, serial)` appends at the back. -/
def SerialQueue.Enqueue {α : Type} (q : SerialQueue α) (value : α) (serial : Serial) :
    SerialQueue α :=
  q ++ [(value, serial)]

/-- Modelled from the spec: `SerialQueue::IterateUpTo(serial)` visits, in queue order, every
value whose serial is at most `serial`. -/
def SerialQueue.IterateUpTo {α : Type} (q : SerialQueue α) (serial : Serial) : List α :=
  (q.filter (fun e => e.2 ≤ serial)).map Prod.fst

/-- Modelled from the spec: `SerialQueue::ClearUpTo(serial)` removes every entry whose serial
is at most `serial`. -/
def SerialQueue.ClearUpTo {α : Type} (q : SerialQueue α) (serial : Serial) : SerialQueue α :=
  q.filter (fun e => ¬ e.2 ≤ serial)

/-- Modelled from the spec: `SerialQueue::Empty()`. -/
def SerialQueue.Empty {α : Type} (q : SerialQueue α) : Bool :=
  q.isEmpty

/-- What the Vulkan driver answers during one operation of the device: the status of each
fence, and the handles it writes when asked to create a fence or a command pool and
buffer.  Every call is taken to return `VK_SUCCESS`, as the source asserts. -/
structure Driver where
  GetFenceStatus : VkHandle → VkResult
  CreateFence : VkHandle
  CreateCommandPool : VkHandle
  AllocateCommandBuffers : VkHandle

/-- The serial engine of `backend::vulkan::Device`: the members declared at the end of
`VulkanBackend.h`.  `mFencesInFlight` is a `std::queue` whose front is the head of the
list; the `std::vector`s have their back at the end of the list.
`mSemaphoresToDelete` is the semaphore FIFO of `mDeleter`. -/
structure Device where
  mFencesInFlight : List (VkHandle × Serial) := []
  mUnusedFences : List VkHandle := []
  mNextSerial : Serial := 1
  mCompletedSerial : Serial := 0
  mCommandsInFlight : SerialQueue CommandPoolAndBuffer := []
  mUnusedCommands : List CommandPoolAndBuffer := []
  mPendingCommands : CommandPoolAndBuffer := {}
  mWaitSemaphores : List VkHandle := []
  mSemaphoresToDelete : SerialQueue VkHandle := []
  deriving DecidableEq, Repr

namespace Device

/-- The method `Device::GetSerial`. -/
def GetSerial (d : Device) : Serial :=
  d.mNextSerial

/-- Modelled from the spec: `FencedDeleter::DeleteWhenUnused(VkSemaphore)` enqueues the
handle with the current `next_serial` (`FencedDeleter.cpp` is not among the sources). -/
def DeleteWhenUnused (d : Device) (semaphore : VkHandle) : Device :=
  { d with mSemaphoresToDelete := d.mSemaphoresToDelete.Enqueue semaphore d.GetSerial }

/-- Modelled from the spec: `FencedDeleter::Tick(completedSerial)` destroys every entry whose
serial is at most `completedSerial`. -/
def DeleterTick (d : Device) (completedSerial : Serial) : Device :=
  { d with mSemaphoresToDelete := d.mSemaphoresToDelete.ClearUpTo completedSerial }

/-- The method `Device::GetUnusedFence`: the back of `mUnusedFences`, or a new fence. -/
def GetUnusedFence (drv : Driver) (d : Device) : VkHandle × Device :=
  match d.mUnusedFences.getLast? with
  | some fence => (fence, { d with mUnusedFences := d.mUnusedFences.dropLast })
  | none => (drv.CreateFence, d)

/-- The `while` loop of `Device::CheckPassedFences`, `fences` being the content of
`mFencesInFlight` at the loop test.  The source asserts
`fenceSerial > mCompletedSerial` before the assignment. -/
def CheckPassedFences.loop (drv : Driver) : List (VkHandle × Serial) → Device → Device
  | [], d => { d with mFencesInFlight := [] }
  | (fence, fenceSerial) :: rest, d =>
    if drv.GetFenceStatus fence = VkResult.VK_NOT_READY then
      { d with mFencesInFlight := (fence, fenceSerial) :: rest }
    else
      CheckPassedFences.loop drv rest
        { d with
          mUnusedFences := d.mUnusedFences ++ [fence]
          mCompletedSerial := fenceSerial }

/-- The method `Device::CheckPassedFences`. -/
def CheckPassedFences (drv : Driver) (d : Device) : Device :=
  CheckPassedFences.loop drv d.mFencesInFlight d

/-- The method `Device::GetUnusedCommands`: the back of `mUnusedCommands`, or a new pool
with one command buffer. -/
def GetUnusedCommands (drv : Driver) (d : Device) : CommandPoolAndBuffer × Device :=
  match d.mUnusedCommands.getLast? with
  | some commands => (commands, { d with mUnusedCommands := d.mUnusedCommands.dropLast })
  | none => ({ pool := drv.CreateCommandPool, commandBuffer := drv.AllocateCommandBuffers }, d)

/-- The method `Device::RecycleCompletedCommands`. -/
def RecycleCompletedCommands (d : Device) : Device :=
  { d with
    mUnusedCommands := d.mUnusedCommands ++ d.mCommandsInFlight.IterateUpTo d.mCompletedSerial
    mCommandsInFlight := d.mCommandsInFlight.ClearUpTo d.mCompletedSerial }

/-- The method `Device::FreeCommands`, on the record it is given. -/
def FreeCommands (_commands : CommandPoolAndBuffer) : CommandPoolAndBuffer :=
  { pool := VK_NULL_HANDLE, commandBuffer := VK_NULL_HANDLE }

/-- The method `Device::GetPendingCommandBuffer`: the command buffer returned and the
device afterwards. -/
def GetPendingCommandBuffer (drv : Driver) (d : Device) : VkHandle × Device :=
  if d.mPendingCommands.pool = VK_NULL_HANDLE then
    let (commands, d1) := d.GetUnusedCommands drv
    (commands.commandBuffer, { d1 with mPendingCommands := commands })
  else
    (d.mPendingCommands.commandBuffer, d)

/-- The method `Device::SubmitPendingCommands`. -/
def SubmitPendingCommands (drv : Driver) (d : Device) : Device :=
  if d.mPendingCommands.pool = VK_NULL_HANDLE then
    d
  else
    let (fence, d1) := d.GetUnusedFence drv
    let d2 : Device :=
      { d1 with
        mCommandsInFlight := d1.mCommandsInFlight.Enqueue d1.mPendingCommands d1.mNextSerial
        mPendingCommands := {}
        mFencesInFlight := d1.mFencesInFlight ++ [(fence, d1.mNextSerial)] }
    let d3 := d2.mWaitSemaphores.foldl DeleteWhenUnused d2
    { d3 with
      mWaitSemaphores := []
      mNextSerial := d3.mNextSerial + 1 }

/-- The method `Device::AddWaitSemaphore`. -/
def AddWaitSemaphore (semaphore : VkHandle) (d : Device) : Device :=
  { d with mWaitSemaphores := d.mWaitSemaphores ++ [semaphore] }

/-- The last statement of `Device::TickImpl`: submit the pending commands, or advance both
serials when nothing is in flight. -/
def TickImpl.submitOrAdvance (drv : Driver) (d : Device) : Device :=
  if d.mPendingCommands.pool ≠ VK_NULL_HANDLE then
    d.SubmitPendingCommands drv
  else if d.mCompletedSerial = d.mNextSerial - 1 then
    { d with
      mCompletedSerial := d.mCompletedSerial + 1
      mNextSerial := d.mNextSerial + 1 }
  else
    d

/-- The method `Device::TickImpl`.  The `Tick` methods of `mMapRequestTracker`,
`mBufferUploader` and `mMemoryAllocator` receive `mCompletedSerial` by value and keep
their own state; they leave the members of `Device` as they are. -/
def TickImpl (drv : Driver) (d : Device) : Device :=
  let d1 := d.CheckPassedFences drv
  let d2 := d1.RecycleCompletedCommands
  let d3 := d2.DeleterTick d2.mCompletedSerial
  TickImpl.submitOrAdvance drv d3

end Device

/-- The method `Queue::Submit(numCommands, commands)` on the queue's device.
`RecordCommands` writes each command buffer into the native command buffer, which is
not part of the device's members. -/
def Queue.Submit (drv : Driver) (_commands : List VkHandle) (d : Device) : Device :=
  let (_commandBuffer, d1) := d.GetPendingCommandBuffer drv
  d1.SubmitPendingCommands drv

/-- The device when `Device::TickImpl` reaches its last statement, the `if` that submits the
pending commands or advances the serials: after `CheckPassedFences`,
`RecycleCompletedCommands` and the `Tick` of the helper objects. -/
def Device.TickImpl.atLastStatement (drv : Driver) (d : Device) : Device :=
  let d1 := d.CheckPassedFences drv
  let d2 := d1.RecycleCompletedCommands
  d2.DeleterTick d2.mCompletedSerial

/-- The operations on a device that the host and the frontend call. -/
inductive Op where
  | GetPendingCommandBuffer (drv : Driver)
  | AddWaitSemaphore (semaphore : VkHandle)
  | SubmitPendingCommands (drv : Driver)
  | QueueSubmit (drv : Driver) (commands : List VkHandle)
  | TickImpl (drv : Driver)

/-- The device after one operation. -/
def Op.apply : Op → Device → Device
  | .GetPendingCommandBuffer drv, d => (d.GetPendingCommandBuffer drv).2
  | .AddWaitSemaphore semaphore, d => d.AddWaitSemaphore semaphore
  | .SubmitPendingCommands drv, d => d.SubmitPendingCommands drv
  | .QueueSubmit drv commands, d => Queue.Submit drv commands d
  | .TickImpl drv, d => d.TickImpl drv

/-- The device after a sequence of operations, the first of the list first. -/
def run (ops : List Op) (d : Device) : Device :=
  ops.foldl (fun d op => op.apply d) d

/-- A freshly constructed device: `mNextSerial = 1`, `mCompletedSerial = 0`, nothing in
flight, nothing pending. -/
def Device.initial : Device := {}

/-- The states a device reaches from its initial state by any sequence of operations. -/
inductive Reachable : Device → Prop where
  | initial : Reachable Device.initial
  | step (op : Op) {d : Device} : Reachable d → Reachable (op.apply d)

/-- The serial invariant of a device: the serials of the fences in flight increase strictly
from the front to the back of the FIFO, each lies strictly between `mCompletedSerial`
and `mNextSerial`, and `mCompletedSerial < mNextSerial`. -/
def SerialInv (d : Device) : Prop :=
  (d.mCompletedSerial :: d.mFencesInFlight.map Prod.snd).Pairwise (· < ·) ∧
    (∀ x ∈ d.mFencesInFlight, x.2 < d.mNextSerial) ∧ d.mCompletedSerial < d.mNextSerial

/-- Whether the status of a fence lets `CheckPassedFences` go past it: the loop stops on
`VK_NOT_READY` only.  The source asserts that the status is `VK_SUCCESS` or
`VK_NOT_READY`, so a fence that is passed is one that reports done. -/
def Driver.done (drv : Driver) (x : VkHandle × Serial) : Bool :=
  decide (drv.GetFenceStatus x.1 ≠ VkResult.VK_NOT_READY)

/-- A Vulkan entry point called through `fn`, with the handle it is called on. -/
inductive VkCall where
  | CreateCommandPool
  | AllocateCommandBuffers (pool : VkHandle)
  | BeginCommandBuffer (commandBuffer : VkHandle)
  deriving DecidableEq, Repr

/-- The Vulkan calls that `Device::GetUnusedCommands` makes: none when it takes the back of
`mUnusedCommands`. -/
def Device.GetUnusedCommands.calls (drv : Driver) (d : Device) : List VkCall :=
  match d.mUnusedCommands.getLast? with
  | some _ => []
  | none => [VkCall.CreateCommandPool, VkCall.AllocateCommandBuffers drv.CreateCommandPool]

/-- The Vulkan calls that `Device::GetPendingCommandBuffer` makes, in order. -/
def Device.GetPendingCommandBuffer.calls (drv : Driver) (d : Device) : List VkCall :=
  if d.mPendingCommands.pool = VK_NULL_HANDLE then
    Device.GetUnusedCommands.calls drv d ++
      [VkCall.BeginCommandBuffer (d.GetUnusedCommands drv).1.commandBuffer]
  else
    []

/-- Modelled from the spec: `DeviceBase::Tick` (`Device.cpp` is not among the sources), the
tick the host calls, which runs the backend's `TickImpl`. -/
def Device.Tick (drv : Driver) (d : Device) : Device :=
  d.TickImpl drv

/-- The destructor `Device::~Device`, on the members of the serial engine: from
`FreeCommands(&mPendingCommands)` to `mUnusedFences.clear()`.  The source asserts
`mFencesInFlight.empty()` after `CheckPassedFences`, and `mCommandsInFlight.Empty()` and
`mWaitSemaphores.empty()` after `Tick`.  What follows deletes the helper objects and the
instance-level handles. -/
def Device.destructor (drv : Driver) (d : Device) : Device :=
  let d1 : Device := { d with mPendingCommands := Device.FreeCommands d.mPendingCommands }
  let d2 := d1.CheckPassedFences drv
  let d3 : Device := { d2 with mCompletedSerial := d2.mNextSerial }
  let d4 := d3.Tick drv
  { d4 with
    mUnusedCommands := []
    mUnusedFences := [] }

/-- The command pools a device keeps are real ones, and a submission in flight carries a
serial that `mNextSerial` has passed. -/
def CommandsInv (d : Device) : Prop :=
  (∀ c ∈ d.mUnusedCommands, c.pool ≠ VK_NULL_HANDLE) ∧
    ∀ e ∈ d.mCommandsInFlight, e.1.pool ≠ VK_NULL_HANDLE ∧ e.2 < d.mNextSerial

end vulkan

/-! ## The generated proc tables: `generator/templates/dawn_native/ProcTable.cpp` -/

/-- The test `maybeError.IsError()`. -/
def MaybeError.IsError : MaybeError → Bool
  | .ok => false
  | .error _ => true

/-- The message of the error that `maybeError.AcquireError()` hands over. -/
def MaybeError.GetMessage : MaybeError → String
  | .ok => ""
  | .error message => message

/-- The method `DeviceBase::ConsumedError` of `Device.h`: it returns whether `maybeError` is an
error, and only then passes it to `ConsumeError`. -/
def DeviceBase.ConsumedError (maybeError : MaybeError) : Bool :=
  if maybeError.IsError then true else false

namespace dawn_native

/-- The category of the type of an argument (`arg.type.category`); the template tells
`"enum"` (`enumeration`), `"bitmask"` and `"structure"` (`record`) from the rest. -/
inductive Category where
  | enumeration
  | bitmask
  | record
  | object
  | native
  deriving DecidableEq, Repr

/-- An entry of `method.arguments`: `as_varName(arg.name)`, `arg.type.category`,
`as_cppType(arg.type.name)` and `arg.annotation`. -/
structure Argument where
  name : String
  category : Category
  cppType : String
  annotation : String
  deriving DecidableEq, Repr

/-- What the template reads of one pair of a type and a method: `suffix` is
`as_MethodSuffix(type.name, method.name)`, `isBuilder` is `type.is_builder`, `name` is
`method.name.canonical_case()`, and `returnsVoid` says whether the canonical name of
`method.return_type` is `"void"`. -/
structure Method where
  suffix : String
  isBuilder : Bool
  name : String
  arguments : List Argument
  returnsVoid : Bool
  deriving DecidableEq, Repr

/-- The template variable `methodsWithExtraValidation`. -/
def methodsWithExtraValidation : List String :=
  ["CommandBufferBuilderGetResult", "QueueSubmit"]

/-- The object `self` of a call, as far as an entry point looks at it, with the code it
calls that the template does not hold: `CanBeUsed` is what `self->CanBeUsed()` returns,
`Validate cppType` is the generated `Validate{{cppType}}`, `ValidateMethod` is
`self->Validate{{Method}}`, `Method` gives the result of `self->{{Method}}`, and
`HandleResult` what `self->HandleResult` returns.  The checks are queries: they leave
the object as it is, so `Method` answers the same after them as without them. -/
structure Self where
  CanBeUsed : Bool
  Validate : String → Nat → MaybeError
  ValidateMethod : List Nat → MaybeError
  Method : List Nat → Nat
  HandleResult : Nat → Bool

/-- A call that an entry point makes, with its arguments.  `DeviceHandleError` is
`self->GetDevice()->HandleError`, `HandleError` is `self->HandleError` on a builder, and
`ConsumedError` is `self->GetDevice()->ConsumedError`. -/
inductive Call where
  | CanBeUsed
  | Validate (cppType : String) (value : Nat)
  | ValidateMethod (args : List Nat)
  | DeviceHandleError (message : String)
  | HandleError (message : String)
  | ConsumedError (maybeError : MaybeError)
  | HandleResult (result : Nat)
  | Method (args : List Nat)
  deriving DecidableEq, Repr

/-- Whether a call is one of `HandleError` (on the device or on the builder) and
`ConsumedError`. -/
def Call.isHandleOrConsumedError : Call → Bool
  | .DeviceHandleError _ => true
  | .HandleError _ => true
  | .ConsumedError _ => true
  | _ => false

/-- Whether a call reports an error: `HandleError` always does, `ConsumedError` does when it
is given an error. -/
def Call.reportsError : Call → Bool
  | .DeviceHandleError _ => true
  | .HandleError _ => true
  | .ConsumedError maybeError => DeviceBase.ConsumedError maybeError
  | _ => false

/-- Whether a call is the underlying method `self->{{Method}}`. -/
def Call.isMethod : Call → Bool
  | .Method _ => true
  | _ => false

/-- How an entry point passes an argument on to the method: a `static_cast` to the C++
type for an enum or a bitmask, a `reinterpret_cast` to a pointer to the C++ structure for
a structure that is not passed by value, and the argument itself otherwise.  The casts
keep the value. -/
def convert (arg : Argument) (value : Nat) : Nat :=
  if arg.category = Category.enumeration ∨ arg.category = Category.bitmask then
    value
  else if arg.category = Category.record ∧ arg.annotation ≠ "value" then
    value
  else
    value

/-- The argument list of the call `self->{{Method}}(...)`; `values` are the values of the
parameters of the entry point after `self`, in the order of `method.arguments`. -/
def convertAll (m : Method) (values : List Nat) : List Nat :=
  (m.arguments.zip values).map (fun p => convert p.1 p.2)

/-- The entry point `NonValidating{{suffix}}`: what it returns (`none` for `void`) and the
calls it makes. -/
def NonValidating (m : Method) (self : Self) (values : List Nat) : Option Nat × List Call :=
  let result := self.Method (convertAll m values)
  (if m.returnsVoid then none else some result, [Call.Method (convertAll m values)])

/-- The error call of `ValidateBase{{suffix}}` on a bad value: on the builder for a builder
type, on the device otherwise. -/
def badValue (m : Method) : Call :=
  if m.isBuilder then
    Call.HandleError ("Bad value in " ++ m.suffix)
  else
    Call.DeviceHandleError ("Bad value in " ++ m.suffix)

/-- The `for` loop of `ValidateBase{{suffix}}` over the arguments still to check, `error`
being the local variable: what the function returns and the calls it makes.  `checked`
is `error` after the check of the argument, with the call the check makes. -/
def ValidateBase.loop (m : Method) (self : Self) :
    Bool → List (Argument × Nat) → Bool × List Call
  | _, [] => (true, [])
  | error, (arg, value) :: rest =>
    let checked : Bool × List Call :=
      if arg.category = Category.enumeration ∨ arg.category = Category.bitmask then
        (if (self.Validate arg.cppType value).IsError then true else error,
          [Call.Validate arg.cppType value])
      else
        (error, [])
    if checked.1 then
      (false, checked.2 ++ [badValue m])
    else
      ((ValidateBase.loop m self checked.1 rest).1,
        checked.2 ++ (ValidateBase.loop m self checked.1 rest).2)

/-- The function `ValidateBase{{suffix}}`: what it returns and the calls it makes. -/
def ValidateBase (m : Method) (self : Self) (values : List Nat) : Bool × List Call :=
  if m.isBuilder ∧ m.name ≠ "release" ∧ m.name ≠ "reference" then
    if ¬ self.CanBeUsed then
      (false, [Call.CanBeUsed, Call.DeviceHandleError "Builder cannot be used after GetResult"])
    else
      ((ValidateBase.loop m self false (m.arguments.zip values)).1,
        Call.CanBeUsed :: (ValidateBase.loop m self false (m.arguments.zip values)).2)
  else
    ValidateBase.loop m self false (m.arguments.zip values)

/-- The first part of the entry point `Validating{{suffix}}`, down to the extra validation:
the value of the local variable `valid` and the calls made so far. -/
def Validating.checks (m : Method) (self : Self) (values : List Nat) : Bool × List Call :=
  let base := ValidateBase m self values
  if m.suffix ∈ methodsWithExtraValidation then
    if base.1 then
      let error := self.ValidateMethod values
      if m.isBuilder then
        if error.IsError then
          (false, base.2 ++ [Call.ValidateMethod values, Call.HandleError error.GetMessage])
        else
          (base.1, base.2 ++ [Call.ValidateMethod values])
      else
        (! DeviceBase.ConsumedError error,
          base.2 ++ [Call.ValidateMethod values, Call.ConsumedError error])
    else
      base
  else
    base

/-- The entry point `Validating{{suffix}}`: what it returns (`none` for `void`, `some 0` for
the value-initialised `return {}`) and the calls it makes.  The source asserts that
`HandleResult(fakeResult)` returns `false`. -/
def Validating (m : Method) (self : Self) (values : List Nat) : Option Nat × List Call :=
  let checks := Validating.checks m self values
  let handled : List Call :=
    if m.isBuilder ∧ m.name = "get result" then
      if ¬ checks.1 then [Call.HandleResult 0] else []
    else
      []
  if ¬ checks.1 then
    (if m.returnsVoid then none else some 0, checks.2 ++ handled)
  else
    let result := self.Method (convertAll m values)
    (if m.returnsVoid then none else some result,
      checks.2 ++ handled ++ [Call.Method (convertAll m values)])

end dawn_native

/-! ## Destruction of a layout, the fence assertion and `Device::CreateDevice` -/

/-- The calls of `mDevice->UncacheBindGroupLayout` that the destructor
`BindGroupLayoutBase::~BindGroupLayoutBase` makes, each with the address of the layout it
passes (`this`). -/
def BindGroupLayoutBase.destructor.calls (self : BindGroupLayoutBase) : List Nat :=
  if ¬ self.mIsBlueprint then
    [self.address]
  else
    []

namespace vulkan

/-- The assertion `ASSERT(fenceSerial > mCompletedSerial)` of `Device::CheckPassedFences`,
along the `while` loop: whether it holds each time the loop reaches it, `fences` being the
content of `mFencesInFlight` at the loop test and `completed` the value of
`mCompletedSerial` there. -/
def Device.CheckPassedFences.asserts (drv : Driver) : List (VkHandle × Serial) → Serial → Bool
  | [], _ => true
  | (fence, fenceSerial) :: rest, completed =>
    if drv.GetFenceStatus fence = VkResult.VK_NOT_READY then
      true
    else
      decide (fenceSerial > completed) && Device.CheckPassedFences.asserts drv rest fenceSerial

/-- The loop `for (VkSemaphore semaphore : mWaitSemaphores)` of
`Device::SubmitPendingCommands`, over the semaphores still to visit: the calls of
`mDeleter->DeleteWhenUnused` it makes, each with the semaphore it passes and the value
`mNextSerial` has during the call. -/
def Device.SubmitPendingCommands.deleterLoop : List VkHandle → Device → List (VkHandle × Serial)
  | [], _ => []
  | semaphore :: rest, d =>
    (semaphore, d.mNextSerial) ::
      Device.SubmitPendingCommands.deleterLoop rest (d.DeleteWhenUnused semaphore)

/-- The calls of `mDeleter->DeleteWhenUnused` that `Device::SubmitPendingCommands` makes, in
order, each with the semaphore it passes and the value `mNextSerial` has during the
call. -/
def Device.SubmitPendingCommands.calls (drv : Driver) (d : Device) : List (VkHandle × Serial) :=
  if d.mPendingCommands.pool = VK_NULL_HANDLE then
    []
  else
    let (fence, d1) := d.GetUnusedFence drv
    let d2 : Device :=
      { d1 with
        mCommandsInFlight := d1.mCommandsInFlight.Enqueue d1.mPendingCommands d1.mNextSerial
        mPendingCommands := {}
        mFencesInFlight := d1.mFencesInFlight ++ [(fence, d1.mNextSerial)] }
    Device.SubmitPendingCommands.deleterLoop d2.mWaitSemaphores d2

/-- The record `VkQueueFamilyProperties` of the Vulkan headers, of which `CreateDevice` reads
`queueFlags`. -/
structure VkQueueFamilyProperties where
  queueFlags : Nat
  deriving DecidableEq, Repr

/-- The bit `VK_QUEUE_GRAPHICS_BIT` of the Vulkan headers. -/
abbrev VK_QUEUE_GRAPHICS_BIT : Nat := 1

/-- The bit `VK_QUEUE_COMPUTE_BIT` of the Vulkan headers. -/
abbrev VK_QUEUE_COMPUTE_BIT : Nat := 2

/-- The bit `VK_QUEUE_TRANSFER_BIT` of the Vulkan headers. -/
abbrev VK_QUEUE_TRANSFER_BIT : Nat := 4

/-- The constant `kUniversalFlags` of `Device::CreateDevice`. -/
abbrev kUniversalFlags : Nat :=
  VK_QUEUE_GRAPHICS_BIT ||| VK_QUEUE_COMPUTE_BIT ||| VK_QUEUE_TRANSFER_BIT

/-- A queue family whose flags contain the graphics, the compute and the transfer bit. -/
def VkQueueFamilyProperties.universal (family : VkQueueFamilyProperties) : Prop :=
  family.queueFlags &&& VK_QUEUE_GRAPHICS_BIT ≠ 0 ∧
    family.queueFlags &&& VK_QUEUE_COMPUTE_BIT ≠ 0 ∧
    family.queueFlags &&& VK_QUEUE_TRANSFER_BIT ≠ 0

instance (family : VkQueueFamilyProperties) : Decidable family.universal := by
  unfold VkQueueFamilyProperties.universal
  infer_instance

/-- The conversion of an `unsigned int` to `int`, both of 32 bits, as in
`universalQueueFamily = i`. -/
def toInt32 (i : Nat) : Int :=
  if i % 2 ^ 32 < 2 ^ 31 then ((i % 2 ^ 32 : Nat) : Int) else ((i % 2 ^ 32 : Nat) : Int) - 2 ^ 32

/-- The conversion `static_cast<uint32_t>` of an `int`. -/
def toUInt32 (x : Int) : Nat :=
  (x % 2 ^ 32).toNat

/-- The `for` loop of `Device::CreateDevice` that looks for a universal queue family, from
the counter `i` on, `families` being `mDeviceInfo.queueFamilies[i..]`: the value of
`universalQueueFamily` after the loop.  The vector is filled by
`vkGetPhysicalDeviceQueueFamilyProperties`, whose count is a `uint32_t`, so the counter
`i` does not wrap. -/
def Device.CreateDevice.findUniversal : Nat → List VkQueueFamilyProperties → Int
  | _, [] => -1
  | i, family :: rest =>
    if family.queueFlags &&& kUniversalFlags = kUniversalFlags then
      toInt32 i
    else
      Device.CreateDevice.findUniversal (i + 1) rest

/-- The record `VulkanDeviceKnobs`, as far as `CreateDevice` writes it:
`features.independentBlend` is `independentBlend`. -/
structure VulkanDeviceKnobs where
  swapchain : Bool := false
  independentBlend : Bool := false
  deriving DecidableEq, Repr

/-- The names of device extensions that `CreateDevice` can request. -/
inductive ExtensionName where
  | kExtensionNameKhrSwapchain
  deriving DecidableEq, Repr

/-- What `Device::CreateDevice` leaves: the value it returns, `*usedKnobs`, the members
`mQueueFamily` and `mVkDevice`, and the calls of `fn.CreateDevice` it made, each with the
queue family index and the extensions of its create info. -/
structure CreateDeviceOutcome where
  returned : Bool
  usedKnobs : VulkanDeviceKnobs
  mQueueFamily : Nat
  mVkDevice : VkHandle
  calls : List (Nat × List ExtensionName)
  deriving DecidableEq, Repr

/-- The method `Device::CreateDevice(usedKnobs)`.  `queueFamilies` and `swapchain` are the
members of `mDeviceInfo` it reads, `vkCreateDevice` is the driver's `fn.CreateDevice`,
which gives its result and the handle it writes, and `mQueueFamily`, `mVkDevice` are the
members before the call; `*usedKnobs` is value-initialised by the caller. -/
def Device.CreateDevice (queueFamilies : List VkQueueFamilyProperties) (swapchain : Bool)
    (vkCreateDevice : Nat → List ExtensionName → VkResult × VkHandle)
    (mQueueFamily : Nat) (mVkDevice : VkHandle) : CreateDeviceOutcome :=
  let extensionsToRequest : List ExtensionName :=
    if swapchain then [ExtensionName.kExtensionNameKhrSwapchain] else []
  let usedKnobs : VulkanDeviceKnobs :=
    { swapchain := if swapchain then true else false, independentBlend := true }
  let universalQueueFamily := Device.CreateDevice.findUniversal 0 queueFamilies
  if universalQueueFamily = -1 then
    { returned := false, usedKnobs := usedKnobs, mQueueFamily := mQueueFamily,
      mVkDevice := mVkDevice, calls := [] }
  else
    let queueFamily := toUInt32 universalQueueFamily
    let created := vkCreateDevice queueFamily extensionsToRequest
    if created.1 ≠ VkResult.VK_SUCCESS then
      { returned := false, usedKnobs := usedKnobs, mQueueFamily := queueFamily,
        mVkDevice := created.2, calls := [(queueFamily, extensionsToRequest)] }
    else
      { returned := true, usedKnobs := usedKnobs, mQueueFamily := queueFamily,
        mVkDevice := created.2, calls := [(queueFamily, extensionsToRequest)] }

end vulkan

/-! ## Liveness of a cached layout and failing argument tuples -/

/-- Whether the layout at `address` stays in the cache of the device along the operations
`ops`, started on `device`: it is cached before each operation and after the last one,
so it is never destroyed on the way.  A release of the layout is allowed as long as
another reference keeps it alive. -/
def DeviceBase.staysCached (Hash : Bitset → Nat) (HashCombine : Nat → Nat → Nat → Nat)
    (address : Nat) : List CacheOp → DeviceBase → Bool
  | [], device => device.bindGroupLayouts.any (fun e => decide (e.address = address))
  | op :: ops, device =>
    device.bindGroupLayouts.any (fun e => decide (e.address = address)) &&
      match op.apply Hash HashCombine device with
      | none => false
      | some device' => DeviceBase.staysCached Hash HashCombine address ops device'

namespace dawn_native

/-- The argument tuples that fail validation, by what the caller passes: the object is a
consumed builder (`CanBeUsed()` is false) and the method is one the template checks for
it, or some enum or bitmask argument is rejected by its generated validator, or the
method has an extra validator and that validator gives an error. -/
def FailsValidation (m : Method) (self : Self) (values : List Nat) : Prop :=
  (m.isBuilder = true ∧ m.name ≠ "release" ∧ m.name ≠ "reference" ∧ self.CanBeUsed = false) ∨
    (∃ p ∈ m.arguments.zip values,
      (p.1.category = Category.enumeration ∨ p.1.category = Category.bitmask) ∧
        (self.Validate p.1.cppType p.2).IsError = true) ∨
    (m.suffix ∈ methodsWithExtraValidation ∧ (self.ValidateMethod values).IsError = true)

end dawn_native

/-! ## Properties of the layout record -/

theorem mem_IterateBitSet (mask : Bitset) (i : Fin kMaxBindingsPerGroup) :
    i ∈ IterateBitSet mask ↔ mask i = true := by
  simp [IterateBitSet, List.mem_filter, List.mem_finRange]

theorem operatorEq_loop_iff (a b : LayoutBindingInfo) (l : List (Fin kMaxBindingsPerGroup)) :
    operatorEq.loop a b l = true ↔
      ∀ i ∈ l, a.visibilities i = b.visibilities i ∧ a.types i = b.types i := by
  induction l with
  | nil => simp [operatorEq.loop]
  | cons x xs ih =>
    by_cases hx : a.visibilities x = b.visibilities x ∧ a.types x = b.types x
    · simp [operatorEq.loop, hx, ih]
    · have hx' : a.visibilities x ≠ b.visibilities x ∨ a.types x ≠ b.types x := by
        by_contra hcon
        push_neg at hcon
        exact hx hcon
      simp only [operatorEq.loop, hx', if_true, List.mem_cons, forall_eq_or_imp]
      constructor
      · intro h
        exact absurd h (by simp)
      · intro h
        exact absurd h.1 hx

theorem operatorEq_iff (a b : LayoutBindingInfo) :
    operatorEq a b = true ↔
      a.mask = b.mask ∧
        ∀ i, a.mask i = true → a.visibilities i = b.visibilities i ∧ a.types i = b.types i := by
  unfold operatorEq
  by_cases hm : a.mask = b.mask
  · simp only [hm, ne_eq, not_true_eq_false, if_false, operatorEq_loop_iff, mem_IterateBitSet,
      true_and]
  · simp [hm]

theorem foldl_hash_congr (HashCombine : Nat → Nat → Nat → Nat) (a b : LayoutBindingInfo)
    (l : List (Fin kMaxBindingsPerGroup))
    (h : ∀ i ∈ l, a.visibilities i = b.visibilities i ∧ a.types i = b.types i) (init : Nat) :
    l.foldl (fun hash binding => HashCombine hash (a.visibilities binding) (a.types binding)) init =
      l.foldl (fun hash binding => HashCombine hash (b.visibilities binding) (b.types binding))
        init := by
  induction l generalizing init with
  | nil => rfl
  | cons x xs ih =>
    have hx := h x (List.mem_cons_self x xs)
    simp only [List.foldl_cons, hx.1, hx.2]
    exact ih (fun i hi => h i (List.mem_cons_of_mem x hi)) _

theorem HashBindingInfo_congr (Hash : Bitset → Nat) (HashCombine : Nat → Nat → Nat → Nat)
    (a b : LayoutBindingInfo) (h : operatorEq a b = true) :
    HashBindingInfo Hash HashCombine a = HashBindingInfo Hash HashCombine b := by
  obtain ⟨hm, hs⟩ := (operatorEq_iff a b).mp h
  unfold HashBindingInfo
  rw [← hm]
  exact foldl_hash_congr HashCombine a b _
    (fun i hi => hs i ((mem_IterateBitSet a.mask i).mp hi)) _

/-- C4: hash consistency.  Whatever `Hash` and `HashCombine` are, two binding infos that
`operator==` declares equal have the same `HashBindingInfo`. -/
theorem HashBindingInfo_eq_of_operatorEq (Hash : Bitset → Nat)
    (HashCombine : Nat → Nat → Nat → Nat) (a b : LayoutBindingInfo)
    (h : operatorEq a b = true) :
    HashBindingInfo Hash HashCombine a = HashBindingInfo Hash HashCombine b :=
  HashBindingInfo_congr Hash HashCombine a b h

/-- The witness of C4: two infos with the same mask `{3}` and the same slot 3, which differ
in the unpopulated slot 2, are equal and hash alike. -/
theorem HashBindingInfo_eq_of_operatorEq_witness :
    operatorEq ⟨fun _ => 0, fun _ => 0, fun i => i = 3⟩
        ⟨fun i => if i = 2 then 1 else 0, fun _ => 0, fun i => i = 3⟩ = true ∧
      HashBindingInfo (fun m => if m 3 then 7 else 0) (fun h v t => 31 * h + 2 * v + t)
          ⟨fun _ => 0, fun _ => 0, fun i => i = 3⟩ =
        HashBindingInfo (fun m => if m 3 then 7 else 0) (fun h v t => 31 * h + 2 * v + t)
          ⟨fun i => if i = 2 then 1 else 0, fun _ => 0, fun i => i = 3⟩ :=
  ⟨by decide, HashBindingInfo_eq_of_operatorEq _ _ _ _ (by decide)⟩

/-- C5: `operator==` returns true exactly when the masks are equal and every slot whose mask
bit is set holds the same visibility and the same type in both infos; replacing the
contents of slots whose mask bit is clear never changes the result. -/
theorem operatorEq_structural (a b : LayoutBindingInfo) :
    (operatorEq a b = true ↔
      a.mask = b.mask ∧
        ∀ i, a.mask i = true → a.visibilities i = b.visibilities i ∧ a.types i = b.types i) ∧
    (∀ a' b' : LayoutBindingInfo,
      (a'.mask = a.mask ∧
        ∀ i, a.mask i = true → a'.visibilities i = a.visibilities i ∧ a'.types i = a.types i) →
      (b'.mask = b.mask ∧
        ∀ i, b.mask i = true → b'.visibilities i = b.visibilities i ∧ b'.types i = b.types i) →
      operatorEq a' b' = operatorEq a b) := by
  refine ⟨operatorEq_iff a b, ?_⟩
  rintro a' b' ⟨hma, hsa⟩ ⟨hmb, hsb⟩
  rw [Bool.eq_iff_iff, operatorEq_iff, operatorEq_iff, hma, hmb]
  constructor
  · rintro ⟨hm, hs⟩
    refine ⟨hm, fun i hi => ?_⟩
    have h1 := hsa i hi
    have h2 := hsb i (hm ▸ hi)
    have h3 := hs i hi
    exact ⟨by rw [← h1.1, h3.1, h2.1], by rw [← h1.2, h3.2, h2.2]⟩
  · rintro ⟨hm, hs⟩
    refine ⟨hm, fun i hi => ?_⟩
    have h1 := hsa i hi
    have h2 := hsb i (hm ▸ hi)
    have h3 := hs i hi
    exact ⟨by rw [h1.1, h3.1, h2.1], by rw [h1.2, h3.2, h2.2]⟩


/-! ## Properties of the descriptor validation -/

/-- C1: the duplicate check reads `bindingsSet[i]`, the bit of the loop counter, where the
binding index `binding.binding` was meant.  A descriptor that lists binding index 0
twice is accepted, whatever the generated validators are, as long as they accept the
visibility `4` and the type `3` of the two entries. -/
theorem ValidateBindGroupLayoutDescriptor_accepts_duplicate
    (ValidateShaderStageBit ValidateBindingType : Nat → MaybeError)
    (hs : ValidateShaderStageBit 4 = .ok) (ht : ValidateBindingType 3 = .ok) :
    ValidateBindGroupLayoutDescriptor ValidateShaderStageBit ValidateBindingType
      ⟨0, [⟨0, 4, 3⟩, ⟨0, 4, 3⟩]⟩ = .returns .ok := by
  simp [ValidateBindGroupLayoutDescriptor, ValidateBindGroupLayoutDescriptor.loop, hs, ht,
    Bitset.test?, Bitset.set?, Bitset.zero, Function.update]

/-- The witness of C1, with validators that accept every value. -/
theorem ValidateBindGroupLayoutDescriptor_accepts_duplicate_witness :
    ValidateBindGroupLayoutDescriptor (fun _ => .ok) (fun _ => .ok)
      ⟨0, [⟨0, 4, 3⟩, ⟨0, 4, 3⟩]⟩ = .returns .ok :=
  ValidateBindGroupLayoutDescriptor_accepts_duplicate (fun _ => .ok) (fun _ => .ok) rfl rfl

/-- C2: a descriptor with a null `nextInChain`, valid visibilities and types, and the two
distinct binding indices 1 and 0, listed in that order, is rejected: at `i = 1` the
check reads `bindingsSet[1]`, which the first entry has set. -/
theorem ValidateBindGroupLayoutDescriptor_rejects_distinct
    (ValidateShaderStageBit ValidateBindingType : Nat → MaybeError)
    (hs : ValidateShaderStageBit 4 = .ok) (ht : ValidateBindingType 3 = .ok) :
    ValidateBindGroupLayoutDescriptor ValidateShaderStageBit ValidateBindingType
      ⟨0, [⟨1, 4, 3⟩, ⟨0, 4, 3⟩]⟩ =
        .returns (.error "some binding index was specified more than once") := by
  simp [ValidateBindGroupLayoutDescriptor, ValidateBindGroupLayoutDescriptor.loop, hs, ht,
    Bitset.test?, Bitset.set?, Bitset.zero, Function.update]

/-- The witness of C2, with validators that accept every value. -/
theorem ValidateBindGroupLayoutDescriptor_rejects_distinct_witness :
    ValidateBindGroupLayoutDescriptor (fun _ => .ok) (fun _ => .ok)
      ⟨0, [⟨1, 4, 3⟩, ⟨0, 4, 3⟩]⟩ =
        .returns (.error "some binding index was specified more than once") :=
  ValidateBindGroupLayoutDescriptor_rejects_distinct (fun _ => .ok) (fun _ => .ok) rfl rfl

/-! ## Properties of the layout cache -/

theorem operatorEq_refl (a : LayoutBindingInfo) : operatorEq a a = true :=
  (operatorEq_iff a a).mpr ⟨rfl, fun _ _ => ⟨rfl, rfl⟩⟩

theorem operatorEq_symm {a b : LayoutBindingInfo} (h : operatorEq a b = true) :
    operatorEq b a = true := by
  obtain ⟨hm, hs⟩ := (operatorEq_iff a b).mp h
  refine (operatorEq_iff b a).mpr ⟨hm.symm, fun i hi => ?_⟩
  have := hs i (hm ▸ hi)
  exact ⟨this.1.symm, this.2.symm⟩

theorem operatorEq_trans {a b c : LayoutBindingInfo} (hab : operatorEq a b = true)
    (hbc : operatorEq b c = true) : operatorEq a c = true := by
  obtain ⟨hm, hs⟩ := (operatorEq_iff a b).mp hab
  obtain ⟨hm', hs'⟩ := (operatorEq_iff b c).mp hbc
  refine (operatorEq_iff a c).mpr ⟨hm.trans hm', fun i hi => ?_⟩
  have h1 := hs i hi
  have h2 := hs' i (hm ▸ hi)
  exact ⟨h1.1.trans h2.1, h1.2.trans h2.2⟩

theorem fill_agree (bs : List BindGroupBinding) :
    ∀ (a b a' b' : LayoutBindingInfo),
      BindGroupLayoutBase.fill a bs = some a' → BindGroupLayoutBase.fill b bs = some b' →
      a.mask = b.mask →
      (∀ i, a.mask i = true → a.visibilities i = b.visibilities i ∧ a.types i = b.types i) →
      a'.mask = b'.mask ∧
        ∀ i, a'.mask i = true → a'.visibilities i = b'.visibilities i ∧ a'.types i = b'.types i := by
  induction bs with
  | nil =>
    intro a b a' b' ha hb hm hs
    simp only [BindGroupLayoutBase.fill, Option.some.injEq] at ha hb
    subst ha
    subst hb
    exact ⟨hm, hs⟩
  | cons x rest ih =>
    intro a b a' b' ha hb hm hs
    unfold BindGroupLayoutBase.fill at ha hb
    by_cases hx : x.binding < kMaxBindingsPerGroup
    · simp only [hx, dite_true] at ha hb
      refine ih _ _ a' b' ha hb ?_ ?_
      · show Function.update a.mask ⟨x.binding, hx⟩ true = Function.update b.mask ⟨x.binding, hx⟩ true
        rw [hm]
      · intro i hi
        by_cases hix : i = ⟨x.binding, hx⟩
        · subst hix
          simp
        · simp only [Function.update_noteq hix] at hi ⊢
          exact hs i hi
    · simp only [hx, dite_false] at ha
      exact absurd ha (by simp)

theorem bindingInfo_agree {u u' : Uninit} {descriptor : BindGroupLayoutDescriptor}
    {i i' : LayoutBindingInfo} (h : BindGroupLayoutBase.bindingInfo u descriptor = some i)
    (h' : BindGroupLayoutBase.bindingInfo u' descriptor = some i') : operatorEq i i' = true := by
  unfold BindGroupLayoutBase.bindingInfo at h h'
  refine (operatorEq_iff i i').mpr (fill_agree descriptor.bindings _ _ i i' h h' rfl ?_)
  intro k hk
  simp [Bitset.zero] at hk

theorem DeviceBase.find_some {Hash : Bitset → Nat} {HashCombine : Nat → Nat → Nat → Nat}
    {device : DeviceBase} {blueprint cached : BindGroupLayoutBase}
    (h : device.find Hash HashCombine blueprint = some cached) :
    cached ∈ device.bindGroupLayouts ∧
      operatorEq cached.mBindingInfo blueprint.mBindingInfo = true := by
  unfold DeviceBase.find at h
  refine ⟨List.mem_of_find?_eq_some h, ?_⟩
  have := List.find?_some h
  simp only [Bool.and_eq_true, BindGroupLayoutCacheFuncs.equal] at this
  exact this.2

theorem DeviceBase.find_none {Hash : Bitset → Nat} {HashCombine : Nat → Nat → Nat → Nat}
    {device : DeviceBase} {blueprint : BindGroupLayoutBase}
    (h : device.find Hash HashCombine blueprint = none) :
    ∀ e ∈ device.bindGroupLayouts,
      operatorEq e.mBindingInfo blueprint.mBindingInfo = false := by
  intro e he
  unfold DeviceBase.find at h
  have := List.find?_eq_none.mp h e he
  by_contra hne
  have heq : operatorEq e.mBindingInfo blueprint.mBindingInfo = true := by
    simpa using hne
  apply this
  simp only [Bool.and_eq_true, decide_eq_true_eq, BindGroupLayoutCacheFuncs.equal,
    BindGroupLayoutCacheFuncs.hash]
  exact ⟨HashBindingInfo_congr Hash HashCombine _ _ heq, heq⟩

theorem DeviceBase.Distinct_map {device : DeviceBase} (f : BindGroupLayoutBase → BindGroupLayoutBase)
    (hf : ∀ e, (f e).mBindingInfo = e.mBindingInfo) (h : device.Distinct) :
    DeviceBase.Distinct { device with bindGroupLayouts := device.bindGroupLayouts.map f } := by
  unfold DeviceBase.Distinct at *
  rw [List.pairwise_map]
  refine h.imp ?_
  intro a b hab
  simp only [BindGroupLayoutCacheFuncs.equal, hf] at hab ⊢
  exact hab

theorem DeviceBase.Distinct_Reference {device : DeviceBase} (address : Nat)
    (h : device.Distinct) : (device.Reference address).Distinct := by
  unfold DeviceBase.Reference
  refine DeviceBase.Distinct_map _ ?_ h
  intro e
  by_cases he : e.address = address <;> simp [he]

theorem DeviceBase.Distinct_Release {device : DeviceBase} (address : Nat)
    (h : device.Distinct) : (device.Release address).Distinct := by
  unfold DeviceBase.Release
  cases device.bindGroupLayouts.find? (fun e => e.address = address) with
  | none => exact h
  | some obj =>
    simp only
    by_cases hr : obj.mRefCount ≤ 1
    · rw [if_pos hr]
      unfold BindGroupLayoutBase.destructor
      by_cases hb : obj.mIsBlueprint = true
      · simp only [hb, not_true_eq_false, if_false]
        exact h
      · simp only [hb, not_false_eq_true, if_true]
        unfold DeviceBase.UncacheBindGroupLayout DeviceBase.Distinct
        exact List.Pairwise.filter _ h
    · rw [if_neg hr]
      refine DeviceBase.Distinct_map _ ?_ h
      intro e
      by_cases he : e.address = address <;> simp [he]

theorem blueprint_destructor (info : LayoutBindingInfo) (device : DeviceBase) :
    BindGroupLayoutBase.destructor
      { address := 0, mBindingInfo := info, mIsBlueprint := true } device = device := by
  simp [BindGroupLayoutBase.destructor]

theorem DeviceBase.Reference_mem {device : DeviceBase} {address : Nat}
    {cached : BindGroupLayoutBase} (hc : cached ∈ device.bindGroupLayouts)
    (ha : cached.address = address) :
    ∃ e ∈ (device.Reference address).bindGroupLayouts,
      e.address = address ∧ e.mBindingInfo = cached.mBindingInfo := by
  refine ⟨{ cached with mRefCount := cached.mRefCount + 1 }, ?_, ha, rfl⟩
  unfold DeviceBase.Reference
  simp only [List.mem_map]
  exact ⟨cached, hc, by simp [ha]⟩

/-- What a successful call of `GetOrCreateBindGroupLayout` leaves: the cache holds a layout
at the returned address whose binding info equals the blueprint's, and the cache stays
free of duplicates. -/
theorem DeviceBase.GetOrCreateBindGroupLayout_value {Hash : Bitset → Nat}
    {HashCombine : Nat → Nat → Nat → Nat} {u : Uninit}
    {impl : BindGroupLayoutDescriptor → ResultOrError (Nat × Uninit)}
    {device device' : DeviceBase} {descriptor : BindGroupLayoutDescriptor} {handle : Nat}
    (h : device.GetOrCreateBindGroupLayout Hash HashCombine u impl descriptor =
      some (.value handle, device')) :
    ∃ info, BindGroupLayoutBase.bindingInfo u descriptor = some info ∧
      (∃ e ∈ device'.bindGroupLayouts,
        e.address = handle ∧ operatorEq e.mBindingInfo info = true) ∧
      (device.Distinct → device'.Distinct) := by
  unfold DeviceBase.GetOrCreateBindGroupLayout at h
  cases hinfo : BindGroupLayoutBase.bindingInfo u descriptor with
  | none => simp [hinfo] at h
  | some info =>
    refine ⟨info, rfl, ?_⟩
    simp only [hinfo, blueprint_destructor] at h
    cases hfind : device.find Hash HashCombine
        { address := 0, mBindingInfo := info, mIsBlueprint := true } with
    | some cached =>
      simp only [hfind, Option.some.injEq, Prod.mk.injEq, ResultOrError.value.injEq] at h
      obtain ⟨ha, hd⟩ := h
      obtain ⟨hmem, heq⟩ := DeviceBase.find_some hfind
      subst hd
      refine ⟨?_, DeviceBase.Distinct_Reference _⟩
      obtain ⟨e, he, hea, hei⟩ := DeviceBase.Reference_mem hmem rfl
      exact ⟨e, he, hea.trans ha, by rw [hei]; exact heq⟩
    | none =>
      simp only [hfind] at h
      cases himpl : impl descriptor with
      | error message => simp [himpl] at h
      | value r =>
        obtain ⟨address, uninit⟩ := r
        simp only [himpl] at h
        cases hback : BindGroupLayoutBase.bindingInfo uninit descriptor with
        | none => simp [hback] at h
        | some backendInfo =>
          simp only [hback, Option.some.injEq, Prod.mk.injEq, ResultOrError.value.injEq] at h
          obtain ⟨ha, hd⟩ := h
          subst hd
          subst ha
          have hbi : operatorEq backendInfo info = true := bindingInfo_agree hback hinfo
          refine ⟨⟨_, List.mem_cons_self _ _, rfl, hbi⟩, ?_⟩
          intro hdist
          unfold DeviceBase.Distinct at *
          refine List.pairwise_cons.mpr ⟨?_, hdist⟩
          intro e he
          have hne := DeviceBase.find_none hfind e he
          simp only [BindGroupLayoutCacheFuncs.equal]
          by_contra hcon
          have hcon' : operatorEq backendInfo e.mBindingInfo = true := by simpa using hcon
          have : operatorEq e.mBindingInfo info = true :=
            operatorEq_trans (operatorEq_symm hcon') hbi
          rw [hne] at this
          exact absurd this (by simp)

theorem DeviceBase.GetOrCreateBindGroupLayout_distinct {Hash : Bitset → Nat}
    {HashCombine : Nat → Nat → Nat → Nat} {u : Uninit}
    {impl : BindGroupLayoutDescriptor → ResultOrError (Nat × Uninit)}
    {device device' : DeviceBase} {descriptor : BindGroupLayoutDescriptor}
    {result : ResultOrError Nat}
    (h : device.GetOrCreateBindGroupLayout Hash HashCombine u impl descriptor =
      some (result, device')) (hd : device.Distinct) : device'.Distinct := by
  cases result with
  | value handle =>
    obtain ⟨_, _, _, h3⟩ := DeviceBase.GetOrCreateBindGroupLayout_value h
    exact h3 hd
  | error message =>
    unfold DeviceBase.GetOrCreateBindGroupLayout at h
    cases hinfo : BindGroupLayoutBase.bindingInfo u descriptor with
    | none => simp [hinfo] at h
    | some info =>
      simp only [hinfo, blueprint_destructor] at h
      cases hfind : device.find Hash HashCombine
          { address := 0, mBindingInfo := info, mIsBlueprint := true } with
      | some cached => simp [hfind] at h
      | none =>
        simp only [hfind] at h
        cases himpl : impl descriptor with
        | error message' =>
          simp only [himpl, Option.some.injEq, Prod.mk.injEq] at h
          rw [← h.2]
          exact hd
        | value r =>
          obtain ⟨address, uninit⟩ := r
          simp only [himpl] at h
          cases hback : BindGroupLayoutBase.bindingInfo uninit descriptor with
          | none => simp [hback] at h
          | some backendInfo => simp [hback] at h

theorem mem_map_keeps (f : BindGroupLayoutBase → BindGroupLayoutBase)
    (hf : ∀ e, (f e).address = e.address ∧ (f e).mBindingInfo = e.mBindingInfo)
    {l : List BindGroupLayoutBase} {e : BindGroupLayoutBase} (he : e ∈ l) :
    ∃ e' ∈ l.map f, e'.address = e.address ∧ e'.mBindingInfo = e.mBindingInfo :=
  ⟨f e, List.mem_map_of_mem f he, hf e⟩

theorem DeviceBase.Reference_keeps {device : DeviceBase} (address : Nat)
    {e : BindGroupLayoutBase} (he : e ∈ device.bindGroupLayouts) :
    ∃ e' ∈ (device.Reference address).bindGroupLayouts,
      e'.address = e.address ∧ e'.mBindingInfo = e.mBindingInfo := by
  unfold DeviceBase.Reference
  refine mem_map_keeps _ ?_ he
  intro x
  by_cases hx : x.address = address <;> simp [hx]

theorem DeviceBase.Release_keeps {device : DeviceBase} (address : Nat)
    {e : BindGroupLayoutBase} (he : e ∈ device.bindGroupLayouts) (hne : e.address ≠ address) :
    ∃ e' ∈ (device.Release address).bindGroupLayouts,
      e'.address = e.address ∧ e'.mBindingInfo = e.mBindingInfo := by
  unfold DeviceBase.Release
  cases hfind : device.bindGroupLayouts.find? (fun x => x.address = address) with
  | none => exact ⟨e, he, rfl, rfl⟩
  | some obj =>
    simp only
    have hobj : obj.address = address := by
      have := List.find?_some hfind
      simpa using this
    by_cases hr : obj.mRefCount ≤ 1
    · rw [if_pos hr]
      unfold BindGroupLayoutBase.destructor
      by_cases hb : obj.mIsBlueprint = true
      · simp only [hb, not_true_eq_false, if_false]
        exact ⟨e, he, rfl, rfl⟩
      · simp only [hb, Bool.false_eq_true, not_false_eq_true, if_true]
        refine ⟨e, ?_, rfl, rfl⟩
        unfold DeviceBase.UncacheBindGroupLayout
        simp only [List.mem_filter, decide_eq_true_eq, ne_eq]
        exact ⟨he, by rw [hobj]; exact hne⟩
    · rw [if_neg hr]
      refine mem_map_keeps _ ?_ he
      intro x
      by_cases hx : x.address = address <;> simp [hx]

theorem DeviceBase.GetOrCreateBindGroupLayout_keeps {Hash : Bitset → Nat}
    {HashCombine : Nat → Nat → Nat → Nat} {u : Uninit}
    {impl : BindGroupLayoutDescriptor → ResultOrError (Nat × Uninit)}
    {device device' : DeviceBase} {descriptor : BindGroupLayoutDescriptor}
    {result : ResultOrError Nat}
    (h : device.GetOrCreateBindGroupLayout Hash HashCombine u impl descriptor =
      some (result, device')) {e : BindGroupLayoutBase} (he : e ∈ device.bindGroupLayouts) :
    ∃ e' ∈ device'.bindGroupLayouts,
      e'.address = e.address ∧ e'.mBindingInfo = e.mBindingInfo := by
  unfold DeviceBase.GetOrCreateBindGroupLayout at h
  cases hinfo : BindGroupLayoutBase.bindingInfo u descriptor with
  | none => simp [hinfo] at h
  | some info =>
    simp only [hinfo, blueprint_destructor] at h
    cases hfind : device.find Hash HashCombine
        { address := 0, mBindingInfo := info, mIsBlueprint := true } with
    | some cached =>
      simp only [hfind, Option.some.injEq, Prod.mk.injEq] at h
      rw [← h.2]
      exact DeviceBase.Reference_keeps _ he
    | none =>
      simp only [hfind] at h
      cases himpl : impl descriptor with
      | error message =>
        simp only [himpl, Option.some.injEq, Prod.mk.injEq] at h
        rw [← h.2]
        exact ⟨e, he, rfl, rfl⟩
      | value r =>
        obtain ⟨address, uninit⟩ := r
        simp only [himpl] at h
        cases hback : BindGroupLayoutBase.bindingInfo uninit descriptor with
        | none => simp [hback] at h
        | some backendInfo =>
          simp only [hback, Option.some.injEq, Prod.mk.injEq] at h
          rw [← h.2]
          exact ⟨e, List.mem_cons_of_mem _ he, rfl, rfl⟩

/-- A lookup that can hit does hit, and returns the one cached layout equal to the
blueprint. -/
theorem DeviceBase.GetOrCreateBindGroupLayout_hit {Hash : Bitset → Nat}
    {HashCombine : Nat → Nat → Nat → Nat} {u : Uninit}
    {impl : BindGroupLayoutDescriptor → ResultOrError (Nat × Uninit)}
    {device device' : DeviceBase} {descriptor : BindGroupLayoutDescriptor} {handle : Nat}
    {info : LayoutBindingInfo} {e : BindGroupLayoutBase}
    (hd : device.Distinct) (he : e ∈ device.bindGroupLayouts)
    (hinfo : BindGroupLayoutBase.bindingInfo u descriptor = some info)
    (heq : operatorEq e.mBindingInfo info = true)
    (h : device.GetOrCreateBindGroupLayout Hash HashCombine u impl descriptor =
      some (.value handle, device')) : handle = e.address := by
  unfold DeviceBase.GetOrCreateBindGroupLayout at h
  simp only [hinfo, blueprint_destructor] at h
  cases hfind : device.find Hash HashCombine
      { address := 0, mBindingInfo := info, mIsBlueprint := true } with
  | none =>
    have := DeviceBase.find_none hfind e he
    rw [heq] at this
    exact absurd this (by simp)
  | some cached =>
    simp only [hfind, Option.some.injEq, Prod.mk.injEq, ResultOrError.value.injEq] at h
    obtain ⟨hmem, hceq⟩ := DeviceBase.find_some hfind
    have hsame : cached = e := by
      by_contra hne
      have hsym : Symmetric
          (fun a b : BindGroupLayoutBase => BindGroupLayoutCacheFuncs.equal a b = false) := by
        intro a b hab
        simp only [BindGroupLayoutCacheFuncs.equal] at hab ⊢
        by_contra hcon
        have hcon' : operatorEq b.mBindingInfo a.mBindingInfo = true := by simpa using hcon
        rw [operatorEq_symm hcon'] at hab
        exact absurd hab (by simp)
      have hfalse := List.Pairwise.forall hsym hd hmem he hne
      simp only [BindGroupLayoutCacheFuncs.equal] at hfalse
      rw [operatorEq_trans hceq (operatorEq_symm heq)] at hfalse
      exact absurd hfalse (by simp)
    rw [← h.1, hsame]

theorem DeviceBase.run_keeps {Hash : Bitset → Nat} {HashCombine : Nat → Nat → Nat → Nat}
    (ops : List CacheOp) {device device' : DeviceBase}
    (h : DeviceBase.run Hash HashCombine ops device = some device') (hd : device.Distinct) :
    device'.Distinct ∧
      ∀ handle : Nat, (∀ op ∈ ops, op ≠ CacheOp.release handle) →
        ∀ e ∈ device.bindGroupLayouts, e.address = handle →
          ∃ e' ∈ device'.bindGroupLayouts,
            e'.address = handle ∧ e'.mBindingInfo = e.mBindingInfo := by
  induction ops generalizing device with
  | nil =>
    simp only [DeviceBase.run, Option.some.injEq] at h
    subst h
    exact ⟨hd, fun handle _ e he hea => ⟨e, he, hea, rfl⟩⟩
  | cons op ops ih =>
    unfold DeviceBase.run at h
    cases hop : op.apply Hash HashCombine device with
    | none => simp [hop] at h
    | some mid =>
      simp only [hop] at h
      cases op with
      | getOrCreate u impl descriptor =>
        simp only [CacheOp.apply, Option.map_eq_some'] at hop
        obtain ⟨⟨result, mid'⟩, hcall, hmid⟩ := hop
        simp only at hmid
        subst hmid
        obtain ⟨h1, h2⟩ := ih h (DeviceBase.GetOrCreateBindGroupLayout_distinct hcall hd)
        refine ⟨h1, fun handle hops e he hea => ?_⟩
        obtain ⟨e1, he1, hea1, hei1⟩ := DeviceBase.GetOrCreateBindGroupLayout_keeps hcall he
        obtain ⟨e2, he2, hea2, hei2⟩ :=
          h2 handle (fun o ho => hops o (List.mem_cons_of_mem _ ho)) e1 he1 (hea1.trans hea)
        exact ⟨e2, he2, hea2, hei2.trans hei1⟩
      | release address =>
        simp only [CacheOp.apply, Option.some.injEq] at hop
        subst hop
        obtain ⟨h1, h2⟩ := ih h (DeviceBase.Distinct_Release address hd)
        refine ⟨h1, fun handle hops e he hea => ?_⟩
        have hne : e.address ≠ address := by
          intro hcon
          apply hops (CacheOp.release address) (List.mem_cons_self _ _)
          rw [← hcon, hea]
        obtain ⟨e1, he1, hea1, hei1⟩ := DeviceBase.Release_keeps address he hne
        obtain ⟨e2, he2, hea2, hei2⟩ :=
          h2 handle (fun o ho => hops o (List.mem_cons_of_mem _ ho)) e1 he1 (hea1.trans hea)
        exact ⟨e2, he2, hea2, hei2.trans hei1⟩

theorem DeviceBase.Release_keeps_live {device : DeviceBase} (address : Nat)
    {e : BindGroupLayoutBase} (he : e ∈ device.bindGroupLayouts)
    (hlive : ∃ x ∈ (device.Release address).bindGroupLayouts, x.address = e.address) :
    ∃ e' ∈ (device.Release address).bindGroupLayouts,
      e'.address = e.address ∧ e'.mBindingInfo = e.mBindingInfo := by
  by_cases hne : e.address = address
  · revert hlive
    unfold DeviceBase.Release
    cases hfind : device.bindGroupLayouts.find? (fun x => x.address = address) with
    | none =>
      intro _
      exact ⟨e, he, rfl, rfl⟩
    | some obj =>
      simp only
      have hobj : obj.address = address := by
        have := List.find?_some hfind
        simpa using this
      by_cases hr : obj.mRefCount ≤ 1
      · rw [if_pos hr]
        unfold BindGroupLayoutBase.destructor
        by_cases hb : obj.mIsBlueprint = true
        · simp only [hb, not_true_eq_false, if_false]
          intro _
          exact ⟨e, he, rfl, rfl⟩
        · simp only [hb, Bool.false_eq_true, not_false_eq_true, if_true]
          rintro ⟨x, hx, hxa⟩
          unfold DeviceBase.UncacheBindGroupLayout at hx
          simp only [List.mem_filter, decide_eq_true_eq] at hx
          exact absurd (hxa.trans (hne.trans hobj.symm)) hx.2
      · rw [if_neg hr]
        intro _
        refine mem_map_keeps _ ?_ he
        intro x
        by_cases hx : x.address = address <;> simp [hx]
  · exact DeviceBase.Release_keeps address he hne

theorem DeviceBase.staysCached_head {Hash : Bitset → Nat} {HashCombine : Nat → Nat → Nat → Nat}
    {address : Nat} (ops : List CacheOp) {device : DeviceBase}
    (h : DeviceBase.staysCached Hash HashCombine address ops device = true) :
    ∃ x ∈ device.bindGroupLayouts, x.address = address := by
  cases ops with
  | nil =>
    simpa [DeviceBase.staysCached, List.any_eq_true] using h
  | cons op ops =>
    unfold DeviceBase.staysCached at h
    rw [Bool.and_eq_true] at h
    simpa [List.any_eq_true] using h.1

theorem DeviceBase.run_keeps_live {Hash : Bitset → Nat} {HashCombine : Nat → Nat → Nat → Nat}
    (ops : List CacheOp) {device device' : DeviceBase} (address : Nat)
    (h : DeviceBase.run Hash HashCombine ops device = some device')
    (hlive : DeviceBase.staysCached Hash HashCombine address ops device = true) :
    ∀ e ∈ device.bindGroupLayouts, e.address = address →
      ∃ e' ∈ device'.bindGroupLayouts,
        e'.address = address ∧ e'.mBindingInfo = e.mBindingInfo := by
  induction ops generalizing device with
  | nil =>
    simp only [DeviceBase.run, Option.some.injEq] at h
    subst h
    exact fun e he hea => ⟨e, he, hea, rfl⟩
  | cons op ops ih =>
    intro e he hea
    unfold DeviceBase.run at h
    unfold DeviceBase.staysCached at hlive
    rw [Bool.and_eq_true] at hlive
    cases hop : op.apply Hash HashCombine device with
    | none => simp [hop] at h
    | some device1 =>
      simp only [hop] at h hlive
      obtain ⟨x, hx, hxa⟩ := DeviceBase.staysCached_head ops hlive.2
      have hstep : ∃ e1 ∈ device1.bindGroupLayouts,
          e1.address = e.address ∧ e1.mBindingInfo = e.mBindingInfo := by
        cases op with
        | getOrCreate u impl descriptor =>
          simp only [CacheOp.apply, Option.map_eq_some'] at hop
          obtain ⟨⟨result, dev⟩, hcall, hdev⟩ := hop
          simp only at hdev
          subst hdev
          exact DeviceBase.GetOrCreateBindGroupLayout_keeps hcall he
        | release released =>
          simp only [CacheOp.apply, Option.some.injEq] at hop
          subst hop
          exact DeviceBase.Release_keeps_live released he ⟨x, hx, hxa.trans hea.symm⟩
      obtain ⟨e1, he1, hea1, hei1⟩ := hstep
      obtain ⟨e2, he2, hea2, hei2⟩ := ih h hlive.2 e1 he1 (hea1.trans hea)
      exact ⟨e2, he2, hea2, hei2.trans hei1⟩

/-- C3: take a device whose cache was reached from the empty cache by calls of
`GetOrCreateBindGroupLayout` and releases (`before`).  If a call for `d1` returns
`handle1`, further calls and releases follow (`between`) during which the layout at
`handle1` stays alive (it may be referenced and released, but not destroyed), and a call
for `d2` returns `handle2`, then `handle1 = handle2` whenever the descriptors are
structurally equal: the binding infos built from them have the same mask and, at each
index of the mask, the same visibility and type. -/
theorem GetOrCreateBindGroupLayout_same_handle (Hash : Bitset → Nat)
    (HashCombine : Nat → Nat → Nat → Nat) (before between : List CacheOp)
    (device device1 deviceMid device2 : DeviceBase)
    (u1 u2 : Uninit) (impl1 impl2 : BindGroupLayoutDescriptor → ResultOrError (Nat × Uninit))
    (d1 d2 : BindGroupLayoutDescriptor) (handle1 handle2 : Nat) (info1 info2 : LayoutBindingInfo)
    (hbefore : DeviceBase.run Hash HashCombine before {} = some device)
    (hcall1 : device.GetOrCreateBindGroupLayout Hash HashCombine u1 impl1 d1 =
      some (.value handle1, device1))
    (hbetween : DeviceBase.run Hash HashCombine between device1 = some deviceMid)
    (hlive : DeviceBase.staysCached Hash HashCombine handle1 between device1 = true)
    (hcall2 : deviceMid.GetOrCreateBindGroupLayout Hash HashCombine u2 impl2 d2 =
      some (.value handle2, device2))
    (hinfo1 : BindGroupLayoutBase.bindingInfo u1 d1 = some info1)
    (hinfo2 : BindGroupLayoutBase.bindingInfo u2 d2 = some info2)
    (hmask : info1.mask = info2.mask)
    (hslots : ∀ i, info1.mask i = true →
      info1.visibilities i = info2.visibilities i ∧ info1.types i = info2.types i) :
    handle1 = handle2 := by
  have hd : device.Distinct := (DeviceBase.run_keeps before hbefore List.Pairwise.nil).1
  obtain ⟨info, hinfo, ⟨e, he, hea, hei⟩, hdist⟩ :=
    DeviceBase.GetOrCreateBindGroupLayout_value hcall1
  rw [hinfo1, Option.some.injEq] at hinfo
  subst hinfo
  have hdm := (DeviceBase.run_keeps between hbetween (hdist hd)).1
  obtain ⟨e', he', hea', hei'⟩ := DeviceBase.run_keeps_live between handle1 hbetween hlive e he hea
  have h12 : operatorEq info1 info2 = true := (operatorEq_iff info1 info2).mpr ⟨hmask, hslots⟩
  have := DeviceBase.GetOrCreateBindGroupLayout_hit hdm he' hinfo2
    (operatorEq_trans (by rw [hei']; exact hei) h12) hcall2
  rw [this, hea']

/-- The witness of C3: on the empty cache, a descriptor with bindings 0 and 1 gives the
layout at address 1000; the same descriptor is asked for again and that handle is
released, which leaves one reference; a layout for another descriptor is created and
released; the first descriptor with its bindings listed the other way round gives address
1000 again. -/
theorem GetOrCreateBindGroupLayout_same_handle_witness :
    ∃ device1 deviceMid device2 : DeviceBase, ∃ handle1 handle2 : Nat,
      DeviceBase.GetOrCreateBindGroupLayout (fun m => if m 0 then 1 else 0)
          (fun h v t => 31 * h + 2 * v + t) ⟨fun _ => 0, fun _ => 0⟩
          (fun _ => .value (1000, ⟨fun _ => 7, fun _ => 7⟩)) {}
          ⟨0, [⟨0, 4, 3⟩, ⟨1, 2, 0⟩]⟩ = some (.value handle1, device1) ∧
        DeviceBase.run (fun m => if m 0 then 1 else 0) (fun h v t => 31 * h + 2 * v + t)
          [CacheOp.getOrCreate ⟨fun _ => 4, fun _ => 4⟩
              (fun _ => .value (4000, ⟨fun _ => 6, fun _ => 6⟩)) ⟨0, [⟨0, 4, 3⟩, ⟨1, 2, 0⟩]⟩,
            CacheOp.release 1000,
            CacheOp.getOrCreate ⟨fun _ => 1, fun _ => 1⟩
              (fun _ => .value (3000, ⟨fun _ => 2, fun _ => 2⟩)) ⟨0, [⟨5, 1, 1⟩]⟩,
            CacheOp.release 3000] device1 = some deviceMid ∧
        DeviceBase.staysCached (fun m => if m 0 then 1 else 0)
          (fun h v t => 31 * h + 2 * v + t) handle1
          [CacheOp.getOrCreate ⟨fun _ => 4, fun _ => 4⟩
              (fun _ => .value (4000, ⟨fun _ => 6, fun _ => 6⟩)) ⟨0, [⟨0, 4, 3⟩, ⟨1, 2, 0⟩]⟩,
            CacheOp.release 1000,
            CacheOp.getOrCreate ⟨fun _ => 1, fun _ => 1⟩
              (fun _ => .value (3000, ⟨fun _ => 2, fun _ => 2⟩)) ⟨0, [⟨5, 1, 1⟩]⟩,
            CacheOp.release 3000] device1 = true ∧
        DeviceBase.GetOrCreateBindGroupLayout (fun m => if m 0 then 1 else 0)
          (fun h v t => 31 * h + 2 * v + t) ⟨fun _ => 9, fun _ => 9⟩
          (fun _ => .value (2000, ⟨fun _ => 5, fun _ => 5⟩)) deviceMid
          ⟨0, [⟨1, 2, 0⟩, ⟨0, 4, 3⟩]⟩ = some (.value handle2, device2) ∧
        handle1 = 1000 ∧ handle1 = handle2 :=
  ⟨_, _, _, 1000, _, rfl, rfl, rfl, rfl, rfl,
    GetOrCreateBindGroupLayout_same_handle (fun m => if m 0 then 1 else 0)
      (fun h v t => 31 * h + 2 * v + t) []
      [CacheOp.getOrCreate ⟨fun _ => 4, fun _ => 4⟩
          (fun _ => .value (4000, ⟨fun _ => 6, fun _ => 6⟩)) ⟨0, [⟨0, 4, 3⟩, ⟨1, 2, 0⟩]⟩,
        CacheOp.release 1000,
        CacheOp.getOrCreate ⟨fun _ => 1, fun _ => 1⟩
          (fun _ => .value (3000, ⟨fun _ => 2, fun _ => 2⟩)) ⟨0, [⟨5, 1, 1⟩]⟩,
        CacheOp.release 3000]
      {} _ _ _ ⟨fun _ => 0, fun _ => 0⟩ ⟨fun _ => 9, fun _ => 9⟩
      (fun _ => .value (1000, ⟨fun _ => 7, fun _ => 7⟩))
      (fun _ => .value (2000, ⟨fun _ => 5, fun _ => 5⟩))
      ⟨0, [⟨0, 4, 3⟩, ⟨1, 2, 0⟩]⟩ ⟨0, [⟨1, 2, 0⟩, ⟨0, 4, 3⟩]⟩ 1000 _ _ _
      rfl rfl rfl rfl rfl rfl rfl (by decide) (by decide)⟩

/-! ## Properties of the serial engine -/

namespace vulkan

theorem foldl_DeleteWhenUnused (l : List VkHandle) (d : Device) :
    l.foldl Device.DeleteWhenUnused d =
      { d with
        mSemaphoresToDelete := d.mSemaphoresToDelete ++ l.map (fun s => (s, d.mNextSerial)) } := by
  induction l generalizing d with
  | nil => simp
  | cons x xs ih =>
    rw [List.foldl_cons, ih]
    simp [Device.DeleteWhenUnused, Device.GetSerial, SerialQueue.Enqueue]

theorem GetUnusedFence_snd (drv : Driver) (d : Device) :
    (d.GetUnusedFence drv).2 = { d with mUnusedFences := (d.GetUnusedFence drv).2.mUnusedFences } := by
  unfold Device.GetUnusedFence
  cases d.mUnusedFences.getLast? <;> rfl

theorem SubmitPendingCommands_eq (drv : Driver) (d : Device)
    (h : d.mPendingCommands.pool ≠ VK_NULL_HANDLE) :
    d.SubmitPendingCommands drv =
      { mFencesInFlight := d.mFencesInFlight ++ [((d.GetUnusedFence drv).1, d.mNextSerial)]
        mUnusedFences := (d.GetUnusedFence drv).2.mUnusedFences
        mNextSerial := d.mNextSerial + 1
        mCompletedSerial := d.mCompletedSerial
        mCommandsInFlight := d.mCommandsInFlight ++ [(d.mPendingCommands, d.mNextSerial)]
        mUnusedCommands := d.mUnusedCommands
        mPendingCommands := {}
        mWaitSemaphores := []
        mSemaphoresToDelete :=
          d.mSemaphoresToDelete ++ d.mWaitSemaphores.map (fun s => (s, d.mNextSerial)) } := by
  unfold Device.SubmitPendingCommands
  rw [if_neg h]
  have h2 := GetUnusedFence_snd drv d
  generalize d.GetUnusedFence drv = r at h2 ⊢
  obtain ⟨fence, d1⟩ := r
  simp only at h2 ⊢
  rw [foldl_DeleteWhenUnused, h2]
  simp [SerialQueue.Enqueue]

/-- C6: a call of `SubmitPendingCommands` made while a command buffer is pending enqueues the
pending command pool and the fence, both tagged with the value `mNextSerial` had before
the call, clears `mPendingCommands`, and leaves `mNextSerial` one greater than before. -/
theorem SubmitPendingCommands_stamps_next_serial (drv : Driver) (d : Device)
    (h : d.mPendingCommands.pool ≠ VK_NULL_HANDLE) :
    (d.SubmitPendingCommands drv).mCommandsInFlight =
        d.mCommandsInFlight ++ [(d.mPendingCommands, d.mNextSerial)] ∧
      (d.SubmitPendingCommands drv).mFencesInFlight =
        d.mFencesInFlight ++ [((d.GetUnusedFence drv).1, d.mNextSerial)] ∧
      (d.SubmitPendingCommands drv).mPendingCommands = {} ∧
      (d.SubmitPendingCommands drv).mNextSerial = d.mNextSerial + 1 := by
  rw [SubmitPendingCommands_eq drv d h]
  exact ⟨rfl, rfl, rfl, rfl⟩

/-- The witness of C6: a device at serial 4 with one submission in flight, a pending command
buffer, one unused fence and one wait semaphore. -/
theorem SubmitPendingCommands_stamps_next_serial_witness :
    (200 : VkHandle) ≠ VK_NULL_HANDLE ∧
      (Device.SubmitPendingCommands ⟨fun _ => .VK_NOT_READY, 100, 210, 310⟩
          { mFencesInFlight := [(49, 3)], mUnusedFences := [50], mNextSerial := 4,
            mCompletedSerial := 2, mCommandsInFlight := [(⟨201, 301⟩, 3)],
            mPendingCommands := ⟨200, 300⟩, mWaitSemaphores := [5] }).mCommandsInFlight =
        [(⟨201, 301⟩, 3), (⟨200, 300⟩, 4)] ∧
      (Device.SubmitPendingCommands ⟨fun _ => .VK_NOT_READY, 100, 210, 310⟩
          { mFencesInFlight := [(49, 3)], mUnusedFences := [50], mNextSerial := 4,
            mCompletedSerial := 2, mCommandsInFlight := [(⟨201, 301⟩, 3)],
            mPendingCommands := ⟨200, 300⟩, mWaitSemaphores := [5] }).mFencesInFlight =
        [(49, 3), (50, 4)] ∧
      (Device.SubmitPendingCommands ⟨fun _ => .VK_NOT_READY, 100, 210, 310⟩
          { mFencesInFlight := [(49, 3)], mUnusedFences := [50], mNextSerial := 4,
            mCompletedSerial := 2, mCommandsInFlight := [(⟨201, 301⟩, 3)],
            mPendingCommands := ⟨200, 300⟩, mWaitSemaphores := [5] }).mPendingCommands = {} ∧
      (Device.SubmitPendingCommands ⟨fun _ => .VK_NOT_READY, 100, 210, 310⟩
          { mFencesInFlight := [(49, 3)], mUnusedFences := [50], mNextSerial := 4,
            mCompletedSerial := 2, mCommandsInFlight := [(⟨201, 301⟩, 3)],
            mPendingCommands := ⟨200, 300⟩, mWaitSemaphores := [5] }).mNextSerial = 5 :=
  ⟨by decide,
    SubmitPendingCommands_stamps_next_serial ⟨fun _ => .VK_NOT_READY, 100, 210, 310⟩
      { mFencesInFlight := [(49, 3)], mUnusedFences := [50], mNextSerial := 4,
        mCompletedSerial := 2, mCommandsInFlight := [(⟨201, 301⟩, 3)],
        mPendingCommands := ⟨200, 300⟩, mWaitSemaphores := [5] } (by decide)⟩

end vulkan

namespace vulkan

theorem SerialInv_congr {d d' : Device} (hf : d'.mFencesInFlight = d.mFencesInFlight)
    (hn : d'.mNextSerial = d.mNextSerial) (hc : d'.mCompletedSerial = d.mCompletedSerial)
    (h : SerialInv d) : SerialInv d' := by
  unfold SerialInv at *
  rw [hf, hn, hc]
  exact h

theorem CheckPassedFences_loop_spec (drv : Driver) (l : List (VkHandle × Serial)) (d : Device)
    (hp : (d.mCompletedSerial :: l.map Prod.snd).Pairwise (· < ·))
    (hl : ∀ x ∈ l, x.2 < d.mNextSerial) (hc : d.mCompletedSerial < d.mNextSerial) :
    SerialInv (Device.CheckPassedFences.loop drv l d) ∧
      (Device.CheckPassedFences.loop drv l d).mNextSerial = d.mNextSerial ∧
      d.mCompletedSerial ≤ (Device.CheckPassedFences.loop drv l d).mCompletedSerial ∧
      (Device.CheckPassedFences.loop drv l d).mPendingCommands = d.mPendingCommands := by
  induction l generalizing d with
  | nil =>
    refine ⟨?_, rfl, le_refl _, rfl⟩
    simp [Device.CheckPassedFences.loop, SerialInv, hc]
  | cons x rest ih =>
    obtain ⟨fence, fenceSerial⟩ := x
    unfold Device.CheckPassedFences.loop
    by_cases hs : drv.GetFenceStatus fence = VkResult.VK_NOT_READY
    · rw [if_pos hs]
      exact ⟨⟨hp, hl, hc⟩, rfl, le_refl _, rfl⟩
    · rw [if_neg hs]
      have hlt : d.mCompletedSerial < fenceSerial := by
        exact List.rel_of_pairwise_cons hp (by simp)
      have hp' : (fenceSerial :: rest.map Prod.snd).Pairwise (· < ·) := by
        have := (List.pairwise_cons.mp hp).2
        simpa using this
      have hx := hl (fence, fenceSerial) (List.mem_cons_self _ _)
      obtain ⟨h1, h2, h3, h4⟩ := ih
        { d with mUnusedFences := d.mUnusedFences ++ [fence], mCompletedSerial := fenceSerial }
        hp' (fun y hy => hl y (List.mem_cons_of_mem _ hy)) hx
      exact ⟨h1, h2, le_trans (le_of_lt hlt) h3, h4⟩

theorem CheckPassedFences_spec (drv : Driver) (d : Device) (h : SerialInv d) :
    SerialInv (d.CheckPassedFences drv) ∧
      (d.CheckPassedFences drv).mNextSerial = d.mNextSerial ∧
      d.mCompletedSerial ≤ (d.CheckPassedFences drv).mCompletedSerial ∧
      (d.CheckPassedFences drv).mPendingCommands = d.mPendingCommands :=
  CheckPassedFences_loop_spec drv d.mFencesInFlight d h.1 h.2.1 h.2.2

theorem GetPendingCommandBuffer_serials (drv : Driver) (d : Device) :
    (d.GetPendingCommandBuffer drv).2.mFencesInFlight = d.mFencesInFlight ∧
      (d.GetPendingCommandBuffer drv).2.mNextSerial = d.mNextSerial ∧
      (d.GetPendingCommandBuffer drv).2.mCompletedSerial = d.mCompletedSerial := by
  unfold Device.GetPendingCommandBuffer Device.GetUnusedCommands
  by_cases hp : d.mPendingCommands.pool = VK_NULL_HANDLE
  · rw [if_pos hp]
    cases d.mUnusedCommands.getLast? <;> exact ⟨rfl, rfl, rfl⟩
  · rw [if_neg hp]
    exact ⟨rfl, rfl, rfl⟩

theorem SubmitPendingCommands_spec (drv : Driver) (d : Device) (h : SerialInv d) :
    SerialInv (d.SubmitPendingCommands drv) ∧
      d.mNextSerial ≤ (d.SubmitPendingCommands drv).mNextSerial ∧
      (d.SubmitPendingCommands drv).mCompletedSerial = d.mCompletedSerial := by
  by_cases hp : d.mPendingCommands.pool = VK_NULL_HANDLE
  · have : d.SubmitPendingCommands drv = d := by
      unfold Device.SubmitPendingCommands
      rw [if_pos hp]
    rw [this]
    exact ⟨h, le_refl _, rfl⟩
  · rw [SubmitPendingCommands_eq drv d hp]
    obtain ⟨h1, h2, h3⟩ := h
    refine ⟨⟨?_, ?_, ?_⟩, Nat.le_succ _, rfl⟩
    · show (d.mCompletedSerial ::
        (d.mFencesInFlight ++ [((d.GetUnusedFence drv).1, d.mNextSerial)]).map Prod.snd).Pairwise
          (· < ·)
      rw [List.map_append, ← List.cons_append, List.pairwise_append]
      refine ⟨h1, by simp, ?_⟩
      intro a ha b hb
      simp only [List.map_cons, List.map_nil, List.mem_singleton] at hb
      subst hb
      rcases List.mem_cons.mp ha with ha | ha
      · rw [ha]
        exact h3
      · obtain ⟨x, hx, rfl⟩ := List.mem_map.mp ha
        exact h2 x hx
    · intro x hx
      show x.2 < d.mNextSerial + 1
      rcases List.mem_append.mp hx with hx | hx
      · exact Nat.lt_succ_of_lt (h2 x hx)
      · simp only [List.mem_singleton] at hx
        subst hx
        exact Nat.lt_succ_self _
    · exact Nat.lt_succ_of_lt h3

theorem submitOrAdvance_spec (drv : Driver) (d : Device) (h : SerialInv d) :
    SerialInv (Device.TickImpl.submitOrAdvance drv d) ∧
      d.mNextSerial ≤ (Device.TickImpl.submitOrAdvance drv d).mNextSerial ∧
      d.mCompletedSerial ≤ (Device.TickImpl.submitOrAdvance drv d).mCompletedSerial := by
  unfold Device.TickImpl.submitOrAdvance
  by_cases hp : d.mPendingCommands.pool ≠ VK_NULL_HANDLE
  · rw [if_pos hp]
    obtain ⟨h1, h2, h3⟩ := SubmitPendingCommands_spec drv d h
    exact ⟨h1, h2, le_of_eq h3.symm⟩
  · rw [if_neg hp]
    by_cases hc : d.mCompletedSerial = d.mNextSerial - 1
    · rw [if_pos hc]
      obtain ⟨h1, h2, h3⟩ := h
      have hempty : d.mFencesInFlight = [] := by
        cases hf : d.mFencesInFlight with
        | nil => rfl
        | cons x xs =>
          exfalso
          have hx1 := h2 x (by rw [hf]; exact List.mem_cons_self _ _)
          have hx2 : d.mCompletedSerial < x.2 := by
            rw [hf] at h1
            exact List.rel_of_pairwise_cons h1 (by simp)
          unfold Serial at *
          omega
      refine ⟨⟨?_, ?_, ?_⟩, Nat.le_succ _, Nat.le_succ _⟩
      · simp [hempty]
      · simp [hempty]
      · exact Nat.succ_lt_succ h3
    · rw [if_neg hc]
      exact ⟨h, le_refl _, le_refl _⟩

theorem TickImpl_spec (drv : Driver) (d : Device) (h : SerialInv d) :
    SerialInv (d.TickImpl drv) ∧ d.mNextSerial ≤ (d.TickImpl drv).mNextSerial ∧
      d.mCompletedSerial ≤ (d.TickImpl drv).mCompletedSerial := by
  obtain ⟨h1, h2, h3, _⟩ := CheckPassedFences_spec drv d h
  have h4 : SerialInv
      ((d.CheckPassedFences drv).RecycleCompletedCommands.DeleterTick
        (d.CheckPassedFences drv).RecycleCompletedCommands.mCompletedSerial) :=
    SerialInv_congr rfl rfl rfl h1
  obtain ⟨h5, h6, h7⟩ := submitOrAdvance_spec drv _ h4
  refine ⟨h5, ?_, ?_⟩
  · exact le_trans (le_of_eq h2.symm) h6
  · exact le_trans h3 h7

theorem QueueSubmit_spec (drv : Driver) (commands : List VkHandle) (d : Device)
    (h : SerialInv d) :
    SerialInv (Queue.Submit drv commands d) ∧
      d.mNextSerial ≤ (Queue.Submit drv commands d).mNextSerial ∧
      d.mCompletedSerial ≤ (Queue.Submit drv commands d).mCompletedSerial := by
  obtain ⟨g1, g2, g3⟩ := GetPendingCommandBuffer_serials drv d
  have h1 : SerialInv (d.GetPendingCommandBuffer drv).2 := SerialInv_congr g1 g2 g3 h
  obtain ⟨h2, h3, h4⟩ := SubmitPendingCommands_spec drv _ h1
  refine ⟨h2, ?_, ?_⟩
  · exact le_trans (le_of_eq g2.symm) h3
  · exact le_of_eq (h4.trans g3).symm

theorem Op_apply_spec (op : Op) (d : Device) (h : SerialInv d) :
    SerialInv (op.apply d) ∧ d.mNextSerial ≤ (op.apply d).mNextSerial ∧
      d.mCompletedSerial ≤ (op.apply d).mCompletedSerial := by
  cases op with
  | GetPendingCommandBuffer drv =>
    obtain ⟨g1, g2, g3⟩ := GetPendingCommandBuffer_serials drv d
    exact ⟨SerialInv_congr g1 g2 g3 h, le_of_eq g2.symm, le_of_eq g3.symm⟩
  | AddWaitSemaphore semaphore =>
    exact ⟨SerialInv_congr rfl rfl rfl h, le_refl _, le_refl _⟩
  | SubmitPendingCommands drv =>
    obtain ⟨h1, h2, h3⟩ := SubmitPendingCommands_spec drv d h
    exact ⟨h1, h2, le_of_eq h3.symm⟩
  | QueueSubmit drv commands => exact QueueSubmit_spec drv commands d h
  | TickImpl drv => exact TickImpl_spec drv d h

theorem SerialInv_initial : SerialInv Device.initial := by
  simp [SerialInv, Device.initial]

theorem Reachable.serialInv {d : Device} (h : Reachable d) : SerialInv d := by
  induction h with
  | initial => exact SerialInv_initial
  | step op _ ih => exact (Op_apply_spec op _ ih).1

theorem Reachable.run (ops : List Op) {d : Device} (h : Reachable d) : Reachable (run ops d) := by
  induction ops generalizing d with
  | nil => exact h
  | cons op ops ih => exact ih (Reachable.step op h)

end vulkan

namespace vulkan

theorem TickImpl_idle (drv : Driver) (k : Nat) :
    Device.TickImpl drv { mNextSerial := k + 1, mCompletedSerial := k } =
      { mNextSerial := k + 1 + 1, mCompletedSerial := k + 1 } := by
  simp [Device.TickImpl, Device.CheckPassedFences, Device.CheckPassedFences.loop,
    Device.RecycleCompletedCommands, Device.DeleterTick, Device.TickImpl.submitOrAdvance,
    SerialQueue.IterateUpTo, SerialQueue.ClearUpTo]

theorem run_TickImpl_idle (drvs : List Driver) (k : Nat) :
    run (drvs.map Op.TickImpl) { mNextSerial := k + 1, mCompletedSerial := k } =
      { mNextSerial := k + drvs.length + 1, mCompletedSerial := k + drvs.length } := by
  induction drvs generalizing k with
  | nil => rfl
  | cons drv rest ih =>
    have h := ih (k + 1)
    unfold run at h ⊢
    rw [List.map_cons, List.foldl_cons]
    show List.foldl _ (Device.TickImpl drv _) _ = _
    rw [TickImpl_idle, h, List.length_cons]
    have e : k + 1 + rest.length = k + (rest.length + 1) := by omega
    rw [e]

/-- C7: in every state reachable from the initial state (`mNextSerial = 1`,
`mCompletedSerial = 0`) by any sequence of `GetPendingCommandBuffer`, `AddWaitSemaphore`,
`SubmitPendingCommands`, `Queue::Submit` and `TickImpl`, whatever the fences report,
`mCompletedSerial < mNextSerial`. -/
theorem Reachable_completed_lt_next {d : Device} (h : Reachable d) :
    d.mCompletedSerial < d.mNextSerial :=
  h.serialInv.2.2

/-- The witness of C7: two submissions, a tick that sees no fence ready, a tick that sees
both done, and a request for the pending command buffer. -/
theorem Reachable_completed_lt_next_witness :
    Reachable
        (run [Op.QueueSubmit ⟨fun _ => .VK_SUCCESS, 100, 200, 300⟩ [7],
              Op.AddWaitSemaphore 5,
              Op.QueueSubmit ⟨fun _ => .VK_NOT_READY, 101, 201, 301⟩ [],
              Op.TickImpl ⟨fun _ => .VK_NOT_READY, 102, 202, 302⟩,
              Op.TickImpl ⟨fun _ => .VK_SUCCESS, 103, 203, 303⟩,
              Op.GetPendingCommandBuffer ⟨fun _ => .VK_SUCCESS, 104, 204, 304⟩]
          Device.initial) ∧
      (run [Op.QueueSubmit ⟨fun _ => .VK_SUCCESS, 100, 200, 300⟩ [7],
            Op.AddWaitSemaphore 5,
            Op.QueueSubmit ⟨fun _ => .VK_NOT_READY, 101, 201, 301⟩ [],
            Op.TickImpl ⟨fun _ => .VK_NOT_READY, 102, 202, 302⟩,
            Op.TickImpl ⟨fun _ => .VK_SUCCESS, 103, 203, 303⟩,
            Op.GetPendingCommandBuffer ⟨fun _ => .VK_SUCCESS, 104, 204, 304⟩]
          Device.initial).mCompletedSerial <
        (run [Op.QueueSubmit ⟨fun _ => .VK_SUCCESS, 100, 200, 300⟩ [7],
              Op.AddWaitSemaphore 5,
              Op.QueueSubmit ⟨fun _ => .VK_NOT_READY, 101, 201, 301⟩ [],
              Op.TickImpl ⟨fun _ => .VK_NOT_READY, 102, 202, 302⟩,
              Op.TickImpl ⟨fun _ => .VK_SUCCESS, 103, 203, 303⟩,
              Op.GetPendingCommandBuffer ⟨fun _ => .VK_SUCCESS, 104, 204, 304⟩]
          Device.initial).mNextSerial :=
  ⟨Reachable.run _ Reachable.initial,
    Reachable_completed_lt_next (Reachable.run _ Reachable.initial)⟩

/-- C8: neither serial ever decreases.  In every reachable state, after each of
`GetPendingCommandBuffer`, `SubmitPendingCommands`, `Queue::Submit`, `CheckPassedFences` and
`TickImpl`, `mNextSerial` and `mCompletedSerial` are at least what they were before. -/
theorem Reachable_serials_monotone {d : Device} (h : Reachable d) (drv : Driver)
    (commands : List VkHandle) :
    (d.mNextSerial ≤ (d.GetPendingCommandBuffer drv).2.mNextSerial ∧
        d.mCompletedSerial ≤ (d.GetPendingCommandBuffer drv).2.mCompletedSerial) ∧
      (d.mNextSerial ≤ (d.SubmitPendingCommands drv).mNextSerial ∧
        d.mCompletedSerial ≤ (d.SubmitPendingCommands drv).mCompletedSerial) ∧
      (d.mNextSerial ≤ (Queue.Submit drv commands d).mNextSerial ∧
        d.mCompletedSerial ≤ (Queue.Submit drv commands d).mCompletedSerial) ∧
      (d.mNextSerial ≤ (d.CheckPassedFences drv).mNextSerial ∧
        d.mCompletedSerial ≤ (d.CheckPassedFences drv).mCompletedSerial) ∧
      (d.mNextSerial ≤ (d.TickImpl drv).mNextSerial ∧
        d.mCompletedSerial ≤ (d.TickImpl drv).mCompletedSerial) := by
  have hi := h.serialInv
  refine ⟨(Op_apply_spec (.GetPendingCommandBuffer drv) d hi).2,
    (Op_apply_spec (.SubmitPendingCommands drv) d hi).2,
    (Op_apply_spec (.QueueSubmit drv commands) d hi).2, ?_,
    (Op_apply_spec (.TickImpl drv) d hi).2⟩
  obtain ⟨_, h2, h3, _⟩ := CheckPassedFences_spec drv d hi
  exact ⟨le_of_eq h2.symm, h3⟩

/-- The witness of C8: the state after two submissions, with a driver that reports the
first fence done and the second one not ready. -/
theorem Reachable_serials_monotone_witness :
    Reachable
        (run [Op.QueueSubmit ⟨fun _ => .VK_SUCCESS, 100, 200, 300⟩ [7],
              Op.QueueSubmit ⟨fun _ => .VK_NOT_READY, 101, 201, 301⟩ []]
          Device.initial) ∧
      (run [Op.QueueSubmit ⟨fun _ => .VK_SUCCESS, 100, 200, 300⟩ [7],
            Op.QueueSubmit ⟨fun _ => .VK_NOT_READY, 101, 201, 301⟩ []]
          Device.initial).mCompletedSerial ≤
        (Device.CheckPassedFences
          ⟨fun f => if f = 100 then .VK_SUCCESS else .VK_NOT_READY, 102, 202, 302⟩
          (run [Op.QueueSubmit ⟨fun _ => .VK_SUCCESS, 100, 200, 300⟩ [7],
                Op.QueueSubmit ⟨fun _ => .VK_NOT_READY, 101, 201, 301⟩ []]
            Device.initial)).mCompletedSerial :=
  ⟨Reachable.run _ Reachable.initial,
    (Reachable_serials_monotone (Reachable.run _ Reachable.initial)
      ⟨fun f => if f = 100 then .VK_SUCCESS else .VK_NOT_READY, 102, 202, 302⟩ []).2.2.2.1.2⟩

/-- C9: on a freshly created device on which nothing is submitted and nothing is pending,
every `TickImpl` advances `mNextSerial` and `mCompletedSerial` by exactly one: after
`n` ticks, whatever the driver answers, `mNextSerial = 1 + n` and `mCompletedSerial = n`,
so `mCompletedSerial = mNextSerial - 1` after each tick, and one more tick adds one to
each counter. -/
theorem TickImpl_fresh_device (drvs : List Driver) (drv : Driver) :
    (run (drvs.map Op.TickImpl) Device.initial).mNextSerial = 1 + drvs.length ∧
      (run (drvs.map Op.TickImpl) Device.initial).mCompletedSerial = drvs.length ∧
      (run (drvs.map Op.TickImpl) Device.initial).mCompletedSerial =
        (run (drvs.map Op.TickImpl) Device.initial).mNextSerial - 1 ∧
      (Device.TickImpl drv (run (drvs.map Op.TickImpl) Device.initial)).mNextSerial =
        (run (drvs.map Op.TickImpl) Device.initial).mNextSerial + 1 ∧
      (Device.TickImpl drv (run (drvs.map Op.TickImpl) Device.initial)).mCompletedSerial =
        (run (drvs.map Op.TickImpl) Device.initial).mCompletedSerial + 1 := by
  have h : run (drvs.map Op.TickImpl) Device.initial =
      { mNextSerial := 0 + drvs.length + 1, mCompletedSerial := 0 + drvs.length } :=
    run_TickImpl_idle drvs 0
  rw [h, TickImpl_idle]
  refine ⟨?_, ?_, ?_, rfl, rfl⟩
  · show 0 + drvs.length + 1 = 1 + drvs.length
    omega
  · show 0 + drvs.length = drvs.length
    omega
  · show 0 + drvs.length = 0 + drvs.length + 1 - 1
    omega

/-- C10: the last statement of `TickImpl` does exactly one of three things.  With a pending
command buffer it submits it: `mNextSerial` grows by one and `mCompletedSerial` is
unchanged.  Otherwise, if `mCompletedSerial == mNextSerial - 1`, both counters grow by
one.  Otherwise the device is left as it is. -/
theorem TickImpl_last_statement (drv : Driver) (d : Device) :
    (d.TickImpl drv =
      Device.TickImpl.submitOrAdvance drv
        ((d.CheckPassedFences drv).RecycleCompletedCommands.DeleterTick
          (d.CheckPassedFences drv).RecycleCompletedCommands.mCompletedSerial)) ∧
    (∀ s : Device,
      (s.mPendingCommands.pool ≠ VK_NULL_HANDLE →
        Device.TickImpl.submitOrAdvance drv s = s.SubmitPendingCommands drv ∧
          (Device.TickImpl.submitOrAdvance drv s).mNextSerial = s.mNextSerial + 1 ∧
          (Device.TickImpl.submitOrAdvance drv s).mCompletedSerial = s.mCompletedSerial) ∧
      (s.mPendingCommands.pool = VK_NULL_HANDLE → s.mCompletedSerial = s.mNextSerial - 1 →
        (Device.TickImpl.submitOrAdvance drv s).mNextSerial = s.mNextSerial + 1 ∧
          (Device.TickImpl.submitOrAdvance drv s).mCompletedSerial = s.mCompletedSerial + 1) ∧
      (s.mPendingCommands.pool = VK_NULL_HANDLE → s.mCompletedSerial ≠ s.mNextSerial - 1 →
        Device.TickImpl.submitOrAdvance drv s = s)) := by
  refine ⟨rfl, fun s => ⟨?_, ?_, ?_⟩⟩
  · intro hp
    have e : Device.TickImpl.submitOrAdvance drv s = s.SubmitPendingCommands drv := by
      unfold Device.TickImpl.submitOrAdvance
      rw [if_pos hp]
    rw [e, SubmitPendingCommands_eq drv s hp]
    exact ⟨rfl, rfl, rfl⟩
  · intro hp hc
    unfold Device.TickImpl.submitOrAdvance
    rw [if_neg (not_not.mpr hp), if_pos hc]
    exact ⟨rfl, rfl⟩
  · intro hp hc
    unfold Device.TickImpl.submitOrAdvance
    rw [if_neg (not_not.mpr hp), if_neg hc]

end vulkan

/-! ## Fences, command pools and shutdown -/

namespace vulkan

theorem CheckPassedFences_loop_eq (drv : Driver) (l : List (VkHandle × Serial)) (d : Device) :
    Device.CheckPassedFences.loop drv l d =
      { d with
        mFencesInFlight := l.dropWhile drv.done
        mUnusedFences := d.mUnusedFences ++ (l.takeWhile drv.done).map Prod.fst
        mCompletedSerial :=
          ((l.takeWhile drv.done).getLast?.map Prod.snd).getD d.mCompletedSerial } := by
  induction l generalizing d with
  | nil => simp [Device.CheckPassedFences.loop]
  | cons x rest ih =>
    obtain ⟨fence, fenceSerial⟩ := x
    unfold Device.CheckPassedFences.loop
    by_cases hs : drv.GetFenceStatus fence = VkResult.VK_NOT_READY
    · have hd : drv.done (fence, fenceSerial) = false := by simp [Driver.done, hs]
      rw [if_pos hs]
      simp [List.dropWhile_cons, List.takeWhile_cons, hd]
    · have hd : drv.done (fence, fenceSerial) = true := by simp [Driver.done, hs]
      rw [if_neg hs, ih]
      simp only [List.dropWhile_cons, List.takeWhile_cons, hd, if_true, List.map_cons,
        List.getLast?_cons, Option.map_some', Option.getD_some]
      congr 1
      · simp
      · cases (List.takeWhile drv.done rest).getLast? <;> rfl

theorem CheckPassedFences_eq (drv : Driver) (d : Device) :
    d.CheckPassedFences drv =
      { d with
        mFencesInFlight := d.mFencesInFlight.dropWhile drv.done
        mUnusedFences := d.mUnusedFences ++ (d.mFencesInFlight.takeWhile drv.done).map Prod.fst
        mCompletedSerial :=
          ((d.mFencesInFlight.takeWhile drv.done).getLast?.map Prod.snd).getD
            d.mCompletedSerial } :=
  CheckPassedFences_loop_eq drv d.mFencesInFlight d

/-- C11: `CheckPassedFences` removes exactly the longest prefix of the fence FIFO whose fences
report done.  The FIFO is split into a prefix of fences that are all done and a rest whose
first fence, if any, is not ready; the rest stays in flight as it is, the fences of the
prefix are appended to `mUnusedFences` in order, and `mCompletedSerial` becomes the serial
of the last fence of the prefix, or keeps its value when the prefix is empty. -/
theorem CheckPassedFences_longest_done_prefix (drv : Driver) (d : Device) :
    d.mFencesInFlight.takeWhile drv.done ++ (d.CheckPassedFences drv).mFencesInFlight =
        d.mFencesInFlight ∧
      (∀ x ∈ d.mFencesInFlight.takeWhile drv.done,
        drv.GetFenceStatus x.1 ≠ VkResult.VK_NOT_READY) ∧
      (∀ x, (d.CheckPassedFences drv).mFencesInFlight.head? = some x →
        drv.GetFenceStatus x.1 = VkResult.VK_NOT_READY) ∧
      (d.CheckPassedFences drv).mUnusedFences =
        d.mUnusedFences ++ (d.mFencesInFlight.takeWhile drv.done).map Prod.fst ∧
      (d.CheckPassedFences drv).mCompletedSerial =
        ((d.mFencesInFlight.takeWhile drv.done).getLast?.map Prod.snd).getD
          d.mCompletedSerial := by
  rw [CheckPassedFences_eq]
  refine ⟨List.takeWhile_append_dropWhile _ _, ?_, ?_, rfl, rfl⟩
  · intro x hx
    have := List.mem_takeWhile_imp hx
    simpa [Driver.done] using this
  · intro x hx
    have hx' : (d.mFencesInFlight.dropWhile drv.done).head? = some x := hx
    have := List.head?_dropWhile_not drv.done d.mFencesInFlight
    rw [hx'] at this
    simpa [Driver.done] using this

/-- C12: after `RecycleCompletedCommands` no entry in flight has a serial at most
`mCompletedSerial`, the command pools of the entries that were removed have been pushed
onto `mUnusedCommands`, in order, behind what it held, and every entry whose serial is
greater than `mCompletedSerial` is still in flight. -/
theorem RecycleCompletedCommands_spec (d : Device) :
    d.RecycleCompletedCommands.mCompletedSerial = d.mCompletedSerial ∧
      (∀ e ∈ d.RecycleCompletedCommands.mCommandsInFlight, d.mCompletedSerial < e.2) ∧
      d.RecycleCompletedCommands.mUnusedCommands =
        d.mUnusedCommands ++
          (d.mCommandsInFlight.filter (fun e => e.2 ≤ d.mCompletedSerial)).map Prod.fst ∧
      (∀ e ∈ d.mCommandsInFlight, e.2 ≤ d.mCompletedSerial →
        e ∉ d.RecycleCompletedCommands.mCommandsInFlight ∧
          e.1 ∈ d.RecycleCompletedCommands.mUnusedCommands) ∧
      (∀ e ∈ d.mCommandsInFlight, d.mCompletedSerial < e.2 →
        e ∈ d.RecycleCompletedCommands.mCommandsInFlight) := by
  unfold Device.RecycleCompletedCommands SerialQueue.IterateUpTo SerialQueue.ClearUpTo
  refine ⟨rfl, ?_, rfl, ?_, ?_⟩
  · intro e he
    simp only [List.mem_filter, decide_eq_true_eq, not_le] at he
    exact he.2
  · intro e he hle
    constructor
    · intro hmem
      simp only [List.mem_filter, decide_eq_true_eq] at hmem
      exact hmem.2 hle
    · simp only [List.mem_append, List.mem_map, List.mem_filter, decide_eq_true_eq]
      exact Or.inr ⟨e, ⟨he, hle⟩, rfl⟩
  · intro e he hlt
    simp only [List.mem_filter, decide_eq_true_eq, not_le]
    exact ⟨he, hlt⟩

end vulkan

namespace vulkan

theorem CommandsInv_congr {d d' : Device} (hu : d'.mUnusedCommands = d.mUnusedCommands)
    (hc : d'.mCommandsInFlight = d.mCommandsInFlight) (hn : d'.mNextSerial = d.mNextSerial)
    (h : CommandsInv d) : CommandsInv d' := by
  unfold CommandsInv at *
  rw [hu, hc, hn]
  exact h

theorem GetPendingCommandBuffer_commands (drv : Driver) (d : Device) (h : CommandsInv d) :
    CommandsInv (d.GetPendingCommandBuffer drv).2 ∧
      (d.GetPendingCommandBuffer drv).1 =
        (d.GetPendingCommandBuffer drv).2.mPendingCommands.commandBuffer ∧
      (drv.CreateCommandPool ≠ VK_NULL_HANDLE →
        (d.GetPendingCommandBuffer drv).2.mPendingCommands.pool ≠ VK_NULL_HANDLE) := by
  unfold Device.GetPendingCommandBuffer Device.GetUnusedCommands
  by_cases hp : d.mPendingCommands.pool = VK_NULL_HANDLE
  · rw [if_pos hp]
    cases hlast : d.mUnusedCommands.getLast? with
    | none => exact ⟨⟨h.1, h.2⟩, rfl, fun hdrv => hdrv⟩
    | some c =>
      refine ⟨⟨?_, h.2⟩, rfl, fun _ => h.1 c (List.mem_of_getLast?_eq_some hlast)⟩
      intro x hx
      exact h.1 x (List.dropLast_subset _ hx)
  · rw [if_neg hp]
    exact ⟨h, rfl, fun _ => hp⟩

theorem SubmitPendingCommands_commands (drv : Driver) (d : Device) (h : CommandsInv d) :
    CommandsInv (d.SubmitPendingCommands drv) := by
  by_cases hp : d.mPendingCommands.pool = VK_NULL_HANDLE
  · have e : d.SubmitPendingCommands drv = d := by
      unfold Device.SubmitPendingCommands
      rw [if_pos hp]
    rw [e]
    exact h
  · rw [SubmitPendingCommands_eq drv d hp]
    refine ⟨h.1, ?_⟩
    intro e he
    rcases List.mem_append.mp he with he | he
    · exact ⟨(h.2 e he).1, Nat.lt_succ_of_lt (h.2 e he).2⟩
    · simp only [List.mem_singleton] at he
      subst he
      exact ⟨hp, Nat.lt_succ_self _⟩

theorem RecycleCompletedCommands_commands (d : Device) (h : CommandsInv d) :
    CommandsInv d.RecycleCompletedCommands := by
  unfold Device.RecycleCompletedCommands SerialQueue.IterateUpTo SerialQueue.ClearUpTo
  constructor
  · intro c hc
    rcases List.mem_append.mp hc with hc | hc
    · exact h.1 c hc
    · obtain ⟨e, he, rfl⟩ := List.mem_map.mp hc
      exact (h.2 e (List.mem_of_mem_filter he)).1
  · intro e he
    exact h.2 e (List.mem_of_mem_filter he)

theorem submitOrAdvance_commands (drv : Driver) (d : Device) (h : CommandsInv d) :
    CommandsInv (Device.TickImpl.submitOrAdvance drv d) := by
  unfold Device.TickImpl.submitOrAdvance
  by_cases hp : d.mPendingCommands.pool ≠ VK_NULL_HANDLE
  · rw [if_pos hp]
    exact SubmitPendingCommands_commands drv d h
  · rw [if_neg hp]
    by_cases hc : d.mCompletedSerial = d.mNextSerial - 1
    · rw [if_pos hc]
      exact ⟨h.1, fun e he => ⟨(h.2 e he).1, Nat.lt_succ_of_lt (h.2 e he).2⟩⟩
    · rw [if_neg hc]
      exact h

theorem TickImpl_commands (drv : Driver) (d : Device) (h : CommandsInv d) :
    CommandsInv (d.TickImpl drv) := by
  have h1 : CommandsInv (d.CheckPassedFences drv) := by
    rw [CheckPassedFences_eq]
    exact CommandsInv_congr rfl rfl rfl h
  have h2 := RecycleCompletedCommands_commands _ h1
  have h3 : CommandsInv
      ((d.CheckPassedFences drv).RecycleCompletedCommands.DeleterTick
        (d.CheckPassedFences drv).RecycleCompletedCommands.mCompletedSerial) :=
    CommandsInv_congr rfl rfl rfl h2
  exact submitOrAdvance_commands drv _ h3

theorem Op_apply_commands (op : Op) (d : Device) (h : CommandsInv d) :
    CommandsInv (op.apply d) := by
  cases op with
  | GetPendingCommandBuffer drv => exact (GetPendingCommandBuffer_commands drv d h).1
  | AddWaitSemaphore semaphore => exact CommandsInv_congr rfl rfl rfl h
  | SubmitPendingCommands drv => exact SubmitPendingCommands_commands drv d h
  | QueueSubmit drv commands =>
    exact SubmitPendingCommands_commands drv _ (GetPendingCommandBuffer_commands drv d h).1
  | TickImpl drv => exact TickImpl_commands drv d h

theorem Reachable.commandsInv {d : Device} (h : Reachable d) : CommandsInv d := by
  induction h with
  | initial =>
    constructor
    · intro c hc
      simp [Device.initial] at hc
    · intro e he
      simp [Device.initial] at he
  | step op _ ih => exact Op_apply_commands op _ ih

/-- C13: on a device in a reachable state, with a driver whose `vkCreateCommandPool` gives a
real handle, one call of `Queue::Submit`, for any list of command buffers (the empty one
included) and whether or not commands were already pending, appends exactly one fence to
`mFencesInFlight`, tagged with the old `mNextSerial`, and increases `mNextSerial` by
exactly one. -/
theorem QueueSubmit_one_fence {d : Device} (h : Reachable d) (drv : Driver)
    (commands : List VkHandle) (hdrv : drv.CreateCommandPool ≠ VK_NULL_HANDLE) :
    (Queue.Submit drv commands d).mFencesInFlight =
        d.mFencesInFlight ++
          [(((d.GetPendingCommandBuffer drv).2.GetUnusedFence drv).1, d.mNextSerial)] ∧
      (Queue.Submit drv commands d).mFencesInFlight.length = d.mFencesInFlight.length + 1 ∧
      (Queue.Submit drv commands d).mNextSerial = d.mNextSerial + 1 := by
  obtain ⟨_, _, hp⟩ := GetPendingCommandBuffer_commands drv d h.commandsInv
  obtain ⟨g1, g2, _⟩ := GetPendingCommandBuffer_serials drv d
  have e : Queue.Submit drv commands d =
      (d.GetPendingCommandBuffer drv).2.SubmitPendingCommands drv := rfl
  rw [e, SubmitPendingCommands_eq drv _ (hp hdrv)]
  simp only [g1, g2, List.length_append, List.length_singleton, and_self]

/-- The witness of C13: a submission of no command buffer on a device that already has one
submission in flight and nothing pending. -/
theorem QueueSubmit_one_fence_witness :
    (Queue.Submit ⟨fun _ => .VK_NOT_READY, 101, 201, 301⟩ []
        (run [Op.QueueSubmit ⟨fun _ => .VK_NOT_READY, 100, 200, 300⟩ [7]]
          Device.initial)).mFencesInFlight = [(100, 1), (101, 2)] ∧
      (Queue.Submit ⟨fun _ => .VK_NOT_READY, 101, 201, 301⟩ []
        (run [Op.QueueSubmit ⟨fun _ => .VK_NOT_READY, 100, 200, 300⟩ [7]]
          Device.initial)).mFencesInFlight.length = 2 ∧
      (Queue.Submit ⟨fun _ => .VK_NOT_READY, 101, 201, 301⟩ []
        (run [Op.QueueSubmit ⟨fun _ => .VK_NOT_READY, 100, 200, 300⟩ [7]]
          Device.initial)).mNextSerial = 3 :=
  QueueSubmit_one_fence (Reachable.run _ Reachable.initial)
    ⟨fun _ => .VK_NOT_READY, 101, 201, 301⟩ [] (by decide)

/-- C14: the device has one slot for a recording command buffer, `mPendingCommands`.
`GetPendingCommandBuffer` calls `vkBeginCommandBuffer` exactly when no command buffer is
pending.  On a device in a reachable state, with drivers whose `vkCreateCommandPool` gives a
real handle, a second call right after a first one returns the same command buffer,
leaves the device (and so `mUnusedCommands`) as the first call left it, and makes no
Vulkan call. -/
theorem GetPendingCommandBuffer_twice {d : Device} (h : Reachable d) (drv drv' : Driver)
    (hdrv : drv.CreateCommandPool ≠ VK_NULL_HANDLE) :
    ((∃ commandBuffer,
        VkCall.BeginCommandBuffer commandBuffer ∈ Device.GetPendingCommandBuffer.calls drv d) ↔
      d.mPendingCommands.pool = VK_NULL_HANDLE) ∧
      (d.GetPendingCommandBuffer drv).2.GetPendingCommandBuffer drv' =
        ((d.GetPendingCommandBuffer drv).1, (d.GetPendingCommandBuffer drv).2) ∧
      Device.GetPendingCommandBuffer.calls drv' (d.GetPendingCommandBuffer drv).2 = [] := by
  obtain ⟨_, hcb, hp⟩ := GetPendingCommandBuffer_commands drv d h.commandsInv
  have hpool := hp hdrv
  refine ⟨?_, ?_, ?_⟩
  · unfold Device.GetPendingCommandBuffer.calls
    by_cases hn : d.mPendingCommands.pool = VK_NULL_HANDLE
    · rw [if_pos hn]
      simp [hn]
    · rw [if_neg hn]
      simp [hn]
  · rw [hcb]
    generalize (d.GetPendingCommandBuffer drv).2 = d1 at hpool
    unfold Device.GetPendingCommandBuffer
    rw [if_neg hpool]
  · unfold Device.GetPendingCommandBuffer.calls
    rw [if_neg hpool]

/-- The witness of C14: two calls on the initial device. -/
theorem GetPendingCommandBuffer_twice_witness :
    Device.GetPendingCommandBuffer ⟨fun _ => .VK_NOT_READY, 101, 201, 301⟩
        (Device.GetPendingCommandBuffer ⟨fun _ => .VK_NOT_READY, 100, 200, 300⟩
          Device.initial).2 =
      (300, { mPendingCommands := ⟨200, 300⟩ }) ∧
      Device.GetPendingCommandBuffer.calls ⟨fun _ => .VK_NOT_READY, 101, 201, 301⟩
        (Device.GetPendingCommandBuffer ⟨fun _ => .VK_NOT_READY, 100, 200, 300⟩
          Device.initial).2 = [] :=
  (GetPendingCommandBuffer_twice Reachable.initial ⟨fun _ => .VK_NOT_READY, 100, 200, 300⟩
    ⟨fun _ => .VK_NOT_READY, 101, 201, 301⟩ (by decide)).2

end vulkan

namespace vulkan

theorem dropWhile_done_eq_nil (drv : Driver) (l : List (VkHandle × Serial))
    (h : ∀ x ∈ l, drv.GetFenceStatus x.1 = VkResult.VK_SUCCESS) : l.dropWhile drv.done = [] := by
  rw [List.dropWhile_eq_nil_iff]
  intro x hx
  simp [Driver.done, h x hx]

theorem TickImpl_nothing_in_flight (drv : Driver) (s : Device) (hf : s.mFencesInFlight = [])
    (hp : s.mPendingCommands.pool = VK_NULL_HANDLE)
    (hc : s.mCompletedSerial ≠ s.mNextSerial - 1) :
    s.TickImpl drv =
      { s with
        mUnusedCommands := s.mUnusedCommands ++ s.mCommandsInFlight.IterateUpTo s.mCompletedSerial
        mCommandsInFlight := s.mCommandsInFlight.ClearUpTo s.mCompletedSerial
        mSemaphoresToDelete := s.mSemaphoresToDelete.ClearUpTo s.mCompletedSerial } := by
  have h1 : s.CheckPassedFences drv = s := by
    rw [CheckPassedFences_eq, hf]
    simp
    rw [← hf]
  unfold Device.TickImpl
  simp only [h1]
  unfold Device.TickImpl.submitOrAdvance Device.DeleterTick Device.RecycleCompletedCommands
  simp only [ne_eq, hp, not_true_eq_false, if_false, hc]

theorem destructor_eq {d : Device} (h : Reachable d) (drv : Driver)
    (hdone : ∀ x ∈ d.mFencesInFlight, drv.GetFenceStatus x.1 = VkResult.VK_SUCCESS) :
    d.destructor drv =
      { mFencesInFlight := []
        mUnusedFences := []
        mNextSerial := d.mNextSerial
        mCompletedSerial := d.mNextSerial
        mCommandsInFlight := []
        mUnusedCommands := []
        mPendingCommands := {}
        mWaitSemaphores := d.mWaitSemaphores
        mSemaphoresToDelete := d.mSemaphoresToDelete.ClearUpTo d.mNextSerial } := by
  have hpos : 0 < d.mNextSerial := Nat.lt_of_le_of_lt (Nat.zero_le _) h.serialInv.2.2
  have hinv := h.commandsInv
  have hclear : SerialQueue.ClearUpTo d.mCommandsInFlight d.mNextSerial = [] := by
    unfold SerialQueue.ClearUpTo
    rw [List.filter_eq_nil_iff]
    intro e he
    have := (hinv.2 e he).2
    simp only [decide_eq_true_eq, not_not]
    exact le_of_lt this
  have hc : d.mNextSerial ≠ d.mNextSerial - 1 := by
    unfold Serial at *
    omega
  unfold Device.destructor Device.Tick
  simp only
  rw [CheckPassedFences_eq]
  simp only [dropWhile_done_eq_nil drv d.mFencesInFlight hdone]
  rw [TickImpl_nothing_in_flight _ _ rfl rfl hc]
  simp only [hclear]
  rfl

/-- C15: shutdown of a device in a reachable state, every fence in flight reporting done
after the queue-idle wait.  The destructor frees the pending commands, drains the fences,
sets `mCompletedSerial` to `mNextSerial` and runs one `Tick`.  At its end
`mCompletedSerial = mNextSerial`, `mNextSerial` is what it was when destruction began,
nothing is in flight (neither a fence nor a command pool, so the commands that were
pending were not submitted) and `mPendingCommands` is the null record. -/
theorem destructor_spec {d : Device} (h : Reachable d) (drv : Driver)
    (hdone : ∀ x ∈ d.mFencesInFlight, drv.GetFenceStatus x.1 = VkResult.VK_SUCCESS) :
    (d.destructor drv).mCompletedSerial = (d.destructor drv).mNextSerial ∧
      (d.destructor drv).mNextSerial = d.mNextSerial ∧
      (d.destructor drv).mCommandsInFlight = [] ∧
      (d.destructor drv).mFencesInFlight = [] ∧
      (d.destructor drv).mPendingCommands = {} := by
  rw [destructor_eq h drv hdone]
  exact ⟨rfl, rfl, rfl, rfl, rfl⟩

/-- The witness of C15: a device with two submissions in flight and a pending command
buffer is destroyed; the serials end at 3 and 3. -/
theorem destructor_spec_witness :
    (Device.destructor ⟨fun _ => .VK_SUCCESS, 103, 203, 303⟩
        (run [Op.QueueSubmit ⟨fun _ => .VK_NOT_READY, 100, 200, 300⟩ [7],
              Op.QueueSubmit ⟨fun _ => .VK_NOT_READY, 101, 201, 301⟩ [],
              Op.GetPendingCommandBuffer ⟨fun _ => .VK_NOT_READY, 102, 202, 302⟩]
          Device.initial)).mCompletedSerial = 3 ∧
      (Device.destructor ⟨fun _ => .VK_SUCCESS, 103, 203, 303⟩
        (run [Op.QueueSubmit ⟨fun _ => .VK_NOT_READY, 100, 200, 300⟩ [7],
              Op.QueueSubmit ⟨fun _ => .VK_NOT_READY, 101, 201, 301⟩ [],
              Op.GetPendingCommandBuffer ⟨fun _ => .VK_NOT_READY, 102, 202, 302⟩]
          Device.initial)).mNextSerial = 3 ∧
      (Device.destructor ⟨fun _ => .VK_SUCCESS, 103, 203, 303⟩
        (run [Op.QueueSubmit ⟨fun _ => .VK_NOT_READY, 100, 200, 300⟩ [7],
              Op.QueueSubmit ⟨fun _ => .VK_NOT_READY, 101, 201, 301⟩ [],
              Op.GetPendingCommandBuffer ⟨fun _ => .VK_NOT_READY, 102, 202, 302⟩]
          Device.initial)).mCommandsInFlight = [] :=
  have hw := destructor_spec
    (Reachable.run
      [Op.QueueSubmit ⟨fun _ => .VK_NOT_READY, 100, 200, 300⟩ [7],
        Op.QueueSubmit ⟨fun _ => .VK_NOT_READY, 101, 201, 301⟩ [],
        Op.GetPendingCommandBuffer ⟨fun _ => .VK_NOT_READY, 102, 202, 302⟩]
      Reachable.initial)
    ⟨fun _ => .VK_SUCCESS, 103, 203, 303⟩ (fun _ _ => rfl)
  ⟨hw.1, hw.2.1, hw.2.2.1⟩

end vulkan

/-! ## Properties of the generated entry points -/

namespace dawn_native

theorem badValue_flags (m : Method) :
    (badValue m).reportsError = true ∧ (badValue m).isHandleOrConsumedError = true ∧
      (badValue m).isMethod = false := by
  unfold badValue
  cases m.isBuilder <;> simp [Call.reportsError, Call.isHandleOrConsumedError, Call.isMethod]

/-- The loop of `ValidateBase`, entered with `error = false`: it returns `false` exactly when
some enum or bitmask argument is rejected, and then its one error call is the last call. -/
theorem ValidateBase_loop_spec (m : Method) (self : Self) (l : List (Argument × Nat)) :
    ((ValidateBase.loop m self false l).1 = false ↔
        ∃ p ∈ l, (p.1.category = Category.enumeration ∨ p.1.category = Category.bitmask) ∧
          (self.Validate p.1.cppType p.2).IsError = true) ∧
      (ValidateBase.loop m self false l).2.filter Call.reportsError =
        (if (ValidateBase.loop m self false l).1 then [] else [badValue m]) ∧
      (ValidateBase.loop m self false l).2.filter Call.isHandleOrConsumedError =
        (if (ValidateBase.loop m self false l).1 then [] else [badValue m]) ∧
      (ValidateBase.loop m self false l).2.filter Call.isMethod = [] := by
  obtain ⟨hb1, hb2, hb3⟩ := badValue_flags m
  have hv1 : ∀ t v, (Call.Validate t v).reportsError = false := fun _ _ => rfl
  have hv2 : ∀ t v, (Call.Validate t v).isHandleOrConsumedError = false := fun _ _ => rfl
  have hv3 : ∀ t v, (Call.Validate t v).isMethod = false := fun _ _ => rfl
  induction l with
  | nil => simp [ValidateBase.loop]
  | cons p rest ih =>
    obtain ⟨arg, value⟩ := p
    obtain ⟨ih1, ih2, ih3, ih4⟩ := ih
    unfold ValidateBase.loop
    by_cases hcat : arg.category = Category.enumeration ∨ arg.category = Category.bitmask
    · by_cases herr : (self.Validate arg.cppType value).IsError = true
      · simp only [hcat, herr, if_true, List.filter_append, List.filter_cons, List.filter_nil,
          hb1, hb2, hb3, hv1, hv2, hv3]
        refine ⟨?_, by simp, by simp, by simp⟩
        simp only [true_iff]
        exact ⟨(arg, value), List.mem_cons_self _ _, hcat, herr⟩
      · simp only [hcat, herr, if_true, if_false, List.filter_append, List.filter_cons,
          List.filter_nil, Bool.false_eq_true, hv1, hv2, hv3]
        refine ⟨?_, by simpa using ih2, by simpa using ih3, by simpa using ih4⟩
        rw [ih1]
        constructor
        · rintro ⟨q, hq, hq'⟩
          exact ⟨q, List.mem_cons_of_mem _ hq, hq'⟩
        · rintro ⟨q, hq, hq'⟩
          rcases List.mem_cons.mp hq with hq | hq
          · subst hq
            exact absurd hq'.2 herr
          · exact ⟨q, hq, hq'⟩
    · simp only [hcat, if_false, List.nil_append, Bool.false_eq_true]
      refine ⟨?_, ih2, ih3, ih4⟩
      rw [ih1]
      constructor
      · rintro ⟨q, hq, hq'⟩
        exact ⟨q, List.mem_cons_of_mem _ hq, hq'⟩
      · rintro ⟨q, hq, hq'⟩
        rcases List.mem_cons.mp hq with hq | hq
        · subst hq
          exact absurd hq'.1 hcat
        · exact ⟨q, hq, hq'⟩

theorem ValidateBase_consumed (m : Method) (self : Self) (values : List Nat)
    (hb : m.isBuilder = true) (h1 : m.name ≠ "release") (h2 : m.name ≠ "reference")
    (hc : self.CanBeUsed = false) :
    ValidateBase m self values =
      (false, [Call.CanBeUsed, Call.DeviceHandleError "Builder cannot be used after GetResult"]) := by
  unfold ValidateBase
  simp [hb, h1, h2, hc]

/-- Unless it stops on a consumed builder, `ValidateBase` is its loop, behind the call of
`CanBeUsed` when the template emits one. -/
theorem ValidateBase_usable (m : Method) (self : Self) (values : List Nat)
    (hu : m.isBuilder = true → m.name ≠ "release" → m.name ≠ "reference" →
      self.CanBeUsed = true) :
    ∃ pre : List Call, (pre = [] ∨ pre = [Call.CanBeUsed]) ∧
      ValidateBase m self values =
        ((ValidateBase.loop m self false (m.arguments.zip values)).1,
          pre ++ (ValidateBase.loop m self false (m.arguments.zip values)).2) := by
  unfold ValidateBase
  by_cases hg : m.isBuilder = true ∧ m.name ≠ "release" ∧ m.name ≠ "reference"
  · have hc := hu hg.1 hg.2.1 hg.2.2
    exact ⟨[Call.CanBeUsed], Or.inr rfl, by simp [hg, hc]⟩
  · exact ⟨[], Or.inl rfl, by simp [hg]⟩

/-- The calls of `ValidateBase`: one error call when it returns `false`, none when it
returns `true`, and never the method. -/
theorem ValidateBase_counts (m : Method) (self : Self) (values : List Nat) :
    (ValidateBase m self values).2.countP Call.reportsError =
        (if (ValidateBase m self values).1 then 0 else 1) ∧
      (ValidateBase m self values).2.countP Call.isHandleOrConsumedError =
        (if (ValidateBase m self values).1 then 0 else 1) ∧
      (ValidateBase m self values).2.countP Call.isMethod = 0 := by
  by_cases hg : m.isBuilder = true ∧ m.name ≠ "release" ∧ m.name ≠ "reference" ∧
      self.CanBeUsed = false
  · rw [ValidateBase_consumed m self values hg.1 hg.2.1 hg.2.2.1 hg.2.2.2]
    simp [Call.reportsError, Call.isHandleOrConsumedError, Call.isMethod]
  · have hu : m.isBuilder = true → m.name ≠ "release" → m.name ≠ "reference" →
        self.CanBeUsed = true := by
      intro a b c
      by_contra hcon
      exact hg ⟨a, b, c, by simpa using hcon⟩
    obtain ⟨pre, hpre, he⟩ := ValidateBase_usable m self values hu
    obtain ⟨_, l2, l3, l4⟩ := ValidateBase_loop_spec m self (m.arguments.zip values)
    rw [he]
    simp only [List.countP_eq_length_filter, List.filter_append, List.length_append, l2, l3, l4]
    rcases hpre with hpre | hpre <;> subst hpre <;>
      cases (ValidateBase.loop m self false (m.arguments.zip values)).1 <;>
      simp [Call.reportsError, Call.isHandleOrConsumedError, Call.isMethod]

/-- The calls of the checks of `Validating`: one call reports an error when `valid` ends
`false`, none when it ends `true`; `ConsumedError` is also called, with a success, when a
method of a type that is no builder passes its extra validation. -/
theorem Validating_checks_counts (m : Method) (self : Self) (values : List Nat) :
    (Validating.checks m self values).2.countP Call.reportsError =
        (if (Validating.checks m self values).1 then 0 else 1) ∧
      (Validating.checks m self values).2.countP Call.isHandleOrConsumedError =
        (if (Validating.checks m self values).1 then
          (if m.suffix ∈ methodsWithExtraValidation ∧ m.isBuilder = false then 1 else 0)
        else 1) ∧
      (Validating.checks m self values).2.countP Call.isMethod = 0 := by
  obtain ⟨b1, b2, b3⟩ := ValidateBase_counts m self values
  unfold Validating.checks
  by_cases hx : m.suffix ∈ methodsWithExtraValidation
  · by_cases hv : (ValidateBase m self values).1 = true
    · simp only [hv, if_true] at b1 b2
      by_cases hb : m.isBuilder = true
      · by_cases he : (self.ValidateMethod values).IsError = true
        · simp [hx, hv, hb, he, List.countP_append, b1, b2, b3, Call.reportsError,
            Call.isHandleOrConsumedError, Call.isMethod]
        · simp [hx, hv, hb, he, List.countP_append, b1, b2, b3, Call.reportsError,
            Call.isHandleOrConsumedError, Call.isMethod]
      · by_cases he : (self.ValidateMethod values).IsError = true
        · simp [hx, hv, hb, he, List.countP_append, b1, b2, b3, Call.reportsError,
            Call.isHandleOrConsumedError, Call.isMethod, DeviceBase.ConsumedError]
        · simp [hx, hv, hb, he, List.countP_append, b1, b2, b3, Call.reportsError,
            Call.isHandleOrConsumedError, Call.isMethod, DeviceBase.ConsumedError]
    · have hv' : (ValidateBase m self values).1 = false := by simpa using hv
      simp only [hv', Bool.false_eq_true, if_false] at b1 b2
      simp [hx, hv', b1, b2, b3]
  · simp only [hx, if_false, false_and]
    exact ⟨b1, b2, b3⟩

end dawn_native

namespace dawn_native

theorem Validating_checks_of_base_false (m : Method) (self : Self) (values : List Nat)
    (h : (ValidateBase m self values).1 = false) :
    Validating.checks m self values = ValidateBase m self values := by
  unfold Validating.checks
  by_cases hx : m.suffix ∈ methodsWithExtraValidation <;> simp [hx, h]

theorem Validating_consumed_eq (m : Method) (self : Self) (values : List Nat)
    (hb : m.isBuilder = true) (h1 : m.name ≠ "release") (h2 : m.name ≠ "reference")
    (hc : self.CanBeUsed = false) :
    Validating m self values =
      (if m.returnsVoid then none else some 0,
        [Call.CanBeUsed, Call.DeviceHandleError "Builder cannot be used after GetResult"] ++
          (if m.name = "get result" then [Call.HandleResult 0] else [])) := by
  have hbase := ValidateBase_consumed m self values hb h1 h2 hc
  have hchecks := Validating_checks_of_base_false m self values (by rw [hbase])
  unfold Validating
  rw [hchecks, hbase]
  by_cases hn : m.name = "get result" <;> simp [hb, hn]

theorem not_mem_of_countP_isMethod {l : List Call} (h : l.countP Call.isMethod = 0)
    (args : List Nat) : Call.Method args ∉ l := by
  intro hmem
  have := List.countP_eq_zero.mp h (Call.Method args) hmem
  exact this rfl

theorem Validating_eq_of_invalid (m : Method) (self : Self) (values : List Nat)
    (h : (Validating.checks m self values).1 = false) :
    Validating m self values =
      (if m.returnsVoid then none else some 0,
        (Validating.checks m self values).2 ++
          (if m.isBuilder = true ∧ m.name = "get result" then [Call.HandleResult 0] else [])) := by
  unfold Validating
  by_cases hg : m.isBuilder = true ∧ m.name = "get result" <;> simp [h, hg]

theorem Validating_eq_of_valid (m : Method) (self : Self) (values : List Nat)
    (h : (Validating.checks m self values).1 = true) :
    Validating m self values =
      (if m.returnsVoid then none else some (self.Method (convertAll m values)),
        (Validating.checks m self values).2 ++ [Call.Method (convertAll m values)]) := by
  unfold Validating
  by_cases hg : m.isBuilder = true ∧ m.name = "get result" <;> simp [h, hg]

/-- The counterexample of C16: `Release` called through the validating table on a consumed
builder (`CanBeUsed()` is false) reports nothing and calls the builder's `Release`. -/
theorem Validating_Release_on_consumed_builder :
    Validating ⟨"BufferBuilderRelease", true, "release", [], true⟩
      ⟨false, fun _ _ => .ok, fun _ => .ok, fun _ => 0, fun _ => false⟩ [] =
      (none, [Call.Method []]) := by
  decide

/-- C16, amended: after `GetResult` on a builder (`CanBeUsed()` is false), every call of a
method other than `Reference` and `Release` made through the validating table reports
the error "Builder cannot be used after GetResult" on the device, that error being the
only one, and does not call the builder's method; the entry point returns the
value-initialised result. -/
theorem Validating_consumed_builder (m : Method) (self : Self) (values : List Nat)
    (hb : m.isBuilder = true) (h1 : m.name ≠ "release") (h2 : m.name ≠ "reference")
    (hc : self.CanBeUsed = false) :
    (Validating m self values).2.filter Call.reportsError =
        [Call.DeviceHandleError "Builder cannot be used after GetResult"] ∧
      (∀ args, Call.Method args ∉ (Validating m self values).2) ∧
      (Validating m self values).1 = (if m.returnsVoid then none else some 0) := by
  rw [Validating_consumed_eq m self values hb h1 h2 hc]
  refine ⟨?_, ?_, rfl⟩
  · by_cases hn : m.name = "get result" <;> simp [hn, Call.reportsError]
  · intro args
    by_cases hn : m.name = "get result" <;> simp [hn]

/-- The witness of C16: `SetAllowedUsage` on a consumed buffer builder. -/
theorem Validating_consumed_builder_witness :
    (Validating
        ⟨"BufferBuilderSetAllowedUsage", true, "set allowed usage",
          [⟨"usage", .bitmask, "BufferUsageBit", "value"⟩], true⟩
        ⟨false, fun _ _ => .ok, fun _ => .ok, fun _ => 0, fun _ => false⟩ [3]).2.filter
          Call.reportsError =
        [Call.DeviceHandleError "Builder cannot be used after GetResult"] ∧
      (∀ args, Call.Method args ∉
        (Validating
          ⟨"BufferBuilderSetAllowedUsage", true, "set allowed usage",
            [⟨"usage", .bitmask, "BufferUsageBit", "value"⟩], true⟩
          ⟨false, fun _ _ => .ok, fun _ => .ok, fun _ => 0, fun _ => false⟩ [3]).2) :=
  have hw := Validating_consumed_builder
    ⟨"BufferBuilderSetAllowedUsage", true, "set allowed usage",
      [⟨"usage", .bitmask, "BufferUsageBit", "value"⟩], true⟩
    ⟨false, fun _ _ => .ok, fun _ => .ok, fun _ => 0, fun _ => false⟩ [3] rfl (by decide)
    (by decide) rfl
  ⟨hw.1, hw.2.1⟩

/-- C17: `GetResult` called through the validating table on a consumed builder
(`CanBeUsed()` is false) calls `HandleError` on the device with a message that contains
"GetResult", then `HandleResult` with a null result, does not call the builder's
`GetResult`, and returns the null handle. -/
theorem Validating_GetResult_on_consumed_builder (m : Method) (self : Self)
    (values : List Nat) (hb : m.isBuilder = true) (hn : m.name = "get result")
    (hv : m.returnsVoid = false) (hc : self.CanBeUsed = false) :
    Validating m self values =
        (some 0,
          [Call.CanBeUsed, Call.DeviceHandleError "Builder cannot be used after GetResult",
            Call.HandleResult 0]) ∧
      "Builder cannot be used after GetResult" =
        "Builder cannot be used after " ++ "GetResult" ++ "" ∧
      ∀ args, Call.Method args ∉ (Validating m self values).2 := by
  have e := Validating_consumed_eq m self values hb (by rw [hn]; decide) (by rw [hn]; decide) hc
  rw [e]
  simp [hn, hv]

/-- The witness of C17: `GetResult` on a consumed buffer builder. -/
theorem Validating_GetResult_on_consumed_builder_witness :
    Validating ⟨"BufferBuilderGetResult", true, "get result", [], false⟩
        ⟨false, fun _ _ => .ok, fun _ => .ok, fun _ => 42, fun _ => false⟩ [] =
      (some 0,
        [Call.CanBeUsed, Call.DeviceHandleError "Builder cannot be used after GetResult",
          Call.HandleResult 0]) :=
  (Validating_GetResult_on_consumed_builder
    ⟨"BufferBuilderGetResult", true, "get result", [], false⟩
    ⟨false, fun _ _ => .ok, fun _ => .ok, fun _ => 42, fun _ => false⟩ [] rfl rfl rfl rfl).1

end dawn_native

namespace dawn_native

/-- The counterexample of C18: a bitmask argument out of range on a consumed builder.  The
error reported is the consumed-builder one, on the device; "Bad value in
BufferBuilderSetAllowedUsage" is not reported. -/
theorem Validating_bad_value_on_consumed_builder :
    Validating
        ⟨"BufferBuilderSetAllowedUsage", true, "set allowed usage",
          [⟨"usage", .bitmask, "BufferUsageBit", "value"⟩], true⟩
        ⟨false, fun _ v => if v < 4 then .ok else .error "Invalid value", fun _ => .ok,
          fun _ => 0, fun _ => false⟩ [9] =
      (none, [Call.CanBeUsed, Call.DeviceHandleError "Builder cannot be used after GetResult"]) := by
  decide

/-- C18, amended: for a validating entry point that is not stopped by the consumed-builder
check (the type is no builder, or the method is `Reference` or `Release`, or
`CanBeUsed()` is true), if some enum or bitmask argument is rejected by its generated
validator then the one error reported is "Bad value in " followed by the method suffix, on
the builder for a builder type and on the device otherwise, the underlying method is not
called, and the entry point returns nothing (`void`) or the value-initialised result. -/
theorem Validating_bad_value (m : Method) (self : Self) (values : List Nat)
    (hu : m.isBuilder = true → m.name ≠ "release" → m.name ≠ "reference" →
      self.CanBeUsed = true)
    (hbad : ∃ p ∈ m.arguments.zip values,
      (p.1.category = Category.enumeration ∨ p.1.category = Category.bitmask) ∧
        (self.Validate p.1.cppType p.2).IsError = true) :
    (Validating m self values).2.filter Call.reportsError =
        [if m.isBuilder then Call.HandleError ("Bad value in " ++ m.suffix)
          else Call.DeviceHandleError ("Bad value in " ++ m.suffix)] ∧
      (∀ args, Call.Method args ∉ (Validating m self values).2) ∧
      (Validating m self values).1 = (if m.returnsVoid then none else some 0) := by
  obtain ⟨pre, hpre, he⟩ := ValidateBase_usable m self values hu
  obtain ⟨l1, l2, _, l4⟩ := ValidateBase_loop_spec m self (m.arguments.zip values)
  have hfalse : (ValidateBase.loop m self false (m.arguments.zip values)).1 = false :=
    l1.mpr hbad
  have hbase : (ValidateBase m self values).1 = false := by rw [he]; exact hfalse
  have hchecks := Validating_checks_of_base_false m self values hbase
  have hinv : (Validating.checks m self values).1 = false := by rw [hchecks]; exact hbase
  rw [Validating_eq_of_invalid m self values hinv, hchecks, he]
  simp only [hfalse, Bool.false_eq_true, if_false] at l2
  refine ⟨?_, ?_, rfl⟩
  · simp only [List.filter_append, l2]
    have hbv : badValue m =
        (if m.isBuilder then Call.HandleError ("Bad value in " ++ m.suffix)
          else Call.DeviceHandleError ("Bad value in " ++ m.suffix)) := by
      unfold badValue
      cases m.isBuilder <;> rfl
    rw [← hbv]
    rcases hpre with hpre | hpre <;> subst hpre <;>
      by_cases hg : m.isBuilder = true ∧ m.name = "get result" <;>
      simp [hg, Call.reportsError]
  · intro args hmem
    simp only [List.mem_append] at hmem
    rcases hmem with (hmem | hmem) | hmem
    · rcases hpre with hpre | hpre <;> subst hpre <;> simp at hmem
    · have : Call.Method args ∈
          (ValidateBase.loop m self false (m.arguments.zip values)).2.filter Call.isMethod :=
        List.mem_filter.mpr ⟨hmem, rfl⟩
      rw [l4] at this
      simp at this
    · by_cases hg : m.isBuilder = true ∧ m.name = "get result" <;> simp [hg] at hmem

/-- The witness of C18: `SetAllowedUsage` with a bitmask out of range on a builder that can
be used, and on a type that is no builder. -/
theorem Validating_bad_value_witness :
    (Validating
        ⟨"BufferBuilderSetAllowedUsage", true, "set allowed usage",
          [⟨"usage", .bitmask, "BufferUsageBit", "value"⟩], true⟩
        ⟨true, fun _ v => if v < 4 then .ok else .error "Invalid value", fun _ => .ok,
          fun _ => 0, fun _ => false⟩ [9]).2.filter Call.reportsError =
      [Call.HandleError "Bad value in BufferBuilderSetAllowedUsage"] :=
  (Validating_bad_value
    ⟨"BufferBuilderSetAllowedUsage", true, "set allowed usage",
      [⟨"usage", .bitmask, "BufferUsageBit", "value"⟩], true⟩
    ⟨true, fun _ v => if v < 4 then .ok else .error "Invalid value", fun _ => .ok,
      fun _ => 0, fun _ => false⟩ [9] (fun _ _ _ => rfl)
    ⟨(⟨"usage", .bitmask, "BufferUsageBit", "value"⟩, 9), by decide, by decide⟩).1

theorem ValidateBase_false_iff (m : Method) (self : Self) (values : List Nat) :
    (ValidateBase m self values).1 = false ↔
      ((m.isBuilder = true ∧ m.name ≠ "release" ∧ m.name ≠ "reference" ∧
          self.CanBeUsed = false) ∨
        ∃ p ∈ m.arguments.zip values,
          (p.1.category = Category.enumeration ∨ p.1.category = Category.bitmask) ∧
            (self.Validate p.1.cppType p.2).IsError = true) := by
  by_cases hg : m.isBuilder = true ∧ m.name ≠ "release" ∧ m.name ≠ "reference" ∧
      self.CanBeUsed = false
  · rw [ValidateBase_consumed m self values hg.1 hg.2.1 hg.2.2.1 hg.2.2.2]
    exact ⟨fun _ => Or.inl hg, fun _ => rfl⟩
  · have hu : m.isBuilder = true → m.name ≠ "release" → m.name ≠ "reference" →
        self.CanBeUsed = true := by
      intro a b c
      by_contra hcon
      exact hg ⟨a, b, c, by simpa using hcon⟩
    obtain ⟨pre, _, he⟩ := ValidateBase_usable m self values hu
    rw [he]
    simp only
    rw [(ValidateBase_loop_spec m self (m.arguments.zip values)).1]
    constructor
    · exact fun h => Or.inr h
    · rintro (h | h)
      · exact absurd h hg
      · exact h

theorem ValidateBase_filter_of_true (m : Method) (self : Self) (values : List Nat)
    (h : (ValidateBase m self values).1 = true) :
    (ValidateBase m self values).2.filter Call.isHandleOrConsumedError = [] := by
  obtain ⟨_, b2, _⟩ := ValidateBase_counts m self values
  rw [h] at b2
  simp only [if_true] at b2
  rw [List.filter_eq_nil_iff]
  exact List.countP_eq_zero.mp b2

theorem Validating_checks_false_iff (m : Method) (self : Self) (values : List Nat) :
    (Validating.checks m self values).1 = false ↔ FailsValidation m self values := by
  have hbase := ValidateBase_false_iff m self values
  have hfails : FailsValidation m self values ↔
      ((ValidateBase m self values).1 = false ∨
        (m.suffix ∈ methodsWithExtraValidation ∧
          (self.ValidateMethod values).IsError = true)) := by
    unfold FailsValidation
    rw [hbase, or_assoc]
  rw [hfails]
  unfold Validating.checks
  by_cases hx : m.suffix ∈ methodsWithExtraValidation
  · cases hv : (ValidateBase m self values).1 with
    | false => simp [hx, hv]
    | true =>
      by_cases hb : m.isBuilder = true
      · by_cases he : (self.ValidateMethod values).IsError = true
        · simp [hx, hv, hb, he]
        · simp [hx, hv, hb, he]
      · by_cases he : (self.ValidateMethod values).IsError = true
        · simp [hx, hv, hb, he, DeviceBase.ConsumedError]
        · simp [hx, hv, hb, he, DeviceBase.ConsumedError]
  · simp [hx]

theorem Validating_checks_filter_of_valid (m : Method) (self : Self) (values : List Nat)
    (h : (Validating.checks m self values).1 = true) :
    (Validating.checks m self values).2.filter Call.isHandleOrConsumedError =
      (if m.suffix ∈ methodsWithExtraValidation ∧ m.isBuilder = false then
        [Call.ConsumedError .ok]
      else
        []) := by
  unfold Validating.checks at h ⊢
  by_cases hx : m.suffix ∈ methodsWithExtraValidation
  · cases hv : (ValidateBase m self values).1 with
    | false => simp [hx, hv] at h
    | true =>
      have hf := ValidateBase_filter_of_true m self values hv
      by_cases hb : m.isBuilder = true
      · by_cases he : (self.ValidateMethod values).IsError = true
        · simp [hx, hv, hb, he] at h
        · simp [hx, hv, hb, he, List.filter_append, hf, Call.isHandleOrConsumedError]
      · cases herr : self.ValidateMethod values with
        | error message =>
          simp [hx, hv, hb, herr, DeviceBase.ConsumedError, MaybeError.IsError] at h
        | ok =>
          simp [hx, hv, hb, List.filter_append, hf, Call.isHandleOrConsumedError]
  · have hv : (ValidateBase m self values).1 = true := by simpa [hx] using h
    simp [hx, ValidateBase_filter_of_true m self values hv]

/-- The counterexample of C19: `QueueSubmit`, a method of a type that is no builder with an
extra validator, on arguments that pass every check.  `ConsumedError` is called once, with
the success value, although validation passes and the method is called.  And `Reference`
on a consumed builder makes no call of `HandleError` or `ConsumedError` at all. -/
theorem Validating_QueueSubmit_calls_ConsumedError :
    Validating
        ⟨"QueueSubmit", false, "submit",
          [⟨"numCommands", .native, "uint32_t", "value"⟩,
            ⟨"commands", .object, "CommandBuffer", "const*"⟩], true⟩
        ⟨true, fun _ _ => .ok, fun _ => .ok, fun _ => 0, fun _ => false⟩ [1, 77] =
        (none,
          [Call.ValidateMethod [1, 77], Call.ConsumedError .ok, Call.Method [1, 77]]) ∧
      (Validating
        ⟨"QueueSubmit", false, "submit",
          [⟨"numCommands", .native, "uint32_t", "value"⟩,
            ⟨"commands", .object, "CommandBuffer", "const*"⟩], true⟩
        ⟨true, fun _ _ => .ok, fun _ => .ok, fun _ => 0, fun _ => false⟩ [1, 77]).2.countP
          Call.isHandleOrConsumedError = 1 ∧
      (Validating ⟨"TextureBuilderReference", true, "reference", [], true⟩
        ⟨false, fun _ _ => .ok, fun _ => .ok, fun _ => 0, fun _ => false⟩ []).2.countP
          Call.isHandleOrConsumedError = 0 := by
  decide

/-- C19, amended: exactly one error is reported per failed call.  An argument tuple fails
validation when the object is a consumed builder and the method is one the template
checks for it, or an enum or bitmask argument is rejected, or the extra validator of the
method gives an error; these are exactly the tuples on which the checks of the entry
point leave `valid` false.  On each of them exactly one of the calls of the entry point is
a `HandleError` or a `ConsumedError`, that call reports an error, and the method is not
called.  On every other tuple no call reports an error and the method is called once;
`HandleError` is not called, and `ConsumedError` is called once, with the success value,
exactly for a method with an extra validator on a type that is no builder. -/
theorem Validating_one_error (m : Method) (self : Self) (values : List Nat) :
    ((Validating.checks m self values).1 = false ↔ FailsValidation m self values) ∧
      (FailsValidation m self values →
        (Validating m self values).2.countP Call.isHandleOrConsumedError = 1 ∧
          (Validating m self values).2.countP Call.reportsError = 1 ∧
          (Validating m self values).2.countP Call.isMethod = 0) ∧
      (¬ FailsValidation m self values →
        (Validating m self values).2.countP Call.reportsError = 0 ∧
          (Validating m self values).2.filter Call.isHandleOrConsumedError =
            (if m.suffix ∈ methodsWithExtraValidation ∧ m.isBuilder = false then
              [Call.ConsumedError .ok]
            else
              []) ∧
          (Validating m self values).2.countP Call.isMethod = 1) := by
  have hiff := Validating_checks_false_iff m self values
  obtain ⟨c1, c2, c3⟩ := Validating_checks_counts m self values
  refine ⟨hiff, ?_, ?_⟩
  · intro hfails
    have hv : (Validating.checks m self values).1 = false := hiff.mpr hfails
    rw [Validating_eq_of_invalid m self values hv]
    simp only [hv, Bool.false_eq_true, if_false] at c1 c2 ⊢
    by_cases hg : m.isBuilder = true ∧ m.name = "get result" <;>
      simp [hg, List.countP_append, c1, c2, c3, Call.reportsError,
        Call.isHandleOrConsumedError, Call.isMethod]
  · intro hpass
    have hv : (Validating.checks m self values).1 = true := by
      cases hc : (Validating.checks m self values).1 with
      | false => exact absurd (hiff.mp hc) hpass
      | true => rfl
    have hf := Validating_checks_filter_of_valid m self values hv
    rw [Validating_eq_of_valid m self values hv]
    simp only [hv, if_true] at c1
    refine ⟨?_, ?_, ?_⟩
    · simp [List.countP_append, c1, Call.reportsError]
    · rw [List.filter_append, hf]
      simp [Call.isHandleOrConsumedError]
    · simp [List.countP_append, c3, Call.isMethod]

/-- An instance of C19 with a failing extra validator: `QueueSubmit` on arguments that pass
the generated checks while `ValidateSubmit` gives an error.  The one call of
`ConsumedError` reports it and `Submit` is not called. -/
theorem Validating_one_error_witness :
    FailsValidation
        ⟨"QueueSubmit", false, "submit",
          [⟨"numCommands", .native, "uint32_t", "value"⟩,
            ⟨"commands", .object, "CommandBuffer", "const*"⟩], true⟩
        ⟨true, fun _ _ => .ok, fun _ => .error "invalid command buffer", fun _ => 0,
          fun _ => false⟩ [1, 77] ∧
      ((Validating
          ⟨"QueueSubmit", false, "submit",
            [⟨"numCommands", .native, "uint32_t", "value"⟩,
              ⟨"commands", .object, "CommandBuffer", "const*"⟩], true⟩
          ⟨true, fun _ _ => .ok, fun _ => .error "invalid command buffer", fun _ => 0,
            fun _ => false⟩ [1, 77]).2.countP Call.isHandleOrConsumedError = 1 ∧
        (Validating
          ⟨"QueueSubmit", false, "submit",
            [⟨"numCommands", .native, "uint32_t", "value"⟩,
              ⟨"commands", .object, "CommandBuffer", "const*"⟩], true⟩
          ⟨true, fun _ _ => .ok, fun _ => .error "invalid command buffer", fun _ => 0,
            fun _ => false⟩ [1, 77]).2.countP Call.reportsError = 1 ∧
        (Validating
          ⟨"QueueSubmit", false, "submit",
            [⟨"numCommands", .native, "uint32_t", "value"⟩,
              ⟨"commands", .object, "CommandBuffer", "const*"⟩], true⟩
          ⟨true, fun _ _ => .ok, fun _ => .error "invalid command buffer", fun _ => 0,
            fun _ => false⟩ [1, 77]).2.countP Call.isMethod = 0) :=
  have hfails : FailsValidation
      ⟨"QueueSubmit", false, "submit",
        [⟨"numCommands", .native, "uint32_t", "value"⟩,
          ⟨"commands", .object, "CommandBuffer", "const*"⟩], true⟩
      ⟨true, fun _ _ => .ok, fun _ => .error "invalid command buffer", fun _ => 0,
        fun _ => false⟩ [1, 77] := Or.inr (Or.inr ⟨by decide, rfl⟩)
  ⟨hfails,
    (Validating_one_error
      ⟨"QueueSubmit", false, "submit",
        [⟨"numCommands", .native, "uint32_t", "value"⟩,
          ⟨"commands", .object, "CommandBuffer", "const*"⟩], true⟩
      ⟨true, fun _ _ => .ok, fun _ => .error "invalid command buffer", fun _ => 0,
        fun _ => false⟩ [1, 77]).2.1 hfails⟩

/-- C20: on arguments that pass the generated checks and the extra validator, if there is
one, the validating entry point calls the underlying method with the same converted
arguments as the non-validating one and returns the same value; it reports no error.
The non-validating entry point makes no other call than the method. -/
theorem Validating_agrees_with_NonValidating (m : Method) (self : Self) (values : List Nat)
    (hvalid : (Validating.checks m self values).1 = true) :
    (Validating m self values).1 = (NonValidating m self values).1 ∧
      (Validating m self values).2 =
        (Validating.checks m self values).2 ++ (NonValidating m self values).2 ∧
      (NonValidating m self values).2 = [Call.Method (convertAll m values)] ∧
      (Validating m self values).2.filter Call.isMethod = (NonValidating m self values).2 ∧
      (Validating m self values).2.countP Call.reportsError = 0 := by
  obtain ⟨c1, _, c3⟩ := Validating_checks_counts m self values
  rw [Validating_eq_of_valid m self values hvalid]
  simp only [hvalid, if_true] at c1
  refine ⟨rfl, rfl, rfl, ?_, ?_⟩
  · have h0 : (Validating.checks m self values).2.filter Call.isMethod = [] := by
      rw [List.filter_eq_nil_iff]
      intro c hc
      have := List.countP_eq_zero.mp c3 c hc
      simpa using this
    simp [List.filter_append, h0, NonValidating, Call.isMethod]
  · simp [List.countP_append, c1, Call.reportsError]

/-- The witness of C20: `SetAllowedUsage` with a bitmask in range on a builder that can be
used. -/
theorem Validating_agrees_with_NonValidating_witness :
    (Validating
        ⟨"BufferBuilderSetAllowedUsage", true, "set allowed usage",
          [⟨"usage", .bitmask, "BufferUsageBit", "value"⟩], true⟩
        ⟨true, fun _ v => if v < 4 then .ok else .error "Invalid value", fun _ => .ok,
          fun _ => 0, fun _ => false⟩ [3]).2.filter Call.isMethod = [Call.Method [3]] ∧
      (NonValidating
        ⟨"BufferBuilderSetAllowedUsage", true, "set allowed usage",
          [⟨"usage", .bitmask, "BufferUsageBit", "value"⟩], true⟩
        ⟨true, fun _ v => if v < 4 then .ok else .error "Invalid value", fun _ => .ok,
          fun _ => 0, fun _ => false⟩ [3]).2 = [Call.Method [3]] :=
  have hw := Validating_agrees_with_NonValidating
    ⟨"BufferBuilderSetAllowedUsage", true, "set allowed usage",
      [⟨"usage", .bitmask, "BufferUsageBit", "value"⟩], true⟩
    ⟨true, fun _ v => if v < 4 then .ok else .error "Invalid value", fun _ => .ok,
      fun _ => 0, fun _ => false⟩ [3] (by decide)
  ⟨hw.2.2.2.1, hw.2.2.1⟩

end dawn_native

/-! ## Destruction, the index bound and the order of the bindings -/

/-- C21: the destructor of a blueprint layout makes no call of `UncacheBindGroupLayout` and
leaves the device as it was; the destructor of a real layout makes exactly one call, with
that layout, and leaves the device that this call leaves. -/
theorem destructor_uncaches_iff_real (self : BindGroupLayoutBase) (mDevice : DeviceBase) :
    (self.mIsBlueprint = true →
      BindGroupLayoutBase.destructor.calls self = [] ∧ self.destructor mDevice = mDevice) ∧
    (self.mIsBlueprint = false →
      BindGroupLayoutBase.destructor.calls self = [self.address] ∧
        self.destructor mDevice = mDevice.UncacheBindGroupLayout self) := by
  constructor
  · intro h
    simp [BindGroupLayoutBase.destructor.calls, BindGroupLayoutBase.destructor, h]
  · intro h
    simp [BindGroupLayoutBase.destructor.calls, BindGroupLayoutBase.destructor, h]

/-- C22: a descriptor with a null `nextInChain`, valid visibilities and types, and the binding
indices 16 and 17 does not make the validation return an error: index 16 passes the test
`binding.binding <= kMaxBindingsPerGroup` and `bindingsSet.set(16)` throws
`std::out_of_range`, before the entry with index 17 is looked at. -/
theorem ValidateBindGroupLayoutDescriptor_throws_before_large_index
    (ValidateShaderStageBit ValidateBindingType : Nat → MaybeError)
    (hs : ValidateShaderStageBit 4 = .ok) (ht : ValidateBindingType 3 = .ok) :
    ValidateBindGroupLayoutDescriptor ValidateShaderStageBit ValidateBindingType
      ⟨0, [⟨16, 4, 3⟩, ⟨17, 4, 3⟩]⟩ = .throwsOutOfRange := by
  simp [ValidateBindGroupLayoutDescriptor, ValidateBindGroupLayoutDescriptor.loop, hs, ht,
    Bitset.test?, Bitset.set?, Bitset.zero]

/-- The witness of C22, with validators that accept every value. -/
theorem ValidateBindGroupLayoutDescriptor_throws_before_large_index_witness :
    ValidateBindGroupLayoutDescriptor (fun _ => .ok) (fun _ => .ok)
      ⟨0, [⟨16, 4, 3⟩, ⟨17, 4, 3⟩]⟩ = .throwsOutOfRange :=
  ValidateBindGroupLayoutDescriptor_throws_before_large_index (fun _ => .ok) (fun _ => .ok)
    rfl rfl

theorem ValidateBindGroupLayoutDescriptor_loop_accepts
    (ValidateShaderStageBit ValidateBindingType : Nat → MaybeError)
    (bs : List BindGroupBinding) :
    ∀ (i : Nat) (bindingsSet : Bitset),
      ValidateBindGroupLayoutDescriptor.loop ValidateShaderStageBit ValidateBindingType
        i bindingsSet bs = .returns .ok →
      ∀ b ∈ bs, b.binding < kMaxBindingsPerGroup := by
  induction bs with
  | nil =>
    intro i bindingsSet _ b hb
    simp at hb
  | cons x rest ih =>
    intro i bindingsSet h b hb
    unfold ValidateBindGroupLayoutDescriptor.loop at h
    split at h
    · simp at h
    · split at h
      · simp at h
      · split at h
        · simp at h
        · split at h
          · simp at h
          · simp at h
          · split at h
            · simp at h
            · rename_i bindingsSet' hset
              rcases List.mem_cons.mp hb with hbx | hbr
              · subst hbx
                unfold Bitset.set? at hset
                by_cases hlt : b.binding < kMaxBindingsPerGroup
                · exact hlt
                · simp [hlt] at hset
              · exact ih _ _ h b hbr

theorem fill_spec (bs : List BindGroupBinding) :
    ∀ (a : LayoutBindingInfo), (∀ b ∈ bs, b.binding < kMaxBindingsPerGroup) →
      (bs.map (fun b => b.binding)).Nodup →
      ∃ a', BindGroupLayoutBase.fill a bs = some a' ∧
        (∀ k : Fin kMaxBindingsPerGroup,
          a'.mask k = true ↔ (a.mask k = true ∨ ∃ b ∈ bs, b.binding = k.val)) ∧
        (∀ b ∈ bs, ∀ k : Fin kMaxBindingsPerGroup, b.binding = k.val →
          a'.visibilities k = b.visibility ∧ a'.types k = b.type) ∧
        (∀ k : Fin kMaxBindingsPerGroup, (∀ b ∈ bs, b.binding ≠ k.val) →
          a'.visibilities k = a.visibilities k ∧ a'.types k = a.types k) := by
  induction bs with
  | nil =>
    intro a _ _
    exact ⟨a, rfl, by simp, by simp, by simp⟩
  | cons x rest ih =>
    intro a hr hn
    have hx : x.binding < kMaxBindingsPerGroup := hr x (List.mem_cons_self _ _)
    have hr' : ∀ b ∈ rest, b.binding < kMaxBindingsPerGroup :=
      fun b hb => hr b (List.mem_cons_of_mem _ hb)
    rw [List.map_cons, List.nodup_cons] at hn
    obtain ⟨hxn, hn'⟩ := hn
    have hxr : ∀ b ∈ rest, b.binding ≠ x.binding := by
      intro b hb hbx
      exact hxn (List.mem_map.mpr ⟨b, hb, hbx⟩)
    obtain ⟨a', hf, hm, hl, hu⟩ := ih
      { visibilities := Function.update a.visibilities ⟨x.binding, hx⟩ x.visibility
        types := Function.update a.types ⟨x.binding, hx⟩ x.type
        mask := Function.update a.mask ⟨x.binding, hx⟩ true } hr' hn'
    refine ⟨a', ?_, ?_, ?_, ?_⟩
    · unfold BindGroupLayoutBase.fill
      simp only [hx, dite_true]
      exact hf
    · intro k
      rw [hm k]
      by_cases hk : k = ⟨x.binding, hx⟩
      · subst hk
        simp
      · have hk' : x.binding ≠ k.val := fun h => hk (Fin.ext h.symm)
        simp [Function.update_noteq hk, hk']
    · intro b hb k hbk
      rcases List.mem_cons.mp hb with hbx | hbr
      · subst hbx
        have hk : k = ⟨b.binding, hx⟩ := Fin.ext hbk.symm
        have := hu k (fun c hc hck => hxr c hc (hck.trans hbk.symm))
        rw [this.1, this.2, hk]
        simp
      · exact hl b hbr k hbk
    · intro k hk
      have hkx : k ≠ ⟨x.binding, hx⟩ := by
        intro h
        exact hk x (List.mem_cons_self _ _) (by rw [h])
      have := hu k (fun b hb => hk b (List.mem_cons_of_mem _ hb))
      rw [this.1, this.2]
      simp [Function.update_noteq hkx]

/-- C27: for a descriptor that the validation accepts, every binding index is below
`kMaxBindingsPerGroup`, and the constructor's loop runs to its end with every write to
`visibilities[index]`, `types[index]` and `mask[index]` inside the arrays and the bitset. -/
theorem accepted_descriptor_in_bounds
    (ValidateShaderStageBit ValidateBindingType : Nat → MaybeError) (uninit : Uninit)
    (descriptor : BindGroupLayoutDescriptor)
    (h : ValidateBindGroupLayoutDescriptor ValidateShaderStageBit ValidateBindingType
      descriptor = .returns .ok) :
    (∀ b ∈ descriptor.bindings, b.binding < kMaxBindingsPerGroup) ∧
      ∃ info, BindGroupLayoutBase.bindingInfo uninit descriptor = some info := by
  have hall : ∀ b ∈ descriptor.bindings, b.binding < kMaxBindingsPerGroup := by
    unfold ValidateBindGroupLayoutDescriptor at h
    split at h
    · simp at h
    · exact ValidateBindGroupLayoutDescriptor_loop_accepts _ _ _ _ _ h
  refine ⟨hall, ?_⟩
  have hfill : ∀ (bs : List BindGroupBinding) (a : LayoutBindingInfo),
      (∀ b ∈ bs, b.binding < kMaxBindingsPerGroup) →
      ∃ a', BindGroupLayoutBase.fill a bs = some a' := by
    intro bs
    induction bs with
    | nil => exact fun a _ => ⟨a, rfl⟩
    | cons x rest ih =>
      intro a hr
      have hx : x.binding < kMaxBindingsPerGroup := hr x (List.mem_cons_self _ _)
      unfold BindGroupLayoutBase.fill
      simp only [hx, dite_true]
      exact ih _ (fun b hb => hr b (List.mem_cons_of_mem _ hb))
  exact hfill _ _ hall

/-- The witness of C27: the descriptor with the bindings 0 and 1 is accepted. -/
theorem accepted_descriptor_in_bounds_witness :
    ValidateBindGroupLayoutDescriptor (fun _ => .ok) (fun _ => .ok)
        ⟨0, [⟨0, 4, 3⟩, ⟨1, 4, 3⟩]⟩ = .returns .ok ∧
      ((∀ b ∈ (⟨0, [⟨0, 4, 3⟩, ⟨1, 4, 3⟩]⟩ : BindGroupLayoutDescriptor).bindings,
          b.binding < kMaxBindingsPerGroup) ∧
        ∃ info, BindGroupLayoutBase.bindingInfo ⟨fun _ => 7, fun _ => 9⟩
          ⟨0, [⟨0, 4, 3⟩, ⟨1, 4, 3⟩]⟩ = some info) :=
  ⟨by simp [ValidateBindGroupLayoutDescriptor, ValidateBindGroupLayoutDescriptor.loop,
      Bitset.test?, Bitset.set?, Bitset.zero, Function.update],
    accepted_descriptor_in_bounds (fun _ => .ok) (fun _ => .ok) ⟨fun _ => 7, fun _ => 9⟩
      ⟨0, [⟨0, 4, 3⟩, ⟨1, 4, 3⟩]⟩
      (by simp [ValidateBindGroupLayoutDescriptor, ValidateBindGroupLayoutDescriptor.loop,
        Bitset.test?, Bitset.set?, Bitset.zero, Function.update])⟩

/-- C28: for two descriptors whose bindings are a permutation of each other, with pairwise
distinct binding indices below `kMaxBindingsPerGroup`, the constructor builds both binding
infos, they are equal under `operator==`, the mask of each is exactly the set of listed
indices, and the slot of each listed index holds that binding's visibility and type. -/
theorem bindingInfo_order_independent (uninit1 uninit2 : Uninit)
    (descriptor1 descriptor2 : BindGroupLayoutDescriptor)
    (hperm : descriptor1.bindings.Perm descriptor2.bindings)
    (hdistinct : (descriptor1.bindings.map (fun b => b.binding)).Nodup)
    (hrange : ∀ b ∈ descriptor1.bindings, b.binding < kMaxBindingsPerGroup) :
    ∃ info1 info2,
      BindGroupLayoutBase.bindingInfo uninit1 descriptor1 = some info1 ∧
      BindGroupLayoutBase.bindingInfo uninit2 descriptor2 = some info2 ∧
      operatorEq info1 info2 = true ∧
      (∀ k : Fin kMaxBindingsPerGroup,
        (info1.mask k = true ↔ ∃ b ∈ descriptor1.bindings, b.binding = k.val) ∧
        (info2.mask k = true ↔ ∃ b ∈ descriptor1.bindings, b.binding = k.val)) ∧
      (∀ b ∈ descriptor1.bindings, ∀ k : Fin kMaxBindingsPerGroup, b.binding = k.val →
        info1.visibilities k = b.visibility ∧ info1.types k = b.type ∧
        info2.visibilities k = b.visibility ∧ info2.types k = b.type) := by
  have hdistinct2 : (descriptor2.bindings.map (fun b => b.binding)).Nodup :=
    ((hperm.map (fun b => b.binding)).nodup_iff).mp hdistinct
  have hrange2 : ∀ b ∈ descriptor2.bindings, b.binding < kMaxBindingsPerGroup :=
    fun b hb => hrange b (hperm.mem_iff.mpr hb)
  obtain ⟨info1, h1, hm1, hl1, _⟩ := fill_spec descriptor1.bindings
    { visibilities := uninit1.visibilities, types := uninit1.types, mask := Bitset.zero }
    hrange hdistinct
  obtain ⟨info2, h2, hm2, hl2, _⟩ := fill_spec descriptor2.bindings
    { visibilities := uninit2.visibilities, types := uninit2.types, mask := Bitset.zero }
    hrange2 hdistinct2
  have hmask1 : ∀ k : Fin kMaxBindingsPerGroup,
      info1.mask k = true ↔ ∃ b ∈ descriptor1.bindings, b.binding = k.val := by
    intro k
    rw [hm1 k]
    simp [Bitset.zero]
  have hmask2 : ∀ k : Fin kMaxBindingsPerGroup,
      info2.mask k = true ↔ ∃ b ∈ descriptor1.bindings, b.binding = k.val := by
    intro k
    rw [hm2 k]
    simp only [Bitset.zero, Bool.false_eq_true, false_or]
    constructor
    · rintro ⟨b, hb, hbk⟩
      exact ⟨b, hperm.mem_iff.mpr hb, hbk⟩
    · rintro ⟨b, hb, hbk⟩
      exact ⟨b, hperm.mem_iff.mp hb, hbk⟩
  refine ⟨info1, info2, h1, h2, ?_, fun k => ⟨hmask1 k, hmask2 k⟩, ?_⟩
  · refine (operatorEq_iff info1 info2).mpr ⟨?_, ?_⟩
    · funext k
      have e : info1.mask k = true ↔ info2.mask k = true := (hmask1 k).trans (hmask2 k).symm
      cases h1k : info1.mask k <;> cases h2k : info2.mask k <;> rw [h1k, h2k] at e <;>
        simp at e ⊢
    · intro k hk
      obtain ⟨b, hb, hbk⟩ := (hmask1 k).mp hk
      have a1 := hl1 b hb k hbk
      have a2 := hl2 b (hperm.mem_iff.mp hb) k hbk
      exact ⟨a1.1.trans a2.1.symm, a1.2.trans a2.2.symm⟩
  · intro b hb k hbk
    have a1 := hl1 b hb k hbk
    have a2 := hl2 b (hperm.mem_iff.mp hb) k hbk
    exact ⟨a1.1, a1.2, a2.1, a2.2⟩

/-- The witness of C28: the bindings 2 and 5, listed in both orders. -/
theorem bindingInfo_order_independent_witness :
    ∃ info1 info2,
      BindGroupLayoutBase.bindingInfo ⟨fun _ => 7, fun _ => 9⟩
        ⟨0, [⟨2, 1, 0⟩, ⟨5, 4, 3⟩]⟩ = some info1 ∧
      BindGroupLayoutBase.bindingInfo ⟨fun _ => 8, fun _ => 6⟩
        ⟨0, [⟨5, 4, 3⟩, ⟨2, 1, 0⟩]⟩ = some info2 ∧
      operatorEq info1 info2 = true ∧
      (∀ k : Fin kMaxBindingsPerGroup,
        (info1.mask k = true ↔
          ∃ b ∈ (⟨0, [⟨2, 1, 0⟩, ⟨5, 4, 3⟩]⟩ : BindGroupLayoutDescriptor).bindings,
            b.binding = k.val) ∧
        (info2.mask k = true ↔
          ∃ b ∈ (⟨0, [⟨2, 1, 0⟩, ⟨5, 4, 3⟩]⟩ : BindGroupLayoutDescriptor).bindings,
            b.binding = k.val)) ∧
      (∀ b ∈ (⟨0, [⟨2, 1, 0⟩, ⟨5, 4, 3⟩]⟩ : BindGroupLayoutDescriptor).bindings,
        ∀ k : Fin kMaxBindingsPerGroup, b.binding = k.val →
        info1.visibilities k = b.visibility ∧ info1.types k = b.type ∧
        info2.visibilities k = b.visibility ∧ info2.types k = b.type) :=
  bindingInfo_order_independent ⟨fun _ => 7, fun _ => 9⟩ ⟨fun _ => 8, fun _ => 6⟩
    ⟨0, [⟨2, 1, 0⟩, ⟨5, 4, 3⟩]⟩ ⟨0, [⟨5, 4, 3⟩, ⟨2, 1, 0⟩]⟩
    (List.Perm.swap _ _ _) (by decide) (by decide)

namespace vulkan

/-! ## Wait semaphores, the fence assertion and the artificial advance -/

theorem CheckPassedFences_asserts_of_pairwise (drv : Driver) (l : List (VkHandle × Serial)) :
    ∀ completed : Serial, (completed :: l.map Prod.snd).Pairwise (· < ·) →
      Device.CheckPassedFences.asserts drv l completed = true := by
  induction l with
  | nil =>
    intro completed _
    rfl
  | cons x rest ih =>
    intro completed hp
    obtain ⟨fence, fenceSerial⟩ := x
    unfold Device.CheckPassedFences.asserts
    by_cases hs : drv.GetFenceStatus fence = VkResult.VK_NOT_READY
    · rw [if_pos hs]
    · rw [if_neg hs]
      rw [List.map_cons, List.pairwise_cons] at hp
      have hlt : completed < fenceSerial := hp.1 fenceSerial (by simp)
      rw [Bool.and_eq_true]
      exact ⟨decide_eq_true hlt, ih fenceSerial hp.2⟩

/-- C25: in every state a device reaches, and whatever the driver answers about the fences,
each time `CheckPassedFences` reaches `ASSERT(fenceSerial > mCompletedSerial)` the
assertion holds; the serials of the fence FIFO increase strictly from the front to the
back, and each is greater than `mCompletedSerial` and less than `mNextSerial`. -/
theorem Reachable_fence_assertion_holds (d : Device) (h : Reachable d) (drv : Driver) :
    Device.CheckPassedFences.asserts drv d.mFencesInFlight d.mCompletedSerial = true ∧
      (d.mFencesInFlight.map Prod.snd).Pairwise (· < ·) ∧
      ∀ x ∈ d.mFencesInFlight, d.mCompletedSerial < x.2 ∧ x.2 < d.mNextSerial := by
  obtain ⟨hp, hl, _⟩ := h.serialInv
  refine ⟨CheckPassedFences_asserts_of_pairwise drv _ _ hp, ?_, ?_⟩
  · exact (List.pairwise_cons.mp hp).2
  · intro x hx
    exact ⟨(List.pairwise_cons.mp hp).1 x.2 (List.mem_map.mpr ⟨x, hx, rfl⟩), hl x hx⟩

/-- The witness of C25: the state after two submissions, a tick during which the first fence
is done, and a third submission. -/
theorem Reachable_fence_assertion_holds_witness :
    Reachable (run
        [.QueueSubmit ⟨fun _ => .VK_NOT_READY, 50, 200, 300⟩ [],
          .QueueSubmit ⟨fun _ => .VK_NOT_READY, 51, 201, 301⟩ [],
          .TickImpl ⟨fun f => if f = 50 then .VK_SUCCESS else .VK_NOT_READY, 52, 202, 302⟩,
          .QueueSubmit ⟨fun _ => .VK_NOT_READY, 53, 203, 303⟩ []] Device.initial) ∧
      (Device.CheckPassedFences.asserts ⟨fun _ => .VK_SUCCESS, 54, 204, 304⟩
        (run
          [.QueueSubmit ⟨fun _ => .VK_NOT_READY, 50, 200, 300⟩ [],
            .QueueSubmit ⟨fun _ => .VK_NOT_READY, 51, 201, 301⟩ [],
            .TickImpl ⟨fun f => if f = 50 then .VK_SUCCESS else .VK_NOT_READY, 52, 202, 302⟩,
            .QueueSubmit ⟨fun _ => .VK_NOT_READY, 53, 203, 303⟩ []]
          Device.initial).mFencesInFlight
        (run
          [.QueueSubmit ⟨fun _ => .VK_NOT_READY, 50, 200, 300⟩ [],
            .QueueSubmit ⟨fun _ => .VK_NOT_READY, 51, 201, 301⟩ [],
            .TickImpl ⟨fun f => if f = 50 then .VK_SUCCESS else .VK_NOT_READY, 52, 202, 302⟩,
            .QueueSubmit ⟨fun _ => .VK_NOT_READY, 53, 203, 303⟩ []]
          Device.initial).mCompletedSerial = true) :=
  ⟨Reachable.run _ Reachable.initial,
    (Reachable_fence_assertion_holds _ (Reachable.run _ Reachable.initial)
      ⟨fun _ => .VK_SUCCESS, 54, 204, 304⟩).1⟩

theorem TickImpl_eq_atLastStatement (drv : Driver) (d : Device) :
    d.TickImpl drv =
      Device.TickImpl.submitOrAdvance drv (Device.TickImpl.atLastStatement drv d) := rfl

/-- C26: when `TickImpl`, called on a device in a reachable state, reaches its last statement
with no pending commands and `mCompletedSerial == mNextSerial - 1`, the fence FIFO and
the list of commands in flight are empty there, and they are empty after the tick, which
has advanced both serials by one. -/
theorem TickImpl_artificial_advance_idle (d : Device) (drv : Driver) (h : Reachable d)
    (hp : (Device.TickImpl.atLastStatement drv d).mPendingCommands.pool = VK_NULL_HANDLE)
    (hc : (Device.TickImpl.atLastStatement drv d).mCompletedSerial =
      (Device.TickImpl.atLastStatement drv d).mNextSerial - 1) :
    (Device.TickImpl.atLastStatement drv d).mFencesInFlight = [] ∧
      (Device.TickImpl.atLastStatement drv d).mCommandsInFlight = [] ∧
      d.TickImpl drv =
        { Device.TickImpl.atLastStatement drv d with
          mCompletedSerial := (Device.TickImpl.atLastStatement drv d).mCompletedSerial + 1
          mNextSerial := (Device.TickImpl.atLastStatement drv d).mNextSerial + 1 } ∧
      (d.TickImpl drv).mFencesInFlight = [] ∧
      (d.TickImpl drv).mCommandsInFlight = [] := by
  obtain ⟨hinv, hnext, _, _⟩ := CheckPassedFences_spec drv d h.serialInv
  have hcmd := h.commandsInv
  have hfe : (Device.TickImpl.atLastStatement drv d).mFencesInFlight =
      (d.CheckPassedFences drv).mFencesInFlight := rfl
  have hce : (Device.TickImpl.atLastStatement drv d).mCompletedSerial =
      (d.CheckPassedFences drv).mCompletedSerial := rfl
  have hne : (Device.TickImpl.atLastStatement drv d).mNextSerial =
      (d.CheckPassedFences drv).mNextSerial := rfl
  have hme : (Device.TickImpl.atLastStatement drv d).mCommandsInFlight =
      (d.CheckPassedFences drv).mCommandsInFlight.ClearUpTo
        (d.CheckPassedFences drv).mCompletedSerial := rfl
  have hcmds : (d.CheckPassedFences drv).mCommandsInFlight = d.mCommandsInFlight := by
    rw [CheckPassedFences_eq]
  rw [hce, hne, hnext] at hc
  have hfences : (Device.TickImpl.atLastStatement drv d).mFencesInFlight = [] := by
    rw [hfe]
    cases hl : (d.CheckPassedFences drv).mFencesInFlight with
    | nil => rfl
    | cons x rest =>
      exfalso
      obtain ⟨hpw, hlt, _⟩ := hinv
      rw [hl] at hpw hlt
      have h1 : (d.CheckPassedFences drv).mCompletedSerial < x.2 :=
        (List.pairwise_cons.mp hpw).1 x.2 (by simp)
      have h2 : x.2 < (d.CheckPassedFences drv).mNextSerial := hlt x (by simp)
      rw [hnext] at h2
      unfold Serial at *
      omega
  have hcommands : (Device.TickImpl.atLastStatement drv d).mCommandsInFlight = [] := by
    rw [hme, hcmds]
    unfold SerialQueue.ClearUpTo
    rw [List.filter_eq_nil_iff]
    intro e he
    have := (hcmd.2 e he).2
    simp only [decide_eq_true_eq, not_not]
    unfold Serial at *
    omega
  have htick : d.TickImpl drv =
      { Device.TickImpl.atLastStatement drv d with
        mCompletedSerial := (Device.TickImpl.atLastStatement drv d).mCompletedSerial + 1
        mNextSerial := (Device.TickImpl.atLastStatement drv d).mNextSerial + 1 } := by
    rw [TickImpl_eq_atLastStatement]
    unfold Device.TickImpl.submitOrAdvance
    rw [if_neg (not_not.mpr hp), if_pos (by rw [hce, hne, hnext]; exact hc)]
  refine ⟨hfences, hcommands, htick, ?_, ?_⟩
  · rw [htick]
    exact hfences
  · rw [htick]
    exact hcommands

/-- The witness of C26: one submission, then a tick during which its fence is done. -/
theorem TickImpl_artificial_advance_idle_witness :
    Reachable (run [.QueueSubmit ⟨fun _ => .VK_NOT_READY, 50, 200, 300⟩ []] Device.initial) ∧
      (Device.TickImpl.atLastStatement ⟨fun _ => .VK_SUCCESS, 51, 201, 301⟩
        (run [.QueueSubmit ⟨fun _ => .VK_NOT_READY, 50, 200, 300⟩ []]
          Device.initial)).mPendingCommands.pool = VK_NULL_HANDLE ∧
      (Device.TickImpl.atLastStatement ⟨fun _ => .VK_SUCCESS, 51, 201, 301⟩
        (run [.QueueSubmit ⟨fun _ => .VK_NOT_READY, 50, 200, 300⟩ []]
          Device.initial)).mCompletedSerial = 1 ∧
      (Device.TickImpl.atLastStatement ⟨fun _ => .VK_SUCCESS, 51, 201, 301⟩
        (run [.QueueSubmit ⟨fun _ => .VK_NOT_READY, 50, 200, 300⟩ []]
          Device.initial)).mNextSerial = 2 ∧
      (Device.TickImpl.atLastStatement ⟨fun _ => .VK_SUCCESS, 51, 201, 301⟩
        (run [.QueueSubmit ⟨fun _ => .VK_NOT_READY, 50, 200, 300⟩ []]
          Device.initial)).mFencesInFlight = [] ∧
      (Device.TickImpl.atLastStatement ⟨fun _ => .VK_SUCCESS, 51, 201, 301⟩
        (run [.QueueSubmit ⟨fun _ => .VK_NOT_READY, 50, 200, 300⟩ []]
          Device.initial)).mCommandsInFlight = [] ∧
      (Device.TickImpl ⟨fun _ => .VK_SUCCESS, 51, 201, 301⟩
        (run [.QueueSubmit ⟨fun _ => .VK_NOT_READY, 50, 200, 300⟩ []]
          Device.initial)).mNextSerial = 3 :=
  have w := TickImpl_artificial_advance_idle
    (run [.QueueSubmit ⟨fun _ => .VK_NOT_READY, 50, 200, 300⟩ []] Device.initial)
    ⟨fun _ => .VK_SUCCESS, 51, 201, 301⟩ (Reachable.run _ Reachable.initial) (by decide)
    (by decide)
  ⟨Reachable.run _ Reachable.initial, by decide, by decide, by decide, w.1, w.2.1,
    by rw [w.2.2.1]; decide⟩

end vulkan

namespace vulkan

/-! ## `Device::CreateDevice`: the choice of the queue family -/

theorem and_eq_mod_eight_and (n k : Nat) (hk : 7 &&& k = k) : n &&& k = (n % 8) &&& k := by
  have h7 : n &&& 7 = n % 8 := Nat.and_pow_two_sub_one_eq_mod n 3
  rw [← h7, Nat.and_assoc, hk]

theorem universal_iff (family : VkQueueFamilyProperties) :
    family.queueFlags &&& kUniversalFlags = kUniversalFlags ↔ family.universal := by
  unfold VkQueueFamilyProperties.universal
  show family.queueFlags &&& 7 = 7 ↔
    family.queueFlags &&& 1 ≠ 0 ∧ family.queueFlags &&& 2 ≠ 0 ∧ family.queueFlags &&& 4 ≠ 0
  rw [and_eq_mod_eight_and _ 7 rfl, and_eq_mod_eight_and _ 1 rfl, and_eq_mod_eight_and _ 2 rfl,
    and_eq_mod_eight_and _ 4 rfl]
  have hlt : family.queueFlags % 8 < 8 := Nat.mod_lt _ (by decide)
  generalize family.queueFlags % 8 = r at hlt
  interval_cases r <;> decide

theorem toInt32_ne_neg_one (n : Nat) (h : n < 2 ^ 32 - 1) : toInt32 n ≠ -1 := by
  unfold toInt32
  have hm : n % 2 ^ 32 = n := Nat.mod_eq_of_lt (by omega)
  rw [hm]
  split <;> omega

theorem toUInt32_toInt32 (n : Nat) (h : n < 2 ^ 32) : toUInt32 (toInt32 n) = n := by
  unfold toInt32 toUInt32
  have hm : n % 2 ^ 32 = n := Nat.mod_eq_of_lt h
  rw [hm]
  split <;> omega

theorem findUniversal_spec (l : List VkQueueFamilyProperties) :
    ∀ i : Nat, i + l.length < 2 ^ 32 →
      (Device.CreateDevice.findUniversal i l = -1 ↔ ∀ family ∈ l, ¬ family.universal) ∧
      ∀ (k : Nat) (family : VkQueueFamilyProperties), l[k]? = some family → family.universal →
        (∀ (j : Nat) (other : VkQueueFamilyProperties),
          j < k → l[j]? = some other → ¬ other.universal) →
        Device.CreateDevice.findUniversal i l = toInt32 (i + k) := by
  induction l with
  | nil =>
    intro i _
    refine ⟨by simp [Device.CreateDevice.findUniversal], ?_⟩
    intro k family hk
    simp at hk
  | cons x rest ih =>
    intro i hi
    rw [List.length_cons] at hi
    obtain ⟨ih1, ih2⟩ := ih (i + 1) (by omega)
    unfold Device.CreateDevice.findUniversal
    by_cases hx : x.queueFlags &&& kUniversalFlags = kUniversalFlags
    · rw [if_pos hx]
      have hu : x.universal := (universal_iff x).mp hx
      refine ⟨?_, ?_⟩
      · constructor
        · intro h
          exact absurd h (toInt32_ne_neg_one i (by omega))
        · intro h
          exact absurd hu (h x (List.mem_cons_self _ _))
      · intro k family hk _ hfirst
        cases k with
        | zero => rfl
        | succ k =>
          exact absurd hu (hfirst 0 x (Nat.succ_pos _) (by simp))
    · rw [if_neg hx]
      have hu : ¬ x.universal := fun h => hx ((universal_iff x).mpr h)
      refine ⟨?_, ?_⟩
      · rw [ih1]
        constructor
        · intro h family hf
          rcases List.mem_cons.mp hf with hfx | hfr
          · rw [hfx]
            exact hu
          · exact h family hfr
        · intro h family hf
          exact h family (List.mem_cons_of_mem _ hf)
      · intro k family hk hfu hfirst
        cases k with
        | zero =>
          simp only [List.getElem?_cons_zero, Option.some.injEq] at hk
          rw [hk] at hu
          exact absurd hfu hu
        | succ k =>
          rw [List.getElem?_cons_succ] at hk
          have := ih2 k family hk hfu (fun j other hj ho =>
            hfirst (j + 1) other (by omega) (by rw [List.getElem?_cons_succ]; exact ho))
          rw [this]
          congr 1
          omega

theorem CreateDevice_of_found (queueFamilies : List VkQueueFamilyProperties) (swapchain : Bool)
    (vkCreateDevice : Nat → List ExtensionName → VkResult × VkHandle)
    (mQueueFamily : Nat) (mVkDevice : VkHandle) (i : Nat) (hi : i < 2 ^ 32 - 1)
    (hfind : Device.CreateDevice.findUniversal 0 queueFamilies = toInt32 i) :
    Device.CreateDevice queueFamilies swapchain vkCreateDevice mQueueFamily mVkDevice =
      { returned := decide ((vkCreateDevice i (if swapchain then
          [ExtensionName.kExtensionNameKhrSwapchain] else [])).1 = VkResult.VK_SUCCESS)
        usedKnobs := { swapchain := swapchain, independentBlend := true }
        mQueueFamily := i
        mVkDevice := (vkCreateDevice i (if swapchain then
          [ExtensionName.kExtensionNameKhrSwapchain] else [])).2
        calls := [(i, if swapchain then [ExtensionName.kExtensionNameKhrSwapchain] else [])] } := by
  have hne : toInt32 i ≠ -1 := toInt32_ne_neg_one i hi
  have hback : toUInt32 (toInt32 i) = i := toUInt32_toInt32 i (by omega)
  unfold Device.CreateDevice
  simp only [hfind, hne, if_false, hback]
  by_cases hr :
      (vkCreateDevice i (if swapchain = true then
        [ExtensionName.kExtensionNameKhrSwapchain] else [])).1 = VkResult.VK_SUCCESS
  · cases swapchain <;> simp_all
  · cases swapchain <;> simp_all

theorem CreateDevice_of_not_found (queueFamilies : List VkQueueFamilyProperties)
    (swapchain : Bool) (vkCreateDevice : Nat → List ExtensionName → VkResult × VkHandle)
    (mQueueFamily : Nat) (mVkDevice : VkHandle)
    (hfind : Device.CreateDevice.findUniversal 0 queueFamilies = -1) :
    Device.CreateDevice queueFamilies swapchain vkCreateDevice mQueueFamily mVkDevice =
      { returned := false
        usedKnobs := { swapchain := swapchain, independentBlend := true }
        mQueueFamily := mQueueFamily
        mVkDevice := mVkDevice
        calls := [] } := by
  unfold Device.CreateDevice
  simp only [hfind, if_true]
  cases swapchain <;> rfl

/-- C30: `CreateDevice`, on a list of queue families as long as the `uint32_t` count of Vulkan
allows, takes the first family whose `queueFlags` contain the graphics, the compute and
the transfer bit: its index becomes `mQueueFamily` and is the one passed to
`fn.CreateDevice`, whose result decides the value returned.  It returns false with no
call of `fn.CreateDevice` exactly when no family has the three bits, and then leaves
`mQueueFamily` and `mVkDevice` as they were. -/
theorem CreateDevice_selects_first_universal
    (queueFamilies : List VkQueueFamilyProperties) (swapchain : Bool)
    (vkCreateDevice : Nat → List ExtensionName → VkResult × VkHandle)
    (mQueueFamily : Nat) (mVkDevice : VkHandle)
    (hsize : queueFamilies.length < 2 ^ 32) :
    (∀ (i : Nat) (family : VkQueueFamilyProperties),
      queueFamilies[i]? = some family → family.universal →
      (∀ (j : Nat) (other : VkQueueFamilyProperties),
        j < i → queueFamilies[j]? = some other → ¬ other.universal) →
      (Device.CreateDevice queueFamilies swapchain vkCreateDevice mQueueFamily
          mVkDevice).mQueueFamily = i ∧
        ∃ extensions : List ExtensionName,
          (Device.CreateDevice queueFamilies swapchain vkCreateDevice mQueueFamily
            mVkDevice).calls = [(i, extensions)] ∧
          (Device.CreateDevice queueFamilies swapchain vkCreateDevice mQueueFamily
            mVkDevice).mVkDevice = (vkCreateDevice i extensions).2 ∧
          ((Device.CreateDevice queueFamilies swapchain vkCreateDevice mQueueFamily
            mVkDevice).returned = true ↔
              (vkCreateDevice i extensions).1 = VkResult.VK_SUCCESS)) ∧
    (((Device.CreateDevice queueFamilies swapchain vkCreateDevice mQueueFamily
          mVkDevice).returned = false ∧
        (Device.CreateDevice queueFamilies swapchain vkCreateDevice mQueueFamily
          mVkDevice).calls = []) ↔
      ∀ family ∈ queueFamilies, ¬ family.universal) ∧
    ((∀ family ∈ queueFamilies, ¬ family.universal) →
      (Device.CreateDevice queueFamilies swapchain vkCreateDevice mQueueFamily
          mVkDevice).mQueueFamily = mQueueFamily ∧
        (Device.CreateDevice queueFamilies swapchain vkCreateDevice mQueueFamily
          mVkDevice).mVkDevice = mVkDevice) := by
  obtain ⟨hnone, hfirst⟩ := findUniversal_spec queueFamilies 0 (by omega)
  refine ⟨?_, ?_, ?_⟩
  · intro i family hi hu hmin
    have hfind := hfirst i family hi hu hmin
    rw [Nat.zero_add] at hfind
    have hlt : i < queueFamilies.length := by
      by_contra hge
      rw [List.getElem?_eq_none (by omega)] at hi
      exact absurd hi (by simp)
    rw [CreateDevice_of_found queueFamilies swapchain vkCreateDevice mQueueFamily mVkDevice i
      (by omega) hfind]
    exact ⟨rfl, _, rfl, rfl, by simp⟩
  · constructor
    · intro h
      by_contra hex
      have hfind : Device.CreateDevice.findUniversal 0 queueFamilies ≠ -1 :=
        fun hf => hex (hnone.mp hf)
      have hcalls := h.2
      unfold Device.CreateDevice at hcalls
      simp only [hfind, if_false] at hcalls
      cases swapchain <;> simp only [Bool.false_eq_true, if_false, if_true] at hcalls <;>
        split at hcalls <;> simp at hcalls
    · intro h
      rw [CreateDevice_of_not_found _ _ _ _ _ (hnone.mpr h)]
      exact ⟨rfl, rfl⟩
  · intro h
    rw [CreateDevice_of_not_found _ _ _ _ _ (hnone.mpr h)]
    exact ⟨rfl, rfl⟩

/-- The witness of C30: four queue families with the flags 2, 6, 15 and 7, of which the
third is the first with the three bits. -/
theorem CreateDevice_selects_first_universal_witness :
    ([⟨2⟩, ⟨6⟩, ⟨15⟩, ⟨7⟩] : List VkQueueFamilyProperties).length < 2 ^ 32 ∧
    ((∀ (i : Nat) (family : VkQueueFamilyProperties),
      ([⟨2⟩, ⟨6⟩, ⟨15⟩, ⟨7⟩] : List VkQueueFamilyProperties)[i]? = some family → family.universal →
      (∀ (j : Nat) (other : VkQueueFamilyProperties),
        j < i → ([⟨2⟩, ⟨6⟩, ⟨15⟩, ⟨7⟩] : List VkQueueFamilyProperties)[j]? = some other →
          ¬ other.universal) →
      (Device.CreateDevice [⟨2⟩, ⟨6⟩, ⟨15⟩, ⟨7⟩] true (fun _ _ => (.VK_SUCCESS, 55)) 0 0).mQueueFamily = i ∧
        ∃ extensions : List ExtensionName,
          (Device.CreateDevice [⟨2⟩, ⟨6⟩, ⟨15⟩, ⟨7⟩] true (fun _ _ => (.VK_SUCCESS, 55)) 0 0).calls = [(i, extensions)] ∧
          (Device.CreateDevice [⟨2⟩, ⟨6⟩, ⟨15⟩, ⟨7⟩] true (fun _ _ => (.VK_SUCCESS, 55)) 0 0).mVkDevice =
            ((fun _ _ => (.VK_SUCCESS, 55) : Nat → List ExtensionName → VkResult × VkHandle)
              i extensions).2 ∧
          ((Device.CreateDevice [⟨2⟩, ⟨6⟩, ⟨15⟩, ⟨7⟩] true (fun _ _ => (.VK_SUCCESS, 55)) 0 0).returned = true ↔
            ((fun _ _ => (.VK_SUCCESS, 55) : Nat → List ExtensionName → VkResult × VkHandle)
              i extensions).1 = VkResult.VK_SUCCESS)) ∧
    (((Device.CreateDevice [⟨2⟩, ⟨6⟩, ⟨15⟩, ⟨7⟩] true (fun _ _ => (.VK_SUCCESS, 55)) 0 0).returned = false ∧
        (Device.CreateDevice [⟨2⟩, ⟨6⟩, ⟨15⟩, ⟨7⟩] true (fun _ _ => (.VK_SUCCESS, 55)) 0 0).calls = []) ↔
      ∀ family ∈ ([⟨2⟩, ⟨6⟩, ⟨15⟩, ⟨7⟩] : List VkQueueFamilyProperties), ¬ family.universal) ∧
    ((∀ family ∈ ([⟨2⟩, ⟨6⟩, ⟨15⟩, ⟨7⟩] : List VkQueueFamilyProperties), ¬ family.universal) →
      (Device.CreateDevice [⟨2⟩, ⟨6⟩, ⟨15⟩, ⟨7⟩] true (fun _ _ => (.VK_SUCCESS, 55)) 0 0).mQueueFamily = 0 ∧
        (Device.CreateDevice [⟨2⟩, ⟨6⟩, ⟨15⟩, ⟨7⟩] true (fun _ _ => (.VK_SUCCESS, 55)) 0 0).mVkDevice = 0)) :=
  ⟨by decide,
    CreateDevice_selects_first_universal [⟨2⟩, ⟨6⟩, ⟨15⟩, ⟨7⟩] true
      (fun _ _ => (.VK_SUCCESS, 55)) 0 0 (by decide)⟩

/-- With the flags 2, 6, 15 and 7 and a driver that succeeds, the family chosen is the one of
index 2, and the swapchain extension is requested. -/
theorem CreateDevice_example :
    (Device.CreateDevice [⟨2⟩, ⟨6⟩, ⟨15⟩, ⟨7⟩] true (fun _ _ => (.VK_SUCCESS, 55)) 0 0).mQueueFamily = 2 ∧
      (Device.CreateDevice [⟨2⟩, ⟨6⟩, ⟨15⟩, ⟨7⟩] true (fun _ _ => (.VK_SUCCESS, 55)) 0 0).returned = true ∧
      (Device.CreateDevice [⟨2⟩, ⟨6⟩, ⟨15⟩, ⟨7⟩] true (fun _ _ => (.VK_SUCCESS, 55)) 0 0).calls = [(2, [ExtensionName.kExtensionNameKhrSwapchain])] := by
  decide

end vulkan

namespace dawn_native

/-! ## `Reference` and `Release` on a builder -/

theorem ValidateBase_loop_calls (m : Method) (self : Self) (l : List (Argument × Nat)) :
    ∀ error : Bool, ∀ c ∈ (ValidateBase.loop m self error l).2,
      c = badValue m ∨ ∃ t v, c = Call.Validate t v := by
  induction l with
  | nil =>
    intro error c hc
    simp [ValidateBase.loop] at hc
  | cons p rest ih =>
    intro error c hc
    obtain ⟨arg, value⟩ := p
    unfold ValidateBase.loop at hc
    by_cases hcat : arg.category = Category.enumeration ∨ arg.category = Category.bitmask
    · simp only [hcat, if_true] at hc
      split at hc
      · have hc2 := List.mem_append.mp hc
        rcases hc2 with hc2 | hc2
        · exact Or.inr ⟨_, _, List.mem_singleton.mp hc2⟩
        · exact Or.inl (List.mem_singleton.mp hc2)
      · split at hc
        · have hc2 := List.mem_append.mp hc
          rcases hc2 with hc2 | hc2
          · exact Or.inr ⟨_, _, List.mem_singleton.mp hc2⟩
          · exact Or.inl (List.mem_singleton.mp hc2)
        · have hc2 := List.mem_append.mp hc
          rcases hc2 with hc2 | hc2
          · exact Or.inr ⟨_, _, List.mem_singleton.mp hc2⟩
          · exact ih _ c hc2
    · simp only [hcat, if_false, List.nil_append] at hc
      split at hc
      · simp only [List.mem_singleton] at hc
        exact Or.inl hc
      · exact ih _ c hc

theorem CanBeUsed_ne_badValue (m : Method) : Call.CanBeUsed ≠ badValue m := by
  unfold badValue
  cases m.isBuilder <;> simp

/-- C29: the entry point of `Reference` or `Release` in the validating table, for a builder
type as for any other, never calls `CanBeUsed()`, whatever it would answer, so also on a
builder that has produced its result.  The method has no extra validation; when no enum
or bitmask argument is rejected (`Reference` and `Release` take no argument), the entry
point reports no error, calls the method of the object once with the converted arguments,
and returns what the non-validating entry point returns. -/
theorem Validating_Reference_Release_unchecked (m : Method) (self : Self) (values : List Nat)
    (hn : m.name = "release" ∨ m.name = "reference")
    (hs : m.suffix ∉ methodsWithExtraValidation)
    (hv : ∀ p ∈ m.arguments.zip values,
      (p.1.category = Category.enumeration ∨ p.1.category = Category.bitmask) →
        (self.Validate p.1.cppType p.2).IsError = false) :
    Call.CanBeUsed ∉ (Validating m self values).2 ∧
      (Validating m self values).2.filter Call.reportsError = [] ∧
      (Validating m self values).2.filter Call.isHandleOrConsumedError = [] ∧
      (Validating m self values).2.filter Call.isMethod = [Call.Method (convertAll m values)] ∧
      (Validating m self values).1 = (NonValidating m self values).1 := by
  have hguard : ¬ (m.isBuilder = true ∧ m.name ≠ "release" ∧ m.name ≠ "reference") := by
    rintro ⟨_, h1, h2⟩
    rcases hn with hn | hn
    · exact h1 hn
    · exact h2 hn
  have hbase : ValidateBase m self values =
      ValidateBase.loop m self false (m.arguments.zip values) := by
    unfold ValidateBase
    rw [if_neg hguard]
  have hchecks : Validating.checks m self values =
      ValidateBase.loop m self false (m.arguments.zip values) := by
    unfold Validating.checks
    simp only [hs, if_false, hbase]
  obtain ⟨l1, l2, l3, l4⟩ := ValidateBase_loop_spec m self (m.arguments.zip values)
  have htrue : (ValidateBase.loop m self false (m.arguments.zip values)).1 = true := by
    by_contra hfalse
    have hf : (ValidateBase.loop m self false (m.arguments.zip values)).1 = false := by
      simpa using hfalse
    obtain ⟨p, hp, hcat, herr⟩ := l1.mp hf
    rw [hv p hp hcat] at herr
    exact absurd herr (by simp)
  rw [htrue] at l2 l3
  simp only [if_true] at l2 l3
  rw [Validating_eq_of_valid m self values (by rw [hchecks]; exact htrue), hchecks]
  refine ⟨?_, ?_, ?_, ?_, rfl⟩
  · intro hmem
    rcases List.mem_append.mp hmem with hmem | hmem
    · rcases ValidateBase_loop_calls m self _ false _ hmem with hc | ⟨t, v, hc⟩
      · exact CanBeUsed_ne_badValue m hc
      · exact absurd hc (by simp)
    · simp at hmem
  · rw [List.filter_append, l2]
    simp [Call.reportsError]
  · rw [List.filter_append, l3]
    simp [Call.isHandleOrConsumedError]
  · rw [List.filter_append, l4]
    simp [Call.isMethod]

/-- The witness of C29: `Release` of a buffer builder that has produced its result. -/
theorem Validating_Reference_Release_unchecked_witness :
    Call.CanBeUsed ∉ (Validating ⟨"BufferBuilderRelease", true, "release", [], true⟩
        ⟨false, fun _ _ => .ok, fun _ => .ok, fun _ => 0, fun _ => false⟩ []).2 ∧
      (Validating ⟨"BufferBuilderRelease", true, "release", [], true⟩
        ⟨false, fun _ _ => .ok, fun _ => .ok, fun _ => 0, fun _ => false⟩ []).2.filter
          Call.reportsError = [] ∧
      (Validating ⟨"BufferBuilderRelease", true, "release", [], true⟩
        ⟨false, fun _ _ => .ok, fun _ => .ok, fun _ => 0, fun _ => false⟩ []).2.filter
          Call.isHandleOrConsumedError = [] ∧
      (Validating ⟨"BufferBuilderRelease", true, "release", [], true⟩
        ⟨false, fun _ _ => .ok, fun _ => .ok, fun _ => 0, fun _ => false⟩ []).2.filter
          Call.isMethod =
        [Call.Method (convertAll ⟨"BufferBuilderRelease", true, "release", [], true⟩ [])] ∧
      (Validating ⟨"BufferBuilderRelease", true, "release", [], true⟩
        ⟨false, fun _ _ => .ok, fun _ => .ok, fun _ => 0, fun _ => false⟩ []).1 =
        (NonValidating ⟨"BufferBuilderRelease", true, "release", [], true⟩
          ⟨false, fun _ _ => .ok, fun _ => .ok, fun _ => 0, fun _ => false⟩ []).1 :=
  Validating_Reference_Release_unchecked ⟨"BufferBuilderRelease", true, "release", [], true⟩
    ⟨false, fun _ _ => .ok, fun _ => .ok, fun _ => 0, fun _ => false⟩ [] (Or.inl rfl)
    (by decide) (by simp)

end dawn_native

end backend
